import Mathlib

/-!
# MokManager: the MOK list codec, the transactions, the prompts and the menu

A shallow embedding of `src/MokManager.c`.

* Memory is a finite list of bytes; a pointer is an offset into the buffer it
  points into.  A read that leaves the buffer is undefined behaviour in C and
  is the outcome `Res.fault` here.
* Loops whose termination depends on the input (`count_keys`,
  `build_mok_list`) take a budget of iterations; `Res.timeout` is the outcome
  of a run that used the budget up.
* Unsigned 32-bit fields are naturals reduced `% 2 ^ 32` wherever the C code
  stores into a `UINT32`.
* The firmware is a `World`: the variable store, the console input still to
  come, and a trace of the runtime calls made.  A run that waits for input
  that never comes is `Res.blocked`.
* Random bytes are a finite supply; a loop that uses the supply up is still
  running and ends as `Res.timeout`.
* `Print` and `ClearScreen` leave no trace; the message boxes do.
* A local variable read before anything was stored in it holds a value the
  machine supplies (`World.indeterminate`).
* Allocations and the SHA-256 primitives are taken to succeed.
-/

namespace MokManager

/-! ## Bytes, GUIDs and sizes -/

/-- One octet of memory. -/
abbrev Byte := Fin 256

/-- EFI_GUID: sixteen bytes, in memory order. -/
abbrev EFI_GUID := { g : List Byte // g.length = 16 }

/-- Modelled from the spec: `signature.h` is not part of the sources; the X.509
certificate type GUID `{a5c059a1-94e4-4aa7-87b5-ab155c2bf072}` in memory order. -/
def EfiCertX509Guid : EFI_GUID :=
  ⟨[0xa1, 0x59, 0xc0, 0xa5, 0xe4, 0x94, 0xa7, 0x4a,
    0x87, 0xb5, 0xab, 0x15, 0x5c, 0x2b, 0xf0, 0x72], rfl⟩

/-- Modelled from the spec: `signature.h` is not part of the sources; the SHA-256
hash type GUID `{c1c41626-504c-4092-aca9-41f936934328}` in memory order. -/
def EfiHashSha256Guid : EFI_GUID :=
  ⟨[0x26, 0x16, 0xc4, 0xc1, 0x4c, 0x50, 0x92, 0x40,
    0xac, 0xa9, 0x41, 0xf9, 0x36, 0x93, 0x43, 0x28], rfl⟩

/-- Modelled from the spec: `shim.h` is not part of the sources; the owner GUID
`SHIM_LOCK_GUID` `{605dab50-e046-4300-abb6-3dd810dd8b23}` in memory order. -/
def SHIM_LOCK_GUID : EFI_GUID :=
  ⟨[0x50, 0xab, 0x5d, 0x60, 0x46, 0xe0, 0x00, 0x43,
    0xab, 0xb6, 0x3d, 0xd8, 0x10, 0xdd, 0x8b, 0x23], rfl⟩

/-- The value of `sizeof(EFI_GUID)`. -/
abbrev sizeof_EFI_GUID : Nat := 16

/-- Modelled from the spec: `signature.h` is not part of the sources; the packed
list header `{type_guid, list_size, header_size, sig_size}` is 16 + 4 + 4 + 4 bytes. -/
abbrev sizeof_EFI_SIGNATURE_LIST : Nat := 28

/-- Modelled from the spec: `signature.h` is not part of the sources; the packed
`EFI_SIGNATURE_DATA` is the owner GUID followed by the one-byte placeholder
`SignatureData[1]` of the flexible trailer. -/
abbrev sizeof_EFI_SIGNATURE_DATA : Nat := 17

/-- The value of `SHA256_DIGEST_SIZE`. -/
abbrev SHA256_DIGEST_SIZE : Nat := 32

/-! ## Outcomes and memory reads -/

/-- Outcome of a run of C code: it returns a value, reads or writes outside
its buffers, uses up its loop budget, or waits for input for ever. -/
inductive Res (α : Type) where
  | ok : α → Res α
  | fault : Res α
  | timeout : Res α
  | blocked : Res α
  deriving DecidableEq, Repr

/-- Apply a function to the value of a run that returned. -/
def Res.map {α β : Type} (f : α → β) : Res α → Res β
  | Res.ok a => Res.ok (f a)
  | Res.fault => Res.fault
  | Res.timeout => Res.timeout
  | Res.blocked => Res.blocked

/-- Little-endian store of a `UINT32`: the value is reduced modulo `2 ^ 32`. -/
def le32 (n : Nat) : List Byte :=
  [⟨n % 256, Nat.mod_lt _ (by decide)⟩,
   ⟨n / 256 % 256, Nat.mod_lt _ (by decide)⟩,
   ⟨n / 65536 % 256, Nat.mod_lt _ (by decide)⟩,
   ⟨n / 16777216 % 256, Nat.mod_lt _ (by decide)⟩]

/-- Little-endian load of a `UINT32` from the front of a byte sequence. -/
def u32At : List Byte → Option Nat
  | b0 :: b1 :: b2 :: b3 :: _ =>
    some (b0.val + 256 * b1.val + 65536 * b2.val + 16777216 * b3.val)
  | _ => none

/-- Load of a `UINT32` field at offset `p`; `none` when it is not inside `mem`. -/
def rd32 (mem : List Byte) (p : Nat) : Option Nat := u32At (mem.drop p)

/-- Load of an `EFI_GUID` at offset `p`; `none` when it is not inside `mem`. -/
def rdGuid (mem : List Byte) (p : Nat) : Option EFI_GUID :=
  if h : ((mem.drop p).take 16).length = 16 then some ⟨(mem.drop p).take 16, h⟩ else none

/-- The source of a `CopyMem` or `CompareMem`: the `n` bytes at offset `p`.  A transfer of
no bytes reads nothing, wherever `p` points; otherwise `none` when the range is
not inside `mem`. -/
def rdBytes (mem : List Byte) (p n : Nat) : Option (List Byte) :=
  if n = 0 then some []
  else if p + n ≤ mem.length then some ((mem.drop p).take n) else none

/-! ## The MOK list parser -/

/-- MokListNode: `Mok` points into the buffer the list was built from
(`none` is the NULL pointer). -/
structure MokListNode where
  MokSize : Nat
  Mok : Option Nat
  Type_ : EFI_GUID
  deriving DecidableEq, Repr

/-- The `while` loop of `count_keys`.  Arguments after the memory: remaining
budget, `dbsize`, `CertList` (offset of the current header), `MokNum`. -/
def count_keys_loop (Data : List Byte) : Nat → Nat → Nat → Nat → Res Nat
  | 0, _, _, _ => Res.timeout
  | fuel + 1, dbsize, CertList, MokNum =>
    if dbsize = 0 then Res.ok MokNum else
    match rd32 Data (CertList + 16) with
    | none => Res.fault
    | some SignatureListSize =>
      if dbsize < SignatureListSize then Res.ok MokNum else
      match rdGuid Data CertList with
      | none => Res.fault
      | some SignatureType =>
        if SignatureType ≠ EfiCertX509Guid ∧ SignatureType ≠ EfiHashSha256Guid then
          count_keys_loop Data fuel (dbsize - SignatureListSize)
            (CertList + SignatureListSize) MokNum
        else if SignatureType ≠ EfiCertX509Guid then
          match rd32 Data (CertList + 24) with
          | none => Res.fault
          | some SignatureSize =>
            if SignatureSize ≠ 48 then
              count_keys_loop Data fuel (dbsize - SignatureListSize)
                (CertList + SignatureListSize) MokNum
            else
              count_keys_loop Data fuel (dbsize - SignatureListSize)
                (CertList + SignatureListSize) ((MokNum + 1) % 2 ^ 32)
        else
          count_keys_loop Data fuel (dbsize - SignatureListSize)
            (CertList + SignatureListSize) ((MokNum + 1) % 2 ^ 32)

/-- The function `count_keys(Data, DataSize)`, run with a budget of `fuel` loop tests: the
value returned.  The message boxes it shows on the way are `count_keys_notify`;
`count_keys_call` puts the two together. -/
def count_keys (fuel : Nat) (Data : List Byte) (DataSize : Nat) : Res Nat :=
  count_keys_loop Data fuel DataSize 0 0

/-- The message boxes of the `while` loop of `count_keys`: the text of the
`console_notify` for every list the loop skips, in order.  The loop is the one
of `count_keys_loop`, which gives the count. -/
def count_keys_notify (Data : List Byte) : Nat → Nat → Nat → List String
  | 0, _, _ => []
  | fuel + 1, dbsize, CertList =>
    if dbsize = 0 then [] else
    match rd32 Data (CertList + 16) with
    | none => []
    | some SignatureListSize =>
      if dbsize < SignatureListSize then [] else
      match rdGuid Data CertList with
      | none => []
      | some SignatureType =>
        if SignatureType ≠ EfiCertX509Guid ∧ SignatureType ≠ EfiHashSha256Guid then
          "Doesn't look like a key or hash" ::
            count_keys_notify Data fuel (dbsize - SignatureListSize)
              (CertList + SignatureListSize)
        else if SignatureType ≠ EfiCertX509Guid then
          match rd32 Data (CertList + 24) with
          | none => []
          | some SignatureSize =>
            if SignatureSize ≠ 48 then
              "Doesn't look like a valid hash" ::
                count_keys_notify Data fuel (dbsize - SignatureListSize)
                  (CertList + SignatureListSize)
            else
              count_keys_notify Data fuel (dbsize - SignatureListSize)
                (CertList + SignatureListSize)
        else
          count_keys_notify Data fuel (dbsize - SignatureListSize)
            (CertList + SignatureListSize)

/-- The entry `build_mok_list` stores for a recognised list at `CertList`:
`Cert` is `CertList + sizeof(EFI_SIGNATURE_LIST) + SignatureHeaderSize`, `Mok`
is the address of `Cert->SignatureData`, and `MokSize` is the `UINT32`
difference `SignatureSize - sizeof(EFI_GUID)`. -/
def mok_node (CertList SignatureHeaderSize SignatureSize : Nat)
    (SignatureType : EFI_GUID) : MokListNode :=
  { MokSize := (SignatureSize + 2 ^ 32 - sizeof_EFI_GUID) % 2 ^ 32
    Mok := some (CertList + sizeof_EFI_SIGNATURE_LIST + SignatureHeaderSize + sizeof_EFI_GUID)
    Type_ := SignatureType }

/-- The `while` loop of `build_mok_list`.  `list` holds the entries
`list[0 .. count)` written so far (`count` is its length); a store to
`list[count]` with `count ≥ num` is outside the allocation and faults.
`SignatureSize` is loaded once per list that passes the type test: the C code
loads it in the hash test for a hash list and in the `MokSize` assignment for
a certificate list, in both cases before the loop goes on. -/
def build_mok_list_loop (num : Nat) (Data : List Byte) :
    Nat → Nat → Nat → List MokListNode → Res (List MokListNode)
  | 0, _, _, _ => Res.timeout
  | fuel + 1, dbsize, CertList, list =>
    if dbsize = 0 then Res.ok list else
    match rd32 Data (CertList + 16) with
    | none => Res.fault
    | some SignatureListSize =>
      if dbsize < SignatureListSize then Res.ok list else
      match rdGuid Data CertList with
      | none => Res.fault
      | some SignatureType =>
        if SignatureType ≠ EfiCertX509Guid ∧ SignatureType ≠ EfiHashSha256Guid then
          build_mok_list_loop num Data fuel (dbsize - SignatureListSize)
            (CertList + SignatureListSize) list
        else
          match rd32 Data (CertList + 24) with
          | none => Res.fault
          | some SignatureSize =>
            if SignatureType = EfiHashSha256Guid ∧ SignatureSize ≠ 48 then
              build_mok_list_loop num Data fuel (dbsize - SignatureListSize)
                (CertList + SignatureListSize) list
            else
              match rd32 Data (CertList + 20) with
              | none => Res.fault
              | some SignatureHeaderSize =>
                if list.length < num then
                  build_mok_list_loop num Data fuel (dbsize - SignatureListSize)
                    (CertList + SignatureListSize)
                    (list ++ [mok_node CertList SignatureHeaderSize SignatureSize SignatureType])
                else Res.fault

/-- The function `build_mok_list(num, Data, DataSize)`, run with a budget of `fuel` loop
tests.  The allocation of `num` nodes is taken to succeed. -/
def build_mok_list (fuel : Nat) (num : Nat) (Data : List Byte) (DataSize : Nat) :
    Res (List MokListNode) :=
  build_mok_list_loop num Data fuel DataSize 0 []

/-- One complete signature list as it lies in a stream: the packed header
`{type_guid, list_size, header_size, sig_size}` and, after it, the `body` that
`list_size` accounts for. -/
structure SigListBlock where
  SignatureType : EFI_GUID
  SignatureHeaderSize : Nat
  SignatureSize : Nat
  body : List Byte
  deriving DecidableEq, Repr

/-- The value of the `list_size` field of a complete list. -/
def SigListBlock.SignatureListSize (l : SigListBlock) : Nat :=
  sizeof_EFI_SIGNATURE_LIST + l.body.length

/-- The bytes of a complete list, little-endian and packed. -/
def SigListBlock.bytes (l : SigListBlock) : List Byte :=
  l.SignatureType.val ++ (le32 l.SignatureListSize ++ (le32 l.SignatureHeaderSize ++
    (le32 l.SignatureSize ++ l.body)))

/-- The three size fields are representable in 32 bits. -/
def SigListBlock.fits (l : SigListBlock) : Prop :=
  l.SignatureListSize < 2 ^ 32 ∧ l.SignatureHeaderSize < 2 ^ 32 ∧ l.SignatureSize < 2 ^ 32

instance (l : SigListBlock) : Decidable l.fits := by unfold SigListBlock.fits; infer_instance

/-- The skip rule in the spec's words: a list is skipped when its type GUID is
neither cert nor sha256, or it is declared as sha256 but `sig_size ≠ 48`. -/
def SigListBlock.skipped (l : SigListBlock) : Prop :=
  (l.SignatureType ≠ EfiCertX509Guid ∧ l.SignatureType ≠ EfiHashSha256Guid) ∨
  (l.SignatureType = EfiHashSha256Guid ∧ l.SignatureSize ≠ 48)

instance (l : SigListBlock) : Decidable l.skipped := by unfold SigListBlock.skipped; infer_instance

/-- A stream of complete lists, one after the other. -/
def streamOf : List SigListBlock → List Byte
  | [] => []
  | l :: ls => l.bytes ++ streamOf ls

/-- The entries expected from a stream of complete lists whose first list starts
at offset `start`: one entry for every list that is not skipped, in order. -/
def nodesFrom : Nat → List SigListBlock → List MokListNode
  | _, [] => []
  | start, l :: ls =>
    if l.skipped then nodesFrom (start + l.SignatureListSize) ls
    else mok_node start l.SignatureHeaderSize l.SignatureSize l.SignatureType ::
      nodesFrom (start + l.SignatureListSize) ls

/-! ## The signature-list format in the spec's words -/

/-- One signature of a list: `{owner_guid, data[sig_size - 16]}`. -/
structure SigData where
  owner_guid : EFI_GUID
  data : List Byte
  deriving DecidableEq, Repr

/-- A signature list in the spec's words: the header
`{type_guid, list_size, header_size, sig_size}` followed by `N` signatures;
`header` is the optional signature header of `header_size` bytes. -/
structure SigList where
  type_guid : EFI_GUID
  header : List Byte
  sig_size : Nat
  sigs : List SigData
  deriving DecidableEq, Repr

/-- The invariant `list_size = sizeof(header) + header_size + N * sig_size`. -/
def SigList.list_size (l : SigList) : Nat :=
  sizeof_EFI_SIGNATURE_LIST + l.header.length + l.sigs.length * l.sig_size

/-- The signatures of a list, one after the other. -/
def sigBytes : List SigData → List Byte
  | [] => []
  | s :: ss => s.owner_guid.val ++ (s.data ++ sigBytes ss)

/-- The list as one complete block of a stream. -/
def SigList.block (l : SigList) : SigListBlock :=
  { SignatureType := l.type_guid
    SignatureHeaderSize := l.header.length
    SignatureSize := l.sig_size
    body := l.header ++ sigBytes l.sigs }

/-- Well-formed list: `N ≥ 1`, every signature is `sig_size` bytes long, and
`list_size` is representable in 32 bits. -/
def SigList.wf (l : SigList) : Prop :=
  1 ≤ l.sigs.length ∧ (∀ s ∈ l.sigs, 16 + s.data.length = l.sig_size) ∧ l.list_size < 2 ^ 32

instance (l : SigList) : Decidable l.wf := by unfold SigList.wf; infer_instance

/-- Signature entry: a pair `(kind, bytes)`. -/
structure SigEntry where
  kind : EFI_GUID
  bytes : List Byte
  deriving DecidableEq, Repr

/-- The MOK set the spec describes: every signature of every list that is not
skipped, flattened in stream order. -/
def flattenLists : List SigList → List SigEntry
  | [] => []
  | l :: ls =>
    if l.block.skipped then flattenLists ls
    else l.sigs.map (fun s => { kind := l.type_guid, bytes := s.data }) ++ flattenLists ls

/-- The entries the nodes of a list denote in the buffer `mem` they point
into: removed nodes (`Mok = NULL`) denote nothing; `none` when the bytes of
some node are not all inside `mem`. -/
def entriesOf (mem : List Byte) : List MokListNode → Option (List SigEntry)
  | [] => some []
  | n :: ns =>
    match n.Mok with
    | none => entriesOf mem ns
    | some Mok =>
      match rdBytes mem Mok n.MokSize, entriesOf mem ns with
      | some b, some es => some ({ kind := n.Type_, bytes := b } :: es)
      | _, _ => none

/-- Nodes for a sequence of entries whose bytes lie one after the other from
offset `start` on. -/
def placedNodes : Nat → List SigEntry → List MokListNode
  | _, [] => []
  | start, e :: es =>
    { MokSize := e.bytes.length, Mok := some start, Type_ := e.kind } ::
      placedNodes (start + e.bytes.length) es

/-- The bytes of a sequence of entries, one after the other. -/
def placedBytes : List SigEntry → List Byte
  | [] => []
  | e :: es => e.bytes ++ placedBytes es

/-- The one-signature list the spec's `encode` emits for an entry. -/
def SigEntry.list (e : SigEntry) : SigList :=
  { type_guid := e.kind
    header := []
    sig_size := e.bytes.length + 16
    sigs := [{ owner_guid := SHIM_LOCK_GUID, data := e.bytes }] }

/-- The spec's encoding of one entry: a list with `type_guid` the entry's kind,
`list_size = sizeof(header) + sig_size`, `header_size = 0`,
`sig_size = |bytes| + 16`, and one signature owned by `SHIM_LOCK_GUID`. -/
def SigEntry.encoded (e : SigEntry) : List Byte :=
  e.kind.val ++ (le32 (sizeof_EFI_SIGNATURE_LIST + (e.bytes.length + 16)) ++ (le32 0 ++
    (le32 (e.bytes.length + 16) ++ (SHIM_LOCK_GUID.val ++ e.bytes))))

/-- The spec's `encode(entries)`: one signature list per entry, in order. -/
def encode : List SigEntry → List Byte
  | [] => []
  | e :: es => e.encoded ++ encode es

/-- The entries the code returns for a stream of lists: for every list that is
not skipped, its first signature only. -/
def firstEntries : List SigList → List SigEntry
  | [] => []
  | l :: ls =>
    if l.block.skipped then firstEntries ls
    else
      match l.sigs with
      | [] => firstEntries ls
      | s :: _ => { kind := l.type_guid, bytes := s.data } :: firstEntries ls

/-! ## The firmware: variables, console, trace -/

/-- The status codes this program handles. -/
inductive EFI_STATUS where
  | EFI_SUCCESS
  | EFI_INVALID_PARAMETER
  | EFI_BUFFER_TOO_SMALL
  | EFI_OUT_OF_RESOURCES
  | EFI_NOT_FOUND
  | EFI_ACCESS_DENIED
  | EFI_WRITE_PROTECTED
  | EFI_ABORTED
  deriving DecidableEq, Repr

open EFI_STATUS

/-- The variables of the shim-lock namespace this program names. -/
inductive VarName where
  | MokList | MokListRT | MokNew | MokAuth | MokDel | MokDelAuth
  | MokSB | MokSBState | MokPW | MokPWStore
  deriving DecidableEq, Repr

/-- The value of `EFI_VARIABLE_NON_VOLATILE`. -/
abbrev EFI_VARIABLE_NON_VOLATILE : Nat := 0x1
/-- The value of `EFI_VARIABLE_BOOTSERVICE_ACCESS`. -/
abbrev EFI_VARIABLE_BOOTSERVICE_ACCESS : Nat := 0x2
/-- The value of `EFI_VARIABLE_RUNTIME_ACCESS`. -/
abbrev EFI_VARIABLE_RUNTIME_ACCESS : Nat := 0x4
/-- The value of `EFI_VARIABLE_APPEND_WRITE`, as the source defines it. -/
abbrev EFI_VARIABLE_APPEND_WRITE : Nat := 0x40

/-- A stored variable: its attribute mask and its contents. -/
structure Variable where
  attributes : Nat
  data : List Byte
  deriving DecidableEq, Repr

/-- What the program did to the outside world, in order. -/
inductive Event where
  | SetVariable (name : VarName) (attributes : Nat) (data : List Byte)
  | DeleteVariable (name : VarName)
  | ResetSystem
  | Console (text : String)
  deriving DecidableEq, Repr

/-- Modelled from the spec: the file browser, the file system, the shim lock
protocol and the X.509 parser are not part of the sources.  A `FilePick` is
what they deliver for one use of "Enroll key from disk" or "Enroll hash from
disk": whether `simple_file_selector` returned a name, the status of
`simple_file_open`, the bytes `simple_file_read_all` read, the status of
`LibLocateProtocol`, the status of `Context` and `Hash` with the digest, and
whether `X509ConstructCertificate` accepts the bytes. -/
structure FilePick where
  file_name : Bool
  open_status : EFI_STATUS
  data : List Byte
  locate_status : EFI_STATUS
  hash_status : EFI_STATUS
  sha256 : List Byte
  certificate : Bool
  deriving DecidableEq, Repr

/-- The machine outside the program: the variable store, the variables whose
writes the firmware refuses, the keystrokes and menu answers still to come, the
random bytes still to come, the trace of what was done so far, the files the
operator will pick (none unless stated), and the values that the variables
`pass1`, `pass2`, `pass3` of `mok_sb_prompt` hold before anything is stored in
them (indeterminate in C; zero unless stated). -/
structure World where
  vars : VarName → Option Variable
  locked : VarName → Bool
  keys : List Nat
  selects : List Int
  random : List Nat
  trace : List Event
  files : List FilePick := []
  indeterminate : Nat × Nat × Nat := (0, 0, 0)

/-- Append one event to the trace. -/
def World.log (w : World) (e : Event) : World := { w with trace := w.trace ++ [e] }

/-- The result of `RT->GetVariable`: `attributes` is `none` when the call left
the caller's variable untouched. -/
structure GetResult where
  status : EFI_STATUS
  attributes : Option Nat
  size : Nat
  data : List Byte
  deriving DecidableEq, Repr

/-- Modelled from the spec: the firmware variable runtime is not part of the
sources.  `get(name)` with a caller buffer of `size` bytes: `NotFound` for an
absent variable, `BUFFER_TOO_SMALL` (with the needed size) when the contents do
not fit, else the attributes and the full contents. -/
def GetVariable (w : World) (name : VarName) (size : Nat) : GetResult :=
  match w.vars name with
  | none => { status := EFI_NOT_FOUND, attributes := none, size := size, data := [] }
  | some v =>
    if v.data.length ≤ size then
      { status := EFI_SUCCESS, attributes := some v.attributes, size := v.data.length,
        data := v.data }
    else
      { status := EFI_BUFFER_TOO_SMALL, attributes := none, size := v.data.length, data := [] }

/-- The store with the variable `name` replaced by `v` (`none` removes it). -/
def World.setVar (w : World) (name : VarName) (v : Option Variable) : World :=
  { w with vars := fun n => if n = name then v else w.vars n }

/-- Modelled from the spec: the firmware variable runtime is not part of the
sources.  `set` overwrites, `append` concatenates to the present contents, a
write of zero bytes deletes; a refused write leaves the prior state intact. -/
def SetVariable (name : VarName) (attributes : Nat) (data : List Byte) (w : World) :
    EFI_STATUS × World :=
  let w1 := w.log (Event.SetVariable name attributes data)
  if w.locked name then (EFI_WRITE_PROTECTED, w1)
  else if attributes &&& EFI_VARIABLE_APPEND_WRITE ≠ 0 then
    match w.vars name with
    | none =>
      if data = [] then (EFI_SUCCESS, w1)
      else (EFI_SUCCESS,
        w1.setVar name (some (Variable.mk (attributes - EFI_VARIABLE_APPEND_WRITE) data)))
    | some v => (EFI_SUCCESS, w1.setVar name (some (Variable.mk v.attributes (v.data ++ data))))
  else if data = [] then
    match w.vars name with
    | none => (EFI_NOT_FOUND, w1)
    | some _ => (EFI_SUCCESS, w1.setVar name none)
  else (EFI_SUCCESS, w1.setVar name (some (Variable.mk attributes data)))

/-- Modelled from the spec: the firmware library is not part of the sources.
`delete(name)` removes the variable; `NotFound` when it is absent. -/
def LibDeleteVariable (name : VarName) (w : World) : EFI_STATUS × World :=
  let w1 := w.log (Event.DeleteVariable name)
  match w.vars name with
  | none => (EFI_NOT_FOUND, w1)
  | some _ =>
    if w.locked name then (EFI_WRITE_PROTECTED, w1)
    else (EFI_SUCCESS, w1.setVar name none)

/-- The console widgets `console_notify`, `console_error`, `console_alertbox`:
the text is shown; nothing else changes. -/
def console (text : String) (w : World) : World := w.log (Event.Console text)

/-- Message boxes shown one after the other. -/
def console_all (texts : List String) (w : World) : World :=
  texts.foldl (fun w0 text => console text w0) w

/-- The call `count_keys(Data, DataSize)` on a machine: the count, and the machine after
the message boxes for the skipped lists. -/
def count_keys_call (fuel : Nat) (Data : List Byte) (DataSize : Nat) (w : World) :
    Res (Nat × World) :=
  match count_keys fuel Data DataSize with
  | Res.ok MokNum => Res.ok (MokNum, console_all (count_keys_notify Data fuel DataSize 0) w)
  | Res.fault => Res.fault
  | Res.timeout => Res.timeout
  | Res.blocked => Res.blocked

/-! ## Writing the MOK list back -/

/-- The buffer `write_back_mok_list` fills: for every node with `Mok ≠ NULL`
one list header, the owner GUID and a copy of the `MokSize` bytes at `Mok`. -/
def write_back_data (mem : List Byte) : List MokListNode → Res (List Byte)
  | [] => Res.ok []
  | n :: list =>
    match n.Mok with
    | none => write_back_data mem list
    | some Mok =>
      match rdBytes mem Mok n.MokSize with
      | none => Res.fault
      | some bytes =>
        match write_back_data mem list with
        | Res.ok rest =>
          Res.ok (n.Type_.val ++
            (le32 (n.MokSize + sizeof_EFI_SIGNATURE_LIST + sizeof_EFI_SIGNATURE_DATA - 1) ++
            (le32 0 ++ (le32 (n.MokSize + sizeof_EFI_GUID) ++
            (SHIM_LOCK_GUID.val ++ bytes)))) ++ rest)
        | r => r

/-- The function `write_back_mok_list(list, key_num)`; `mem` is the buffer the nodes point
into.  Reading `list[i]` for `i` beyond the nodes that were built faults.  The
allocation of the output buffer is taken to succeed. -/
def write_back_mok_list (mem : List Byte) (list : List MokListNode) (key_num : Nat)
    (w : World) : Res (EFI_STATUS × World) :=
  if list.length < key_num then Res.fault else
  match write_back_data mem (list.take key_num) with
  | Res.ok Data =>
    let r := SetVariable VarName.MokList
      (EFI_VARIABLE_NON_VOLATILE ||| EFI_VARIABLE_BOOTSERVICE_ACCESS) Data w
    if r.1 ≠ EFI_SUCCESS then Res.ok (r.1, console "Failed to set variable" r.2)
    else Res.ok (EFI_SUCCESS, r.2)
  | Res.fault => Res.fault
  | Res.timeout => Res.timeout
  | Res.blocked => Res.blocked

/-! ## Console input -/

/-- The value of `PASSWORD_MAX`. -/
abbrev PASSWORD_MAX : Nat := 256
/-- The value of `PASSWORD_MIN`. -/
abbrev PASSWORD_MIN : Nat := 1
/-- The value of `CHAR_NULL`. -/
abbrev CHAR_NULL : Nat := 0x0
/-- The value of `CHAR_BACKSPACE`. -/
abbrev CHAR_BACKSPACE : Nat := 0x8
/-- The value of `CHAR_TAB`. -/
abbrev CHAR_TAB : Nat := 0x9
/-- The value of `CHAR_LINEFEED`. -/
abbrev CHAR_LINEFEED : Nat := 0xA
/-- The value of `CHAR_CARRIAGE_RETURN`. -/
abbrev CHAR_CARRIAGE_RETURN : Nat := 0xD

/-- The `do ... while` loop of `get_line` over the keystrokes still to come
(each the `UnicodeChar` of one `get_keystroke`); `line` holds the `count`
units stored so far.  `none`: the keystrokes ran out before a carriage return,
so the call never returns. -/
def get_line_loop (line_max : Nat) : List Nat → List Nat → Option (List Nat × List Nat)
  | [], _ => none
  | key :: keys, line =>
    if (line.length ≥ line_max ∧ key ≠ CHAR_BACKSPACE) ∨ key = CHAR_NULL ∨ key = CHAR_TAB ∨
        key = CHAR_LINEFEED ∨ key = CHAR_CARRIAGE_RETURN then
      if key ≠ CHAR_CARRIAGE_RETURN then get_line_loop line_max keys line
      else some (line, keys)
    else if line.length = 0 ∧ key = CHAR_BACKSPACE then get_line_loop line_max keys line
    else if key = CHAR_BACKSPACE then get_line_loop line_max keys line.dropLast
    else get_line_loop line_max keys (line ++ [key])

/-- The function `get_line(&length, line, line_max, show)`: the line read (its length is
`*length`) and the machine after the keystrokes it consumed. -/
def get_line (line_max : Nat) (w : World) : Option (List Nat × World) :=
  match get_line_loop line_max w.keys [] with
  | none => none
  | some (line, keys) => some (line, { w with keys := keys })

/-- Modelled from the spec: the console widgets are not part of the sources.
`console_yes_no` and `console_select` return the operator's next choice;
`none` when no choice is left, so the call never returns. -/
def console_select (w : World) : Option (Int × World) :=
  match w.selects with
  | [] => none
  | c :: rest => some (c, { w with selects := rest })

/-! ## The authentication engine -/

/-- The collaborators outside the sources that the authentication engine
calls: the layout of `PASSWORD_CRYPT` (`PasswordCrypt.h`; the record is not
smaller than a legacy hash), `get_hash_size`, `password_crypt` (`none` when it
fails), and SHA-256. -/
structure Ext where
  PASSWORD_CRYPT_SIZE : Nat
  legacy_fits : SHA256_DIGEST_SIZE ≤ PASSWORD_CRYPT_SIZE
  method : List Byte → Nat
  hash : List Byte → List Byte
  get_hash_size : Nat → Nat
  password_crypt : List Byte → List Byte → Option (List Byte)
  sha256 : List Byte → List Byte

/-- The bytes of a `CHAR16` array, little-endian. -/
def utf16_bytes : List Nat → List Byte
  | [] => []
  | c :: cs =>
    ⟨c % 256, Nat.mod_lt _ (by decide)⟩ :: ⟨c / 256 % 256, Nat.mod_lt _ (by decide)⟩ ::
      utf16_bytes cs

/-- The conversion `pw_ascii[i] = (char)password[i]`. -/
def pw_ascii (password : List Nat) : List Byte :=
  password.map (fun c => ⟨c % 256, Nat.mod_lt _ (by decide)⟩)

/-- The function `compute_pw_hash(Data, DataSize, password, pw_length, hash)`: SHA-256 over
the `DataSize` bytes of `Data` (when `Data && DataSize`) followed by the
password bytes.  Every caller passes the size of the buffer as `DataSize`.
The context is allocated and `Sha256Init`, `Sha256Update` and `Sha256Final`
are called on it with pointers that are not NULL: like the allocation they
are taken to succeed, so none of the error boxes is shown and the status is
`EFI_SUCCESS`. -/
def compute_pw_hash (E : Ext) (Data : Option (List Byte)) (DataSize : Nat)
    (password : List Byte) : EFI_STATUS × List Byte :=
  let front : List Byte :=
    match Data with
    | none => []
    | some bytes => if DataSize ≠ 0 then bytes.take DataSize else []
  (EFI_SUCCESS, E.sha256 (front ++ password))

/-- The hash of one entered line, as the body of the loop of `match_password`
computes it: `password_crypt` for a modern record, `compute_pw_hash` over the
UTF-16 bytes for a legacy one. -/
def attempt_hash (E : Ext) (pw_crypt : Option (List Byte)) (Data : Option (List Byte))
    (DataSize : Nat) (password : List Nat) : EFI_STATUS × List Byte :=
  match pw_crypt with
  | some record =>
    match E.password_crypt (pw_ascii password) record with
    | none => (EFI_INVALID_PARAMETER, [])
    | some h => (EFI_SUCCESS, h)
  | none => compute_pw_hash E Data DataSize (utf16_bytes password)

/-- The `while (fail_count < 3)` loop of `match_password`; the result is the
final `fail_count`.  Arguments after the stored hash: loop budget,
`fail_count`, machine. -/
def match_password_loop (E : Ext) (pw_crypt : Option (List Byte)) (Data : Option (List Byte))
    (DataSize : Nat) (auth_hash : List Byte) (auth_size : Nat) :
    Nat → Nat → World → Res (Nat × World)
  | 0, _, _ => Res.timeout
  | fuel + 1, fail_count, w =>
    if fail_count < 3 then
      match get_line PASSWORD_MAX w with
      | none => Res.blocked
      | some (password, w1) =>
        if password.length < PASSWORD_MIN ∨ password.length > PASSWORD_MAX then
          match_password_loop E pw_crypt Data DataSize auth_hash auth_size fuel
            (fail_count + 1) w1
        else if (attempt_hash E pw_crypt Data DataSize password).1 ≠ EFI_SUCCESS then
          match_password_loop E pw_crypt Data DataSize auth_hash auth_size fuel
            (fail_count + 1) w1
        else if auth_hash.take auth_size ≠
            (attempt_hash E pw_crypt Data DataSize password).2.take auth_size then
          match_password_loop E pw_crypt Data DataSize auth_hash auth_size fuel
            (fail_count + 1) w1
        else Res.ok (fail_count, w1)
    else Res.ok (fail_count, w)

/-- The function `match_password(pw_crypt, Data, DataSize, auth, prompt)`.  The loop runs at
most three times; it is given a budget of four tests. -/
def match_password (E : Ext) (pw_crypt : Option (List Byte)) (Data : Option (List Byte))
    (DataSize : Nat) (auth : Option (List Byte)) (w : World) : Res (EFI_STATUS × World) :=
  let run (auth_hash : List Byte) (auth_size : Nat) : Res (EFI_STATUS × World) :=
    match match_password_loop E pw_crypt Data DataSize auth_hash auth_size 4 0 w with
    | Res.ok (fail_count, w1) =>
      if fail_count ≥ 3 then Res.ok (EFI_ACCESS_DENIED, w1) else Res.ok (EFI_SUCCESS, w1)
    | Res.fault => Res.fault
    | Res.timeout => Res.timeout
    | Res.blocked => Res.blocked
  match pw_crypt with
  | some record =>
    if E.get_hash_size (E.method record) = 0 then Res.ok (EFI_INVALID_PARAMETER, w)
    else run (E.hash record) (E.get_hash_size (E.method record))
  | none =>
    match auth with
    | some a => run a SHA256_DIGEST_SIZE
    | none => Res.ok (EFI_INVALID_PARAMETER, w)

/-- An attempt fails: the line is empty, the hash computation fails, or the
hash does not match the stored one over `auth_size` bytes. -/
def attempt_fails (E : Ext) (pw_crypt : Option (List Byte)) (Data : Option (List Byte))
    (DataSize : Nat) (auth_hash : List Byte) (auth_size : Nat) (password : List Nat) : Prop :=
  password = [] ∨ (attempt_hash E pw_crypt Data DataSize password).1 ≠ EFI_SUCCESS ∨
    auth_hash.take auth_size ≠ (attempt_hash E pw_crypt Data DataSize password).2.take auth_size

instance (E : Ext) (pw_crypt : Option (List Byte)) (Data : Option (List Byte))
    (DataSize : Nat) (auth_hash : List Byte) (auth_size : Nat) (password : List Nat) :
    Decidable (attempt_fails E pw_crypt Data DataSize auth_hash auth_size password) := by
  unfold attempt_fails; infer_instance

/-- The retry policy in the spec's words: up to `n` attempts; success at the
first attempt that does not fail, with nothing read after it; `AccessDenied`
once all `n` attempts have failed. -/
def retry_policy (fails : List Nat → Prop) [DecidablePred fails] :
    Nat → World → Res (EFI_STATUS × World)
  | 0, w => Res.ok (EFI_ACCESS_DENIED, w)
  | n + 1, w =>
    match get_line PASSWORD_MAX w with
    | none => Res.blocked
    | some (line, w1) =>
      if fails line then retry_policy fails n w1 else Res.ok (EFI_SUCCESS, w1)

/-- The stored record is usable: a modern record whose method has a hash
size, or a legacy hash. -/
def valid_record (E : Ext) (pw_crypt auth : Option (List Byte)) : Prop :=
  match pw_crypt with
  | some record => E.get_hash_size (E.method record) ≠ 0
  | none => auth ≠ none

instance (E : Ext) (pw_crypt auth : Option (List Byte)) :
    Decidable (valid_record E pw_crypt auth) := by
  unfold valid_record
  cases pw_crypt <;> infer_instance

/-- The stored hash and the number of bytes compared. -/
def stored_hash (E : Ext) (pw_crypt auth : Option (List Byte)) : List Byte × Nat :=
  match pw_crypt with
  | some record => (E.hash record, E.get_hash_size (E.method record))
  | none => (auth.getD [], SHA256_DIGEST_SIZE)

/-! ## Enroll -/

/-- The part of `store_keys` after authentication: the `SetVariable` call on
`MokList` (delete when `MokNewSize` is zero, append otherwise).  Reading
`MokNewSize` bytes from `MokNew` faults when they are not there. -/
def store_keys_write (MokNew : Option (List Byte)) (MokNewSize : Nat) (w : World) :
    Res (EFI_STATUS × World) :=
  if MokNewSize = 0 then
    let r := SetVariable VarName.MokList
      (EFI_VARIABLE_NON_VOLATILE ||| EFI_VARIABLE_BOOTSERVICE_ACCESS) [] w
    if r.1 ≠ EFI_SUCCESS then Res.ok (r.1, console "Failed to set variable" r.2)
    else Res.ok (EFI_SUCCESS, r.2)
  else
    match MokNew with
    | none => Res.fault
    | some bytes =>
      match rdBytes bytes 0 MokNewSize with
      | none => Res.fault
      | some data =>
        let r := SetVariable VarName.MokList
          (EFI_VARIABLE_NON_VOLATILE ||| EFI_VARIABLE_BOOTSERVICE_ACCESS
            ||| EFI_VARIABLE_APPEND_WRITE) data w
        if r.1 ≠ EFI_SUCCESS then Res.ok (r.1, console "Failed to set variable" r.2)
        else Res.ok (EFI_SUCCESS, r.2)

/-- The function `store_keys(MokNew, MokNewSize, authenticate)`. -/
def store_keys (E : Ext) (MokNew : Option (List Byte)) (MokNewSize : Nat) (authenticate : Bool)
    (w : World) : Res (EFI_STATUS × World) :=
  if authenticate then
    let g := GetVariable w VarName.MokAuth E.PASSWORD_CRYPT_SIZE
    if g.status ≠ EFI_SUCCESS ∨
        (g.size ≠ SHA256_DIGEST_SIZE ∧ g.size ≠ E.PASSWORD_CRYPT_SIZE) then
      Res.ok (g.status, console "Failed to get MokAuth" w)
    else
      match (if g.size = E.PASSWORD_CRYPT_SIZE then match_password E (some g.data) none 0 none w
             else match_password E none MokNew MokNewSize (some g.data) w) with
      | Res.ok (efi_status, w1) =>
        if efi_status ≠ EFI_SUCCESS then Res.ok (EFI_ACCESS_DENIED, w1)
        else store_keys_write MokNew MokNewSize w1
      | Res.fault => Res.fault
      | Res.timeout => Res.timeout
      | Res.blocked => Res.blocked
  else store_keys_write MokNew MokNewSize w

/-- The function `show_mok_info(Mok, MokSize)`: the bytes of the key are read (hashed or
printed) and something is shown; the rendering itself is not modelled. -/
def show_mok_info (mem : List Byte) (Mok : Option Nat) (MokSize : Nat) (w : World) : Res World :=
  match Mok with
  | none => Res.ok w
  | some p =>
    if MokSize = 0 then Res.ok w
    else
      match rdBytes mem p MokSize with
      | none => Res.fault
      | some _ => Res.ok (console "MOK info" w)

/-- The `while (key_num < MokNum)` loop of `list_keys` after its first
`console_select`: the choices still to come are the first argument. -/
def list_keys_loop (mem : List Byte) (keys : List MokListNode) (MokNum : Nat) :
    List Int → World → Res World
  | [], _ => Res.blocked
  | key_num :: rest, w =>
    let w1 : World := { w with selects := rest }
    if key_num < (MokNum : Int) then
      if key_num < 0 then Res.fault
      else
        match keys[key_num.toNat]? with
        | none => Res.fault
        | some key =>
          match show_mok_info mem key.Mok key.MokSize w1 with
          | Res.ok w2 => list_keys_loop mem keys MokNum rest w2
          | r => r
    else Res.ok w1

/-- The function `list_keys(KeyList, KeyListSize, title)`.  The allocations are taken to
succeed; the title only labels the menu and is left out. -/
def list_keys (fuel : Nat) (KeyList : Option (List Byte)) (KeyListSize : Nat) (w : World) :
    Res (EFI_STATUS × World) :=
  if KeyListSize < sizeof_EFI_SIGNATURE_LIST + sizeof_EFI_SIGNATURE_DATA then
    Res.ok (EFI_SUCCESS, console "No MOK keys found" w)
  else
    match count_keys_call fuel (KeyList.getD []) KeyListSize w with
    | Res.ok (MokNum, w0) =>
      match build_mok_list fuel MokNum (KeyList.getD []) KeyListSize with
      | Res.ok keys =>
        if 0 < MokNum then
          match list_keys_loop (KeyList.getD []) keys MokNum w0.selects w0 with
          | Res.ok w1 => Res.ok (EFI_SUCCESS, w1)
          | Res.fault => Res.fault
          | Res.timeout => Res.timeout
          | Res.blocked => Res.blocked
        else Res.ok (EFI_SUCCESS, w0)
      | Res.fault => Res.fault
      | Res.timeout => Res.timeout
      | Res.blocked => Res.blocked
    | Res.fault => Res.fault
    | Res.timeout => Res.timeout
    | Res.blocked => Res.blocked

/-- The tail shared by the prompts that commit: the message, the warm reset
and, should the reset return, the failure message and `-1`. -/
def reboot (w : World) : Int × World :=
  (-1, console "Failed to reboot"
    ((console "The system must now be rebooted" w).log Event.ResetSystem))

/-- The function `mok_enrollment_prompt(MokNew, MokNewSize, auth)`.  The function is declared
`UINTN`; the value `-1` stands for its `return -1`, which no caller reads. -/
def mok_enrollment_prompt (E : Ext) (fuel : Nat) (MokNew : Option (List Byte))
    (MokNewSize : Nat) (auth : Bool) (w : World) : Res (Int × World) :=
  match list_keys fuel MokNew MokNewSize w with
  | Res.ok (st, w1) =>
    if st ≠ EFI_SUCCESS then Res.ok (0, w1)
    else
      match console_select w1 with
      | none => Res.blocked
      | some (answer, w2) =>
        if answer = 0 then Res.ok (0, w2)
        else
          match store_keys E MokNew MokNewSize auth w2 with
          | Res.ok (efi_status, w3) =>
            if efi_status ≠ EFI_SUCCESS then Res.ok (-1, console "Failed to enroll keys\n" w3)
            else if auth then
              Res.ok (reboot (LibDeleteVariable VarName.MokAuth
                (LibDeleteVariable VarName.MokNew w3).2).2)
            else Res.ok (0, w3)
          | Res.fault => Res.fault
          | Res.timeout => Res.timeout
          | Res.blocked => Res.blocked
  | Res.fault => Res.fault
  | Res.timeout => Res.timeout
  | Res.blocked => Res.blocked

/-! ## Delete -/

/-- Modelled from the spec: `CompareMem` of the firmware library is not part
of the sources.  A fixed-length comparison of `n` bytes at two pointers:
`some true` when they are equal; a comparison of no bytes reads nothing; a
range outside its buffer, or a NULL pointer, faults (`none`). -/
def CompareMem (mem1 : List Byte) (p1 : Option Nat) (mem2 : List Byte) (p2 : Option Nat)
    (n : Nat) : Option Bool :=
  if n = 0 then some true
  else
    match p1, p2 with
    | some a, some b =>
      match rdBytes mem1 a n, rdBytes mem2 b n with
      | some x, some y => some (decide (x = y))
      | _, _ => none
    | _, _ => none

/-- The inner loop of "search and destroy" in `delete_keys`: every node of
`mok` whose size and bytes equal those of `key` gets `Mok = NULL` and
`MokSize = 0`. -/
def delete_one (MokListData MokDel : List Byte) (key : MokListNode) :
    List MokListNode → Res (List MokListNode)
  | [] => Res.ok []
  | m :: mok =>
    if m.MokSize = key.MokSize then
      match CompareMem MokDel key.Mok MokListData m.Mok key.MokSize with
      | none => Res.fault
      | some eq =>
        match delete_one MokListData MokDel key mok with
        | Res.ok rest =>
          if eq then Res.ok ({ m with Mok := none, MokSize := 0 } :: rest)
          else Res.ok (m :: rest)
        | r => r
    else
      match delete_one MokListData MokDel key mok with
      | Res.ok rest => Res.ok (m :: rest)
      | r => r

/-- The outer loop of "search and destroy": the keys of `del_key` in order. -/
def delete_all (MokListData MokDel : List Byte) :
    List MokListNode → List MokListNode → Res (List MokListNode)
  | [], mok => Res.ok mok
  | key :: del_key, mok =>
    match delete_one MokListData MokDel key mok with
    | Res.ok mok1 => delete_all MokListData MokDel del_key mok1
    | r => r

/-- The result of `get_variable`: the buffer is `none` when it stayed NULL. -/
structure GetVariableResult where
  status : EFI_STATUS
  attributes : Option Nat
  size : Nat
  buffer : Option (List Byte)
  deriving DecidableEq, Repr

/-- The function `get_variable(name, guid, &attributes, &size, &buffer)` called with
`*size == 0` and `*buffer == NULL`, as `delete_keys` calls it.  The allocation
is taken to succeed. -/
def get_variable (w : World) (name : VarName) : GetVariableResult :=
  let g := GetVariable w name 0
  if g.status ≠ EFI_BUFFER_TOO_SMALL then
    { status := g.status, attributes := g.attributes, size := g.size, buffer := none }
  else
    let g2 := GetVariable w name g.size
    { status := g2.status, attributes := g2.attributes, size := g2.size,
      buffer := some g2.data }

/-- The part of `delete_keys` after authentication.  `attributes` is the
local variable as the read of `MokDelAuth` left it. -/
def delete_keys_commit (fuel : Nat) (MokDel : Option (List Byte)) (MokDelSize : Nat)
    (attributes : Nat) (w : World) : Res (EFI_STATUS × World) :=
  let g := get_variable w VarName.MokList
  let attributes := g.attributes.getD attributes
  if attributes &&& EFI_VARIABLE_RUNTIME_ACCESS ≠ 0 then
    let w1 := console "MokList is compromised! Erase all keys in MokList!" w
    let r := LibDeleteVariable VarName.MokList w1
    if r.1 ≠ EFI_SUCCESS then Res.ok (EFI_ACCESS_DENIED, console "Failed to erase MokList" r.2)
    else Res.ok (EFI_ACCESS_DENIED, r.2)
  else
    match g.buffer with
    | none => Res.ok (EFI_SUCCESS, w)
    | some MokListData =>
      if g.size = 0 then Res.ok (EFI_SUCCESS, w)
      else
        match count_keys_call fuel MokListData g.size w with
        | Res.ok (mok_num, w1) =>
          match build_mok_list fuel mok_num MokListData g.size with
          | Res.ok mok =>
            match count_keys_call fuel (MokDel.getD []) MokDelSize w1 with
            | Res.ok (del_num, w2) =>
              match build_mok_list fuel del_num (MokDel.getD []) MokDelSize with
              | Res.ok del_key =>
                if del_key.length < del_num ∨ mok.length < mok_num then Res.fault
                else
                  match delete_all MokListData (MokDel.getD []) (del_key.take del_num)
                      (mok.take mok_num) with
                  | Res.ok mok1 => write_back_mok_list MokListData mok1 mok_num w2
                  | Res.fault => Res.fault
                  | Res.timeout => Res.timeout
                  | Res.blocked => Res.blocked
              | Res.fault => Res.fault
              | Res.timeout => Res.timeout
              | Res.blocked => Res.blocked
            | Res.fault => Res.fault
            | Res.timeout => Res.timeout
            | Res.blocked => Res.blocked
          | Res.fault => Res.fault
          | Res.timeout => Res.timeout
          | Res.blocked => Res.blocked
        | Res.fault => Res.fault
        | Res.timeout => Res.timeout
        | Res.blocked => Res.blocked

/-- The function `delete_keys(MokDel, MokDelSize)`. -/
def delete_keys (E : Ext) (fuel : Nat) (MokDel : Option (List Byte)) (MokDelSize : Nat)
    (w : World) : Res (EFI_STATUS × World) :=
  let g := GetVariable w VarName.MokDelAuth E.PASSWORD_CRYPT_SIZE
  if g.status ≠ EFI_SUCCESS ∨
      (g.size ≠ SHA256_DIGEST_SIZE ∧ g.size ≠ E.PASSWORD_CRYPT_SIZE) then
    Res.ok (g.status, console "Failed to get MokDelAuth" w)
  else
    match (if g.size = E.PASSWORD_CRYPT_SIZE then match_password E (some g.data) none 0 none w
           else match_password E none MokDel MokDelSize (some g.data) w) with
    | Res.ok (efi_status, w1) =>
      if efi_status ≠ EFI_SUCCESS then Res.ok (EFI_ACCESS_DENIED, w1)
      else delete_keys_commit fuel MokDel MokDelSize (g.attributes.getD 0) w1
    | Res.fault => Res.fault
    | Res.timeout => Res.timeout
    | Res.blocked => Res.blocked

/-- The function `mok_deletion_prompt(MokDel, MokDelSize)`. -/
def mok_deletion_prompt (E : Ext) (fuel : Nat) (MokDel : Option (List Byte))
    (MokDelSize : Nat) (w : World) : Res (Int × World) :=
  match list_keys fuel MokDel MokDelSize w with
  | Res.ok (st, w1) =>
    if st ≠ EFI_SUCCESS then Res.ok (0, w1)
    else
      match console_select w1 with
      | none => Res.blocked
      | some (answer, w2) =>
        if answer = 0 then Res.ok (0, w2)
        else
          match delete_keys E fuel MokDel MokDelSize w2 with
          | Res.ok (efi_status, w3) =>
            if efi_status ≠ EFI_SUCCESS then Res.ok (-1, console "Failed to delete keys" w3)
            else
              Res.ok (reboot (LibDeleteVariable VarName.MokDelAuth
                (LibDeleteVariable VarName.MokDel w3).2).2)
          | Res.fault => Res.fault
          | Res.timeout => Res.timeout
          | Res.blocked => Res.blocked
  | Res.fault => Res.fault
  | Res.timeout => Res.timeout
  | Res.blocked => Res.blocked

/-! ## Reset, Secure Boot state and password prompts -/

/-- The function `mok_reset_prompt()`.  Its last message is "Failed to reboot" with a
newline, unlike the one of the other prompts. -/
def mok_reset_prompt (E : Ext) (w : World) : Res (Int × World) :=
  match console_select w with
  | none => Res.blocked
  | some (answer, w1) =>
    if answer = 0 then Res.ok (0, w1)
    else
      match store_keys E none 0 true w1 with
      | Res.ok (efi_status, w2) =>
        if efi_status ≠ EFI_SUCCESS then Res.ok (-1, console "Failed to erase keys\n" w2)
        else
          Res.ok (-1, console "Failed to reboot\n"
            ((console "The system must now be rebooted"
              (LibDeleteVariable VarName.MokAuth
                (LibDeleteVariable VarName.MokNew w2).2).2).log Event.ResetSystem))
      | Res.fault => Res.fault
      | Res.timeout => Res.timeout
      | Res.blocked => Res.blocked

/-- The value of `SB_PASSWORD_LEN`. -/
abbrev SB_PASSWORD_LEN : Nat := 16

/-- The value of `sizeof(MokSBvar)`: two `UINT32` and sixteen `CHAR16`, packed. -/
abbrev sizeof_MokSBvar : Nat := 4 + 4 + 2 * SB_PASSWORD_LEN

/-- Read a little-endian `CHAR16` at offset `p`; `none` when it is not inside `mem`. -/
def rd16 (mem : List Byte) (p : Nat) : Option Nat :=
  match mem.drop p with
  | b0 :: b1 :: _ => some (b0.val + 256 * b1.val)
  | _ => none

/-- The `do ... while` loop of `get_line` with the buffer kept: `line` is
the caller's buffer as it is before the call, `count` the units in use.  A
unit is stored by `line[count++] = key`, and a backspace stores
`line[--count] = 0`. -/
def get_line_store (line_max : Nat) :
    List Nat → Nat → List Nat → Option (Nat × List Nat × List Nat)
  | [], _, _ => none
  | key :: keys, count, line =>
    if (count ≥ line_max ∧ key ≠ CHAR_BACKSPACE) ∨ key = CHAR_NULL ∨ key = CHAR_TAB ∨
        key = CHAR_LINEFEED ∨ key = CHAR_CARRIAGE_RETURN then
      if key ≠ CHAR_CARRIAGE_RETURN then get_line_store line_max keys count line
      else some (count, line, keys)
    else if count = 0 ∧ key = CHAR_BACKSPACE then get_line_store line_max keys count line
    else if key = CHAR_BACKSPACE then
      get_line_store line_max keys (count - 1) (line.set (count - 1) 0)
    else get_line_store line_max keys (count + 1) (line.set count key)

/-- The call `get_line(&length, &pass, 1, 0)` of `mok_sb_prompt`: the value
of `pass` after the call.  A line on which nothing was typed leaves `pass` as
it was. -/
def get_pass (pass : Nat) (w : World) : Option (Nat × World) :=
  match get_line_store 1 w.keys 0 [pass] with
  | none => none
  | some (_, line, keys) => some (line.headD pass, { w with keys := keys })

/-- The loop `do { RandomBytes(&pos2, 1); pos2 = pos2 % PWLen; } while (pos2 == pos1)`
over the random bytes still to come.  `Res.timeout`: the bytes supplied are
used up and the loop is still running. -/
def sample_pos2 (PWLen pos1 : Nat) : List Nat → Res (Nat × List Nat)
  | [] => Res.timeout
  | r :: random =>
    if r % 256 % PWLen = pos1 then sample_pos2 PWLen pos1 random
    else Res.ok (r % 256 % PWLen, random)

/-- The loop `do { RandomBytes(&pos3, 1); pos3 = pos3 % PWLen; }
while (pos3 == pos2 || pos3 == pos1)`. -/
def sample_pos3 (PWLen pos1 pos2 : Nat) : List Nat → Res (Nat × List Nat)
  | [] => Res.timeout
  | r :: random =>
    if r % 256 % PWLen = pos2 ∨ r % 256 % PWLen = pos1 then sample_pos3 PWLen pos1 pos2 random
    else Res.ok (r % 256 % PWLen, random)

/-- The sampling of `pos1`, `pos2`, `pos3` at the head of a challenge round.
The remainder by a `PWLen` of zero is a division by zero: `Res.fault`. -/
def sample_positions (PWLen : Nat) (random : List Nat) : Res ((Nat × Nat × Nat) × List Nat) :=
  match random with
  | [] => Res.timeout
  | r :: random1 =>
    if PWLen = 0 then Res.fault
    else
      match sample_pos2 PWLen (r % 256 % PWLen) random1 with
      | Res.ok (pos2, random2) =>
        match sample_pos3 PWLen (r % 256 % PWLen) pos2 random2 with
        | Res.ok (pos3, random3) => Res.ok ((r % 256 % PWLen, pos2, pos3), random3)
        | Res.fault => Res.fault
        | Res.timeout => Res.timeout
        | Res.blocked => Res.blocked
      | Res.fault => Res.fault
      | Res.timeout => Res.timeout
      | Res.blocked => Res.blocked

/-- The test `pass1 != var->Password[pos1] || pass2 != ... || pass3 != ...`,
left to right with short circuit.  `none`: `Password[pos]` lies outside the
record. -/
def challenge_mismatch (MokSB : List Byte) : List (Nat × Nat) → Option Bool
  | [] => some false
  | (pass, pos) :: rest =>
    match rd16 MokSB (8 + 2 * pos) with
    | some p => if pass ≠ p then some true else challenge_mismatch MokSB rest
    | none => none

/-- The loop `while (fail_count < 3)` of `mok_sb_prompt`.  Arguments after the
record: remaining budget, `fail_count`, the variables `pass1`, `pass2`, `pass3`,
the machine.  The result is `fail_count` at the exit. -/
def mok_sb_challenge (MokSB : List Byte) :
    Nat → Nat → Nat × Nat × Nat → World → Res (Nat × World)
  | 0, _, _, _ => Res.timeout
  | fuel + 1, fail_count, pass, w =>
    if fail_count < 3 then
      match rd32 MokSB 4 with
      | none => Res.fault
      | some PWLen =>
        match sample_positions PWLen w.random with
        | Res.ok (pos, random) =>
          match get_pass pass.1 { w with random := random } with
          | none => Res.blocked
          | some (pass1, w1) =>
            match get_pass pass.2.1 w1 with
            | none => Res.blocked
            | some (pass2, w2) =>
              match get_pass pass.2.2 w2 with
              | none => Res.blocked
              | some (pass3, w3) =>
                match challenge_mismatch MokSB
                    [(pass1, pos.1), (pass2, pos.2.1), (pass3, pos.2.2)] with
                | none => Res.fault
                | some true =>
                  mok_sb_challenge MokSB fuel (fail_count + 1) (pass1, pass2, pass3) w3
                | some false => Res.ok (fail_count, w3)
        | Res.fault => Res.fault
        | Res.timeout => Res.timeout
        | Res.blocked => Res.blocked
    else Res.ok (fail_count, w)

/-- The function `mok_sb_prompt(MokSB, MokSBSize)`.  The loop runs at most
three times; it is given a budget of four tests. -/
def mok_sb_prompt (MokSB : Option (List Byte)) (MokSBSize : Nat) (w : World) :
    Res (Int × World) :=
  if MokSBSize ≠ sizeof_MokSBvar then
    Res.ok (-1, console "Invalid MokSB variable contents" w)
  else
    match mok_sb_challenge (MokSB.getD []) 4 0 w.indeterminate w with
    | Res.ok (fail_count, w1) =>
      if fail_count ≥ 3 then Res.ok (-1, console "Password limit reached" w1)
      else
        match rd32 (MokSB.getD []) 0 with
        | none => Res.fault
        | some state =>
          match console_select w1 with
          | none => Res.blocked
          | some (ret, w2) =>
            if ret = 0 then Res.ok (-1, (LibDeleteVariable VarName.MokSB w2).2)
            else if state = 0 then
              let r := SetVariable VarName.MokSBState
                (EFI_VARIABLE_NON_VOLATILE ||| EFI_VARIABLE_BOOTSERVICE_ACCESS) [1] w2
              if r.1 ≠ EFI_SUCCESS then
                Res.ok (-1, console "Failed to set Secure Boot state" r.2)
              else Res.ok (reboot r.2)
            else Res.ok (reboot (LibDeleteVariable VarName.MokSBState w2).2)
    | Res.fault => Res.fault
    | Res.timeout => Res.timeout
    | Res.blocked => Res.blocked

/-- The function `mok_pw_prompt(MokPW, MokPWSize)`.  `record` is the first `MokPWSize`
bytes at `MokPW`; `clear` is set when `CompareMem` finds them all zero. -/
def mok_pw_prompt (E : Ext) (MokPW : Option (List Byte)) (MokPWSize : Nat) (w : World) :
    Res (Int × World) :=
  if MokPWSize ≠ SHA256_DIGEST_SIZE ∧ MokPWSize ≠ E.PASSWORD_CRYPT_SIZE then
    Res.ok (-1, console "Invalid MokPW variable contents" w)
  else
    match rdBytes (MokPW.getD []) 0 MokPWSize with
    | none => Res.fault
    | some record =>
      if record = List.replicate MokPWSize 0 then
        match console_select w with
        | none => Res.blocked
        | some (answer, w1) =>
          if answer = 0 then Res.ok (0, w1)
          else
            Res.ok (0, (LibDeleteVariable VarName.MokPW
              (LibDeleteVariable VarName.MokPWStore w1).2).2)
      else
        match (if MokPWSize = E.PASSWORD_CRYPT_SIZE then
                 match_password E (some record) none 0 none w
               else match_password E none none 0 (some record) w) with
        | Res.ok (efi_status, w1) =>
          if efi_status ≠ EFI_SUCCESS then Res.ok (-1, console "Password limit reached" w1)
          else
            match console_select w1 with
            | none => Res.blocked
            | some (answer, w2) =>
              if answer = 0 then Res.ok (0, w2)
              else
                let r := SetVariable VarName.MokPWStore
                  (EFI_VARIABLE_NON_VOLATILE ||| EFI_VARIABLE_BOOTSERVICE_ACCESS) record w2
                if r.1 ≠ EFI_SUCCESS then
                  Res.ok (-1, console "Failed to set MOK password" r.2)
                else Res.ok (reboot (LibDeleteVariable VarName.MokPW r.2).2)
        | Res.fault => Res.fault
        | Res.timeout => Res.timeout
        | Res.blocked => Res.blocked

/-! ## The password gate and the menu -/

/-- The function `verify_pw()`: `true` lets the menu open. -/
def verify_pw (E : Ext) (w : World) : Res (Bool × World) :=
  let g := GetVariable w VarName.MokPWStore E.PASSWORD_CRYPT_SIZE
  if g.status ≠ EFI_SUCCESS ∨
      (g.size ≠ SHA256_DIGEST_SIZE ∧ g.size ≠ E.PASSWORD_CRYPT_SIZE) then
    Res.ok (true, w)
  else if g.attributes.getD 0 &&& EFI_VARIABLE_RUNTIME_ACCESS ≠ 0 then Res.ok (true, w)
  else
    match (if g.size = E.PASSWORD_CRYPT_SIZE then match_password E (some g.data) none 0 none w
           else match_password E none none 0 (some g.data) w) with
    | Res.ok (efi_status, w1) =>
      if efi_status ≠ EFI_SUCCESS then Res.ok (false, console "Password limit reached" w1)
      else Res.ok (true, w1)
    | Res.fault => Res.fault
    | Res.timeout => Res.timeout
    | Res.blocked => Res.blocked

/-- The function `enroll_file(data, datasize, hash)`, with the collaborators' results
in `pick`.  The list built in `mokbuffer` holds one entry owned by the shim
lock GUID: the digest (its first 32 bytes) or the file itself. -/
def enroll_file (E : Ext) (fuel : Nat) (pick : FilePick) (data : List Byte) (datasize : Nat)
    (hash : Bool) (w : World) : Res (EFI_STATUS × World) :=
  if hash then
    if pick.locate_status ≠ EFI_SUCCESS then Res.ok (pick.locate_status, w)
    else if pick.hash_status ≠ EFI_SUCCESS then Res.ok (pick.hash_status, w)
    else
      let mokbuffersize := sizeof_EFI_SIGNATURE_LIST + sizeof_EFI_GUID + SHA256_DIGEST_SIZE
      let mokbuffer := EfiHashSha256Guid.val ++ (le32 mokbuffersize ++ (le32 0 ++
        (le32 (16 + SHA256_DIGEST_SIZE) ++
          (SHIM_LOCK_GUID.val ++ pick.sha256.take SHA256_DIGEST_SIZE))))
      match mok_enrollment_prompt E fuel (some mokbuffer) mokbuffersize false w with
      | Res.ok (_, w1) => Res.ok (EFI_SUCCESS, w1)
      | Res.fault => Res.fault
      | Res.timeout => Res.timeout
      | Res.blocked => Res.blocked
  else
    let mokbuffersize := datasize + sizeof_EFI_SIGNATURE_LIST + sizeof_EFI_GUID
    match rdBytes data 0 datasize with
    | none => Res.fault
    | some bytes =>
      let mokbuffer := EfiCertX509Guid.val ++ (le32 mokbuffersize ++ (le32 0 ++
        (le32 (16 + datasize) ++ (SHIM_LOCK_GUID.val ++ bytes))))
      if datasize = 0 then Res.ok (EFI_SUCCESS, w)
      else if ¬ pick.certificate then
        Res.ok (EFI_SUCCESS, console "Invalid X509 certificate" w)
      else
        match mok_enrollment_prompt E fuel (some mokbuffer) mokbuffersize false w with
        | Res.ok (_, w1) => Res.ok (EFI_SUCCESS, w1)
        | Res.fault => Res.fault
        | Res.timeout => Res.timeout
        | Res.blocked => Res.blocked

/-- The function `mok_hash_enroll()`.  With no pick left the file browser never returns. -/
def mok_hash_enroll (E : Ext) (fuel : Nat) (w : World) : Res World :=
  match w.files with
  | [] => Res.blocked
  | pick :: files =>
    let w0 : World := { w with files := files }
    if ¬ pick.file_name then Res.ok w0
    else if pick.open_status ≠ EFI_SUCCESS then Res.ok (console "Unable to open file" w0)
    else if pick.data.length = 0 then Res.ok (console "Unable to read file" w0)
    else
      match enroll_file E fuel pick pick.data pick.data.length true w0 with
      | Res.ok (efi_status, w1) =>
        if efi_status ≠ EFI_SUCCESS then
          Res.ok (console "Hash failed (did you select a valid EFI binary?)" w1)
        else Res.ok w1
      | Res.fault => Res.fault
      | Res.timeout => Res.timeout
      | Res.blocked => Res.blocked

/-- The function `mok_key_enroll()`. -/
def mok_key_enroll (E : Ext) (fuel : Nat) (w : World) : Res World :=
  match w.files with
  | [] => Res.blocked
  | pick :: files =>
    let w0 : World := { w with files := files }
    if ¬ pick.file_name then Res.ok w0
    else if pick.open_status ≠ EFI_SUCCESS then Res.ok (console "Unable to open file" w0)
    else if pick.data.length = 0 then Res.ok (console "Unable to read file" w0)
    else
      match enroll_file E fuel pick pick.data pick.data.length false w0 with
      | Res.ok (_, w1) => Res.ok w1
      | Res.fault => Res.fault
      | Res.timeout => Res.timeout
      | Res.blocked => Res.blocked

/-- The type `mok_menu_item`. -/
inductive mok_menu_item
  | MOK_CONTINUE_BOOT
  | MOK_RESET_MOK
  | MOK_ENROLL_MOK
  | MOK_DELETE_MOK
  | MOK_CHANGE_SB
  | MOK_SET_PW
  | MOK_KEY_ENROLL
  | MOK_HASH_ENROLL
  deriving DecidableEq, Repr

open mok_menu_item

/-- The string `enter_mok_menu` stores in `menu_strings[i]` next to each item. -/
def menu_string : mok_menu_item → String
  | MOK_CONTINUE_BOOT => "Continue boot"
  | MOK_RESET_MOK => "Reset MOK"
  | MOK_ENROLL_MOK => "Enroll MOK"
  | MOK_DELETE_MOK => "Delete MOK"
  | MOK_CHANGE_SB => "Change Secure Boot state"
  | MOK_SET_PW => "Set MOK password"
  | MOK_KEY_ENROLL => "Enroll key from disk"
  | MOK_HASH_ENROLL => "Enroll hash from disk"

/-- The two reads at the head of `enter_mok_menu`, giving the flags `MokAuth`
and `MokDelAuth`.  Both calls pass `&auth_size`: the second call's buffer size
is what the first call left there. -/
def auth_flags (E : Ext) (w : World) : Bool × Bool :=
  let g1 := GetVariable w VarName.MokAuth E.PASSWORD_CRYPT_SIZE
  let g2 := GetVariable w VarName.MokDelAuth g1.size
  (decide (g1.status = EFI_SUCCESS ∧
      (g1.size = SHA256_DIGEST_SIZE ∨ g1.size = E.PASSWORD_CRYPT_SIZE)),
   decide (g2.status = EFI_SUCCESS ∧
      (g2.size = SHA256_DIGEST_SIZE ∨ g2.size = E.PASSWORD_CRYPT_SIZE)))

/-- The array `menu_item` as `enter_mok_menu` fills it.  The first four
arguments say which of the pointers are not NULL, the last two are the flags. -/
def menu_items (MokNew MokDel MokSB MokPW MokAuth MokDelAuth : Bool) : List mok_menu_item :=
  [MOK_CONTINUE_BOOT] ++
  (if MokNew ∨ MokAuth then [if ¬ MokNew then MOK_RESET_MOK else MOK_ENROLL_MOK] else []) ++
  (if MokDel ∨ MokDelAuth then [MOK_DELETE_MOK] else []) ++
  (if MokSB then [MOK_CHANGE_SB] else []) ++
  (if MokPW then [MOK_SET_PW] else []) ++
  [MOK_KEY_ENROLL, MOK_HASH_ENROLL]

/-- The `switch` of the menu loop for the items that run an action; the
action's return value is dropped, as in the source. -/
def menu_action (E : Ext) (fuel : Nat) (MokNew : Option (List Byte)) (MokNewSize : Nat)
    (MokDel : Option (List Byte)) (MokDelSize : Nat) (MokSB : Option (List Byte))
    (MokSBSize : Nat) (MokPW : Option (List Byte)) (MokPWSize : Nat) :
    mok_menu_item → World → Res World
  | MOK_CONTINUE_BOOT, w => Res.ok w
  | MOK_RESET_MOK, w => (mok_reset_prompt E w).map (fun r => r.2)
  | MOK_ENROLL_MOK, w => (mok_enrollment_prompt E fuel MokNew MokNewSize true w).map (fun r => r.2)
  | MOK_DELETE_MOK, w => (mok_deletion_prompt E fuel MokDel MokDelSize w).map (fun r => r.2)
  | MOK_CHANGE_SB, w => (mok_sb_prompt MokSB MokSBSize w).map (fun r => r.2)
  | MOK_SET_PW, w => (mok_pw_prompt E MokPW MokPWSize w).map (fun r => r.2)
  | MOK_KEY_ENROLL, w => mok_key_enroll E fuel w
  | MOK_HASH_ENROLL, w => mok_hash_enroll E fuel w

/-- The loop `while (choice >= 0)` of `enter_mok_menu` over the array
`items`, with a budget of `rounds` menu choices.  A negative choice and
"Continue boot" leave the loop; a choice past the array reads outside it. -/
def menu_loop (E : Ext) (fuel : Nat) (MokNew : Option (List Byte)) (MokNewSize : Nat)
    (MokDel : Option (List Byte)) (MokDelSize : Nat) (MokSB : Option (List Byte))
    (MokSBSize : Nat) (MokPW : Option (List Byte)) (MokPWSize : Nat)
    (items : List mok_menu_item) : Nat → World → Res World
  | 0, _ => Res.timeout
  | rounds + 1, w =>
    match console_select w with
    | none => Res.blocked
    | some (choice, w1) =>
      if choice < 0 then Res.ok w1
      else
        match items[choice.toNat]? with
        | none => Res.fault
        | some item =>
          if item = MOK_CONTINUE_BOOT then Res.ok w1
          else
            match menu_action E fuel MokNew MokNewSize MokDel MokDelSize MokSB MokSBSize
                MokPW MokPWSize item w1 with
            | Res.ok w2 =>
              menu_loop E fuel MokNew MokNewSize MokDel MokDelSize MokSB MokSBSize MokPW
                MokPWSize items rounds w2
            | Res.fault => Res.fault
            | Res.timeout => Res.timeout
            | Res.blocked => Res.blocked

/-- The function `enter_mok_menu(image_handle, MokNew, MokNewSize, MokDel, MokDelSize, MokSB,
MokSBSize, MokPW, MokPWSize)`.  The allocations are taken to succeed. -/
def enter_mok_menu (E : Ext) (fuel rounds : Nat) (MokNew : Option (List Byte))
    (MokNewSize : Nat) (MokDel : Option (List Byte)) (MokDelSize : Nat)
    (MokSB : Option (List Byte)) (MokSBSize : Nat) (MokPW : Option (List Byte))
    (MokPWSize : Nat) (w : World) : Res (EFI_STATUS × World) :=
  match verify_pw E w with
  | Res.ok (pw, w1) =>
    if pw = false then Res.ok (EFI_ACCESS_DENIED, w1)
    else
      match menu_loop E fuel MokNew MokNewSize MokDel MokDelSize MokSB MokSBSize MokPW
          MokPWSize
          (menu_items MokNew.isSome MokDel.isSome MokSB.isSome MokPW.isSome
            (auth_flags E w1).1 (auth_flags E w1).2) rounds w1 with
      | Res.ok w2 => Res.ok (EFI_SUCCESS, w2)
      | Res.fault => Res.fault
      | Res.timeout => Res.timeout
      | Res.blocked => Res.blocked
  | Res.fault => Res.fault
  | Res.timeout => Res.timeout
  | Res.blocked => Res.blocked

/-- Modelled from the spec: `LibGetVariableAndSize` of the firmware library
is not part of the sources.  The contents and size of a variable; NULL and 0
when it cannot be read. -/
def LibGetVariableAndSize (w : World) (name : VarName) : Option (List Byte) × Nat :=
  match w.vars name with
  | none => (none, 0)
  | some v => (some v.data, v.data.length)

/-- One block of the cleanup in `check_mok_request`: delete the variable
when its pointer is not NULL, with a message when that fails. -/
def delete_staged (p : Option (List Byte)) (name : VarName) (text : String) (w : World) :
    World :=
  if p.isSome then
    if (LibDeleteVariable name w).1 ≠ EFI_SUCCESS then console text (LibDeleteVariable name w).2
    else (LibDeleteVariable name w).2
  else w

/-- The function `check_mok_request(image_handle)`.  The pool is not modelled, so the
`FreePool` calls are left out. -/
def check_mok_request (E : Ext) (fuel rounds : Nat) (w : World) : Res (EFI_STATUS × World) :=
  let MokNew := LibGetVariableAndSize w VarName.MokNew
  let MokDel := LibGetVariableAndSize w VarName.MokDel
  let MokSB := LibGetVariableAndSize w VarName.MokSB
  let MokPW := LibGetVariableAndSize w VarName.MokPW
  match enter_mok_menu E fuel rounds MokNew.1 MokNew.2 MokDel.1 MokDel.2 MokSB.1 MokSB.2
      MokPW.1 MokPW.2 w with
  | Res.ok (_, w1) =>
    Res.ok (EFI_SUCCESS,
      (LibDeleteVariable VarName.MokDelAuth (LibDeleteVariable VarName.MokAuth
        (delete_staged MokPW.1 VarName.MokPW "Failed to delete MokPW"
          (delete_staged MokSB.1 VarName.MokSB "Failed to delete MokSB"
            (delete_staged MokDel.1 VarName.MokDel "Failed to delete MokDel"
              (delete_staged MokNew.1 VarName.MokNew "Failed to delete MokNew" w1))))).2).2)
  | Res.fault => Res.fault
  | Res.timeout => Res.timeout
  | Res.blocked => Res.blocked

/-! ## Statements about the transactions -/

/-- The arguments `store_keys` and `delete_keys` pass to `match_password` for
an auth variable holding `record`: `(pw_crypt, Data, DataSize, auth)`. -/
def auth_call (E : Ext) (record : List Byte) (staged : Option (List Byte)) (size : Nat) :
    Option (List Byte) × Option (List Byte) × Nat × Option (List Byte) :=
  if record.length = E.PASSWORD_CRYPT_SIZE then (some record, none, 0, none)
  else (none, staged, size, some record)

/-- The operator's three password attempts all fail: three lines are read
from the machine `w`, each fails against `record`, and `w3` is the machine
after the third. -/
def three_failures (E : Ext) (record : List Byte) (staged : Option (List Byte)) (size : Nat)
    (w w3 : World) : Prop :=
  ∃ l1 w1 l2 w2 l3, get_line PASSWORD_MAX w = some (l1, w1) ∧
    get_line PASSWORD_MAX w1 = some (l2, w2) ∧ get_line PASSWORD_MAX w2 = some (l3, w3) ∧
    (∀ l ∈ [l1, l2, l3],
      attempt_fails E (auth_call E record staged size).1 (auth_call E record staged size).2.1
        (auth_call E record staged size).2.2.1
        (stored_hash E (auth_call E record staged size).1
          (auth_call E record staged size).2.2.2).1
        (stored_hash E (auth_call E record staged size).1
          (auth_call E record staged size).2.2.2).2 l)

/-- Between `w` and `w'` the program touched no variable and called no
runtime service: the store is the same and only console output was added to
the trace. -/
def quiet (w w' : World) : Prop :=
  w'.vars = w.vars ∧ w'.locked = w.locked ∧
    ∃ texts : List String, w'.trace = w.trace ++ texts.map Event.Console

/-- Between `w` and `w'` no variable came into being other than `MokList`,
`MokSBState` and `MokPWStore`, and the firmware refuses the same writes. -/
def creates_none (w w' : World) : Prop :=
  w'.locked = w.locked ∧
    ∀ n, n ≠ VarName.MokList → n ≠ VarName.MokSBState → n ≠ VarName.MokPWStore →
      w.vars n = none → w'.vars n = none

/-- The bytes a node denotes in `mem`, cut at the end of the buffer. -/
def MokListNode.bytesIn (mem : List Byte) (n : MokListNode) : List Byte :=
  match n.Mok with
  | none => []
  | some p => (mem.drop p).take n.MokSize

/-- Two nodes hold the same key: same size and same bytes. -/
def sameKey (MokDel : List Byte) (d : MokListNode) (MokListData : List Byte)
    (m : MokListNode) : Prop :=
  d.MokSize = m.MokSize ∧ d.bytesIn MokDel = m.bytesIn MokListData

instance (MokDel : List Byte) (d : MokListNode) (MokListData : List Byte) (m : MokListNode) :
    Decidable (sameKey MokDel d MokListData m) := by
  unfold sameKey; infer_instance

/-- A node of `MokList` is requested for deletion: some node of `MokDel` holds
the same key. -/
def requested (MokDel : List Byte) (del_key : List MokListNode) (MokListData : List Byte)
    (m : MokListNode) : Prop :=
  ∃ d ∈ del_key, sameKey MokDel d MokListData m

instance (MokDel : List Byte) (del_key : List MokListNode) (MokListData : List Byte)
    (m : MokListNode) : Decidable (requested MokDel del_key MokListData m) := by
  unfold requested; infer_instance

/-- The node after "Remove the key": `Mok = NULL`, `MokSize = 0`. -/
def MokListNode.removed (m : MokListNode) : MokListNode := { m with Mok := none, MokSize := 0 }

/-! ## Concrete inputs -/

/-- A GUID that is neither the certificate nor the hash type. -/
def otherGuid : EFI_GUID :=
  ⟨[0, 1, 2, 3, 4, 5, 6, 7, 8, 9, 10, 11, 12, 13, 14, 15], rfl⟩

/-- Four complete lists: an unknown type, a hash list with `sig_size = 20`, a
certificate with three data bytes, a hash list with `sig_size = 48`. -/
def sampleBlocks : List SigListBlock :=
  [ { SignatureType := otherGuid, SignatureHeaderSize := 0, SignatureSize := 17,
      body := SHIM_LOCK_GUID.val ++ [9] },
    { SignatureType := EfiHashSha256Guid, SignatureHeaderSize := 0, SignatureSize := 20,
      body := SHIM_LOCK_GUID.val ++ [1, 2, 3, 4] },
    { SignatureType := EfiCertX509Guid, SignatureHeaderSize := 0, SignatureSize := 19,
      body := SHIM_LOCK_GUID.val ++ [0x30, 0x01, 0x00] },
    { SignatureType := EfiHashSha256Guid, SignatureHeaderSize := 0, SignatureSize := 48,
      body := SHIM_LOCK_GUID.val ++ List.replicate 32 7 } ]

/-- A well-formed certificate list holding two signatures of two data bytes each. -/
def twoSigList : SigList :=
  { type_guid := EfiCertX509Guid
    header := []
    sig_size := 18
    sigs := [{ owner_guid := SHIM_LOCK_GUID, data := [1, 2] },
             { owner_guid := SHIM_LOCK_GUID, data := [3, 4] }] }

/-- Three lists: a certificate list, the two-signature list, a hash list. -/
def sampleLists : List SigList :=
  [ { type_guid := EfiCertX509Guid, header := [0xee], sig_size := 19,
      sigs := [{ owner_guid := otherGuid, data := [0x30, 0x01, 0x00] }] },
    twoSigList,
    { type_guid := EfiHashSha256Guid, header := [], sig_size := 48,
      sigs := [{ owner_guid := SHIM_LOCK_GUID, data := List.replicate 32 7 }] } ]

/-- Memory holding a certificate of three bytes at offset 2 and a hash of 32
bytes at offset 5. -/
def sampleMem : List Byte := [0xaa, 0xbb, 0x30, 0x01, 0x00] ++ List.replicate 32 7 ++ [0xcc]

/-- Three nodes over `sampleMem`: the certificate, a removed node, the hash. -/
def sampleNodes : List MokListNode :=
  [ { MokSize := 3, Mok := some 2, Type_ := EfiCertX509Guid },
    { MokSize := 0, Mok := none, Type_ := EfiCertX509Guid },
    { MokSize := 32, Mok := some 5, Type_ := EfiHashSha256Guid } ]

/-- The entries `sampleNodes` denote. -/
def sampleEntries : List SigEntry :=
  [ { kind := EfiCertX509Guid, bytes := [0x30, 0x01, 0x00] },
    { kind := EfiHashSha256Guid, bytes := List.replicate 32 7 } ]

/-- A machine with an empty variable store and no pending input. -/
def emptyWorld : World :=
  { vars := fun _ => none, locked := fun _ => false, keys := [], selects := [], random := [],
    trace := [] }

/-- A stand-in for a digest, for evaluating concrete runs: the sum and the
number of the input bytes, padded to 32 bytes. -/
def sampleDigest (bytes : List Byte) : List Byte :=
  ⟨(bytes.map (fun b => b.val)).sum % 256, Nat.mod_lt _ (by decide)⟩ ::
    ⟨bytes.length % 256, Nat.mod_lt _ (by decide)⟩ :: List.replicate 30 0

/-- Stand-ins for the collaborators, for evaluating concrete runs: a record
of 172 bytes with the method in its first two bytes and the hash at offset 44. -/
def sampleExt : Ext :=
  { PASSWORD_CRYPT_SIZE := 172
    legacy_fits := by decide
    method := fun r => match r with
      | b0 :: b1 :: _ => b0.val + 256 * b1.val
      | _ => 0
    hash := fun r => (r.drop 44).take 128
    get_hash_size := fun m => if m = 3 then 32 else if m = 4 then 64 else 0
    password_crypt := fun pw _ => some (sampleDigest pw)
    sha256 := fun bytes => sampleDigest bytes }

/-- A staged enroll request: one certificate of three bytes. -/
def sampleMokNew : List Byte :=
  encode [{ kind := EfiCertX509Guid, bytes := [0x30, 0x01, 0x00] }]

/-- A machine whose `MokAuth` holds ten bytes (neither 32 nor 172), with
`MokNew` staged, one key enrolled, and an operator who picks "Continue" and
then "Yes". -/
def malformedAuthWorld : World :=
  { vars := fun n =>
      match n with
      | VarName.MokAuth => some { attributes := 3, data := List.replicate 10 1 }
      | VarName.MokDelAuth => some { attributes := 3, data := List.replicate 10 1 }
      | VarName.MokNew => some { attributes := 3, data := sampleMokNew }
      | VarName.MokDel => some { attributes := 3, data := sampleMokNew }
      | VarName.MokList => some { attributes := 3, data := encode sampleEntries }
      | _ => none
    locked := fun _ => false
    keys := []
    selects := [1, 1]
    random := []
    trace := [] }

/-- The legacy `MokAuth` for the password "pw" over `sampleMokNew`. -/
def sampleLegacyAuth : List Byte :=
  sampleDigest (sampleMokNew ++ utf16_bytes [0x70, 0x77])

/-- The modern record for the password "pw": method 3, the hash at offset 44. -/
def sampleModernAuth : List Byte :=
  [3, 0] ++ List.replicate 42 0 ++ sampleDigest (pw_ascii [0x70, 0x77]) ++ List.replicate 96 0

/-- A machine with a legacy `MokAuth`, a modern `MokDelAuth`, staged requests
and one enrolled certificate; `MokList` holds `sampleEntries`. -/
def sampleStore : VarName → Option Variable := fun n =>
  match n with
  | VarName.MokAuth => some { attributes := 3, data := sampleLegacyAuth }
  | VarName.MokDelAuth => some { attributes := 3, data := sampleModernAuth }
  | VarName.MokNew => some { attributes := 3, data := sampleMokNew }
  | VarName.MokDel => some { attributes := 3, data := sampleMokNew }
  | VarName.MokList => some { attributes := 3, data := encode sampleEntries }
  | _ => none

/-- The operator picks "Continue", answers "Yes", and types "x", an empty
line and "yz". -/
def wrongPasswordWorld : World :=
  { vars := sampleStore, locked := fun _ => false,
    keys := [0x78, 0xD, 0xD, 0x79, 0x7A, 0xD], selects := [1, 1], random := [], trace := [] }

/-- The operator types "x", then "pw", then "zz". -/
def secondTryWorld : World :=
  { vars := sampleStore, locked := fun _ => false,
    keys := [0x78, 0xD, 0x70, 0x77, 0xD, 0x7A, 0x7A, 0xD], selects := [], random := [],
    trace := [] }

/-- Three enrolled certificates `A`, `B`, `C`. -/
def certA : SigEntry := { kind := EfiCertX509Guid, bytes := [0x30, 0x0A] }
/-- The certificate `B`. -/
def certB : SigEntry := { kind := EfiCertX509Guid, bytes := [0x30, 0x0B, 0x0B] }
/-- The certificate `C`. -/
def certC : SigEntry := { kind := EfiCertX509Guid, bytes := [0x30, 0x0C] }

/-- A machine whose `MokList` holds `A`, `B`, `C`; `MokDel` requests `B`; `MokDelAuth` is the
modern record for "pw"; the operator types "pw". -/
def deleteWorld : World :=
  { vars := fun n =>
      match n with
      | VarName.MokDelAuth => some { attributes := 3, data := sampleModernAuth }
      | VarName.MokDel => some { attributes := 3, data := encode [certB] }
      | VarName.MokList => some { attributes := 3, data := encode [certA, certB, certC] }
      | _ => none
    locked := fun _ => false
    keys := [0x70, 0x77, 0xD]
    selects := []
    random := []
    trace := [] }

/-- A machine whose `MokList` carries the runtime-access attribute; `MokDel`
requests `B`, `MokDelAuth` is the modern record for "pw", the operator types
"pw". -/
def tamperWorld : World :=
  { vars := fun n =>
      match n with
      | VarName.MokDelAuth => some { attributes := 3, data := sampleModernAuth }
      | VarName.MokDel => some { attributes := 3, data := encode [certB] }
      | VarName.MokList => some { attributes := 7, data := encode [certA, certB] }
      | _ => none
    locked := fun _ => false
    keys := [0x70, 0x77, 0xD]
    selects := []
    random := []
    trace := [] }

/-- A machine without `MokList`; `MokDel` and `MokDelAuth` were staged from
the running system and carry the runtime-access attribute; the operator
types "pw". -/
def noMokListWorld : World :=
  { vars := fun n =>
      match n with
      | VarName.MokDelAuth => some { attributes := 7, data := sampleModernAuth }
      | VarName.MokDel => some { attributes := 7, data := encode [certB] }
      | _ => none
    locked := fun _ => false
    keys := [0x70, 0x77, 0xD]
    selects := []
    random := []
    trace := [] }

/-- A header whose `list_size` field is zero: certificate type, header size
0, `sig_size` 17. -/
def zeroSizeStream : List Byte :=
  EfiCertX509Guid.val ++ (le32 0 ++ (le32 0 ++ le32 17))

/-- The first twenty bytes of a certificate list's header, with the
`list_size` field saying 20: the stream ends before the other size fields. -/
def truncatedHeader : List Byte := EfiCertX509Guid.val ++ le32 20

/-- A complete certificate list followed by three stray bytes. -/
def strayTail : List Byte := sampleMokNew ++ [1, 2, 3]

/-- A header-only certificate list (`list_size` 28) whose `sig_size` is 3,
less than the sixteen bytes of the owner GUID. -/
def shortSigStream : List Byte :=
  EfiCertX509Guid.val ++ (le32 28 ++ (le32 0 ++ le32 3))

/-- A header-only certificate list (`list_size` 28) with header size 4096
and `sig_size` 256. -/
def farHeaderStream : List Byte :=
  EfiCertX509Guid.val ++ (le32 28 ++ (le32 4096 ++ le32 256))

/-- A machine with a legacy `MokAuth` (32 bytes) and a modern `MokDelAuth`
(172 bytes); `MokNew` and `MokDel` are absent. -/
def staleSizeWorld : World :=
  { vars := fun n =>
      match n with
      | VarName.MokAuth => some { attributes := 7, data := sampleLegacyAuth }
      | VarName.MokDelAuth => some { attributes := 7, data := sampleModernAuth }
      | _ => none
    locked := fun _ => false
    keys := []
    selects := [0]
    random := []
    trace := [] }

/-- A machine whose `MokPWStore` holds the modern record for "pw"; `MokNew`
is staged; the operator types "x", an empty line and "yz", and would pick
"Enroll MOK" next. -/
def gateWorld : World :=
  { vars := fun n =>
      match n with
      | VarName.MokPWStore => some { attributes := 3, data := sampleModernAuth }
      | VarName.MokNew => some { attributes := 7, data := sampleMokNew }
      | _ => none
    locked := fun _ => false
    keys := [0x78, 0xD, 0xD, 0x79, 0x7A, 0xD]
    selects := [1, 1, 1]
    random := []
    trace := [] }

/-- A `MokSB` record: `MokSBState`, `PWLen`, and the password "abcdefgh" in
the sixteen-unit field. -/
def sampleMokSB (MokSBState PWLen : Nat) : List Byte :=
  le32 MokSBState ++ (le32 PWLen ++
    (utf16_bytes [0x61, 0x62, 0x63, 0x64, 0x65, 0x66, 0x67, 0x68] ++ List.replicate 16 0))

/-- A machine with `MokSB` staged as `record`; the random bytes give the
positions 2, 5, 0 for a `PWLen` of 8; the operator types "c", "f", "a" and then
gives `answer` to the confirmation. -/
def sbWorld (record : List Byte) (answer : Int) : World :=
  { vars := fun n =>
      match n with
      | VarName.MokSB => some { attributes := 7, data := record }
      | VarName.MokSBState => some { attributes := 3, data := [1] }
      | _ => none
    locked := fun _ => false
    keys := [0x63, 0xD, 0x66, 0xD, 0x61, 0xD]
    selects := [answer]
    random := [2, 5, 0]
    trace := [] }

/-- A staged `MokPW`: the modern record for "pw". -/
def pwWorld (record : List Byte) (keys : List Nat) : World :=
  { vars := fun n =>
      match n with
      | VarName.MokPW => some { attributes := 7, data := record }
      | VarName.MokPWStore => some { attributes := 3, data := sampleLegacyAuth }
      | _ => none
    locked := fun _ => false
    keys := keys
    selects := [0]
    random := []
    trace := [] }

/-- A session with every staging variable present: the operator confirms the
enrollment, types the password "pw" (for the legacy `MokAuth` over `MokNew`),
the reset returns, and "Continue boot" ends the menu. -/
def sessionWorld : World :=
  { vars := fun n =>
      match n with
      | VarName.MokAuth => some { attributes := 7, data := sampleLegacyAuth }
      | VarName.MokDelAuth => some { attributes := 7, data := sampleModernAuth }
      | VarName.MokNew => some { attributes := 7, data := sampleMokNew }
      | VarName.MokDel => some { attributes := 7, data := sampleMokNew }
      | VarName.MokSB => some { attributes := 7, data := sampleMokSB 0 8 }
      | VarName.MokPW => some { attributes := 7, data := sampleModernAuth }
      | VarName.MokList => some { attributes := 3, data := encode sampleEntries }
      | _ => none
    locked := fun _ => false
    keys := [0x70, 0x77, 0xD]
    selects := [1, 1, 1, 0]
    random := []
    trace := [] }

/-- A well-formed certificate list holding the two signatures `A` and `C`
(two data bytes each). -/
def acList : SigList :=
  { type_guid := EfiCertX509Guid
    header := []
    sig_size := 18
    sigs := [{ owner_guid := SHIM_LOCK_GUID, data := certA.bytes },
             { owner_guid := SHIM_LOCK_GUID, data := certC.bytes }] }

/-- A well-formed certificate list holding the two signatures `C` and `A`. -/
def caList : SigList :=
  { type_guid := EfiCertX509Guid
    header := []
    sig_size := 18
    sigs := [{ owner_guid := SHIM_LOCK_GUID, data := certC.bytes },
             { owner_guid := SHIM_LOCK_GUID, data := certA.bytes }] }

/-- A machine whose `MokList` is the stream `list`, with `MokDelAuth` the
modern record for "pw" and an operator who types "pw". -/
def deleteFrom (list : List Byte) : World :=
  { vars := fun n =>
      match n with
      | VarName.MokDelAuth => some { attributes := 3, data := sampleModernAuth }
      | VarName.MokList => some { attributes := 3, data := list }
      | _ => none
    locked := fun _ => false
    keys := [0x70, 0x77, 0xD]
    selects := []
    random := []
    trace := [] }

/-! ## Theorems -/

theorem length_le32 (n : Nat) : (le32 n).length = 4 := rfl

theorem u32At_le32 (n : Nat) (t : List Byte) : u32At (le32 n ++ t) = some (n % 2 ^ 32) := by
  simp only [le32, u32At, List.cons_append, List.nil_append, Option.some.injEq]
  omega

theorem rd32_append (A t : List Byte) (n p : Nat) (h : A.length = p) :
    rd32 (A ++ (le32 n ++ t)) p = some (n % 2 ^ 32) := by
  unfold rd32
  rw [List.drop_left' h, u32At_le32]

theorem rdGuid_append (A t : List Byte) (g : EFI_GUID) (p : Nat) (h : A.length = p) :
    rdGuid (A ++ (g.val ++ t)) p = some g := by
  unfold rdGuid
  have h1 : List.take 16 (List.drop p (A ++ (g.val ++ t))) = g.val := by
    rw [List.drop_left' h, List.take_left' g.property]
  simp only [h1, g.property, dite_true]

theorem rdBytes_append (A d t : List Byte) (p n : Nat) (h : A.length = p) (hn : d.length = n) :
    rdBytes (A ++ (d ++ t)) p n = some d := by
  unfold rdBytes
  by_cases h0 : n = 0
  · rw [if_pos h0]
    have : d = [] := List.length_eq_zero.mp (by omega)
    rw [this]
  · rw [if_neg h0, if_pos (by simp; omega), List.drop_left' h, List.take_left' hn]

theorem rdBytes_eq_take {mem : List Byte} {p n : Nat} {b : List Byte}
    (h : rdBytes mem p n = some b) : b = (mem.drop p).take n := by
  unfold rdBytes at h
  split at h
  · rename_i h0
    cases h
    rw [h0]
    rfl
  · split at h
    · cases h; rfl
    · cases h

theorem rdBytes_inside {mem : List Byte} {p n : Nat} {b : List Byte}
    (h : rdBytes mem p n = some b) (h0 : n ≠ 0) : p + n ≤ mem.length := by
  unfold rdBytes at h
  rw [if_neg h0] at h
  split at h
  · assumption
  · cases h


theorem length_bytes (l : SigListBlock) : l.bytes.length = l.SignatureListSize := by
  simp only [SigListBlock.bytes, SigListBlock.SignatureListSize, List.length_append,
    l.SignatureType.property, length_le32, sizeof_EFI_SIGNATURE_LIST]
  omega

theorem length_nodesFrom (ls : List SigListBlock) :
    ∀ start, (nodesFrom start ls).length = (ls.filter (fun l => ¬ l.skipped)).length := by
  induction ls with
  | nil => intro; rfl
  | cons l ls ih =>
    intro start
    by_cases h : l.skipped <;> simp [nodesFrom, h, ih, List.filter_cons]

theorem hdr_reads (A t : List Byte) (l : SigListBlock) (hf : l.fits) :
    rd32 (A ++ (l.bytes ++ t)) (A.length + 16) = some l.SignatureListSize ∧
    rd32 (A ++ (l.bytes ++ t)) (A.length + 20) = some l.SignatureHeaderSize ∧
    rd32 (A ++ (l.bytes ++ t)) (A.length + 24) = some l.SignatureSize ∧
    rdGuid (A ++ (l.bytes ++ t)) A.length = some l.SignatureType := by
  obtain ⟨h1, h2, h3⟩ := hf
  have hg := l.SignatureType.property
  refine ⟨?_, ?_, ?_, ?_⟩
  · have := rd32_append (A ++ l.SignatureType.val)
      (le32 l.SignatureHeaderSize ++ (le32 l.SignatureSize ++ (l.body ++ t)))
      l.SignatureListSize (A.length + 16) (by simp [hg])
    rw [Nat.mod_eq_of_lt h1] at this
    simpa [SigListBlock.bytes] using this
  · have := rd32_append (A ++ (l.SignatureType.val ++ le32 l.SignatureListSize))
      (le32 l.SignatureSize ++ (l.body ++ t))
      l.SignatureHeaderSize (A.length + 20) (by simp [hg, length_le32])
    rw [Nat.mod_eq_of_lt h2] at this
    simpa [SigListBlock.bytes] using this
  · have := rd32_append (A ++ (l.SignatureType.val ++ (le32 l.SignatureListSize ++
      le32 l.SignatureHeaderSize))) (l.body ++ t)
      l.SignatureSize (A.length + 24) (by simp [hg, length_le32])
    rw [Nat.mod_eq_of_lt h3] at this
    simpa [SigListBlock.bytes] using this
  · have := rdGuid_append A (le32 l.SignatureListSize ++ (le32 l.SignatureHeaderSize ++
      (le32 l.SignatureSize ++ (l.body ++ t)))) l.SignatureType A.length rfl
    simpa [SigListBlock.bytes] using this

theorem build_loop_stream (num : Nat) (ls : List SigListBlock) (hfit : ∀ l ∈ ls, l.fits) :
    ∀ (A post : List Byte) (fuel : Nat) (list : List MokListNode),
      ls.length < fuel →
      list.length + (ls.filter (fun l => ¬ l.skipped)).length ≤ num →
      build_mok_list_loop num (A ++ (streamOf ls ++ post)) fuel (streamOf ls).length A.length list
        = Res.ok (list ++ nodesFrom A.length ls) := by
  induction ls with
  | nil =>
    intro A post fuel list hfuel _
    obtain ⟨f, rfl⟩ : ∃ f, fuel = f + 1 := ⟨fuel - 1, by simp at hfuel; omega⟩
    simp [build_mok_list_loop, streamOf, nodesFrom]
  | cons l ls ih =>
    intro A post fuel list hfuel hnum
    obtain ⟨f, rfl⟩ : ∃ f, fuel = f + 1 := ⟨fuel - 1, by simp at hfuel; omega⟩
    have hf : l.fits := hfit l (List.mem_cons_self _ _)
    have hmem : A ++ (streamOf (l :: ls) ++ post) = A ++ (l.bytes ++ (streamOf ls ++ post)) := by
      simp [streamOf]
    obtain ⟨r16, r20, r24, rG⟩ := hdr_reads A (streamOf ls ++ post) l hf
    rw [← hmem] at r16 r20 r24 rG
    have hlen : (streamOf (l :: ls)).length = l.SignatureListSize + (streamOf ls).length := by
      simp [streamOf, length_bytes]
    have hpos : 0 < l.SignatureListSize := by
      simp [SigListBlock.SignatureListSize]
    have hrec := ih (fun x hx => hfit x (List.mem_cons_of_mem _ hx)) (A ++ l.bytes) post f
    have hmem2 : A ++ l.bytes ++ (streamOf ls ++ post) = A ++ (streamOf (l :: ls) ++ post) := by
      simp [streamOf]
    rw [hmem2] at hrec
    have hlenA : (A ++ l.bytes).length = A.length + l.SignatureListSize := by
      simp [length_bytes]
    rw [hlenA] at hrec
    have hsub : l.SignatureListSize + (streamOf ls).length - l.SignatureListSize
        = (streamOf ls).length := by omega
    rw [build_mok_list_loop]
    simp only [r16, r20, r24, rG, hlen]
    rw [if_neg (by omega), if_neg (by omega), hsub]
    by_cases hs : l.skipped
    · have hnf : nodesFrom A.length (l :: ls) = nodesFrom (A.length + l.SignatureListSize) ls := by
        simp [nodesFrom, hs]
      rw [hnf]
      have hnum2 : list.length + (ls.filter (fun l => ¬ l.skipped)).length ≤ num := by
        simpa [List.filter_cons, hs] using hnum
      rcases hs with hs | hs
      · rw [if_pos hs]
        exact hrec list (by simp at hfuel; omega) hnum2
      · have h1 : ¬ (l.SignatureType ≠ EfiCertX509Guid ∧ l.SignatureType ≠ EfiHashSha256Guid) := by
          intro h; exact h.2 hs.1
        rw [if_neg h1]
        rw [if_pos hs]
        exact hrec list (by simp at hfuel; omega) hnum2
    · have hnf : nodesFrom A.length (l :: ls) =
          mok_node A.length l.SignatureHeaderSize l.SignatureSize l.SignatureType ::
            nodesFrom (A.length + l.SignatureListSize) ls := by
        simp [nodesFrom, hs]
      rw [hnf]
      have hnum2 : (list ++ [mok_node A.length l.SignatureHeaderSize l.SignatureSize
          l.SignatureType]).length + (ls.filter (fun l => ¬ l.skipped)).length ≤ num := by
        simp [List.filter_cons, hs] at hnum ⊢
        omega
      have h1 : ¬ (l.SignatureType ≠ EfiCertX509Guid ∧ l.SignatureType ≠ EfiHashSha256Guid) :=
        fun h => hs (Or.inl h)
      have h2 : ¬ (l.SignatureType = EfiHashSha256Guid ∧ l.SignatureSize ≠ 48) :=
        fun h => hs (Or.inr h)
      have hlt : list.length < num := by
        simp [List.filter_cons, hs] at hnum
        omega
      rw [if_neg h1]
      rw [if_neg h2]
      rw [if_pos hlt]
      have := hrec _ (by simp at hfuel; omega) hnum2
      rw [this]
      simp


/-- The loop only ever appends to the entries written so far. -/
theorem build_loop_length_le (num : Nat) (Data : List Byte) :
    ∀ (fuel dbsize p : Nat) (list xs : List MokListNode),
      build_mok_list_loop num Data fuel dbsize p list = Res.ok xs → list.length ≤ xs.length := by
  intro fuel
  induction fuel with
  | zero => intro dbsize p list xs h; simp [build_mok_list_loop] at h
  | succ f ih =>
    intro dbsize p list xs h
    rw [build_mok_list_loop] at h
    split at h
    · cases h; exact Nat.le_refl _
    · split at h
      · cases h
      · split at h
        · cases h; exact Nat.le_refl _
        · split at h
          · cases h
          · split at h
            · exact ih _ _ _ _ h
            · split at h
              · cases h
              · split at h
                · exact ih _ _ _ _ h
                · split at h
                  · cases h
                  · split at h
                    · have := ih _ _ _ _ h
                      simp only [List.length_append, List.length_singleton] at this
                      omega
                    · cases h

/-- While `build_mok_list` has not faulted, `count_keys` runs in lockstep with it. -/
theorem count_lockstep (num : Nat) (Data : List Byte) :
    ∀ (fuel dbsize p : Nat) (list : List MokListNode) (m : Nat), m < 2 ^ 32 →
      build_mok_list_loop num Data fuel dbsize p list ≠ Res.fault →
      count_keys_loop Data fuel dbsize p m =
        (build_mok_list_loop num Data fuel dbsize p list).map
          (fun xs => (m + (xs.length - list.length)) % 2 ^ 32) := by
  intro fuel
  induction fuel with
  | zero => intro dbsize p list m _ _; rfl
  | succ f ih =>
    intro dbsize p list m hm h
    have hm' : m % 2 ^ 32 = m := Nat.mod_eq_of_lt hm
    rw [build_mok_list_loop] at h ⊢
    rw [count_keys_loop]
    by_cases h0 : dbsize = 0
    · rw [if_pos h0, if_pos h0]
      simp only [Res.map, Nat.sub_self, Nat.add_zero, hm']
    · rw [if_neg h0] at h ⊢
      rw [if_neg h0]
      cases h16 : rd32 Data (p + 16) with
      | none => simp [h16] at h
      | some lsz =>
        simp only [h16] at h ⊢
        by_cases hlt : dbsize < lsz
        · rw [if_pos hlt, if_pos hlt]
          simp only [Res.map, Nat.sub_self, Nat.add_zero, hm']
        · rw [if_neg hlt] at h ⊢
          rw [if_neg hlt]
          cases hG : rdGuid Data p with
          | none => simp [hG] at h
          | some ty =>
            simp only [hG] at h ⊢
            by_cases hu : ty ≠ EfiCertX509Guid ∧ ty ≠ EfiHashSha256Guid
            · rw [if_pos hu] at h ⊢
              rw [if_pos hu]
              exact ih _ _ _ _ hm h
            · rw [if_neg hu] at h ⊢
              rw [if_neg hu]
              cases h24 : rd32 Data (p + 24) with
              | none => simp [h24] at h
              | some ssz =>
                simp only [h24] at h ⊢
                have hm1 : (m + 1) % 2 ^ 32 < 2 ^ 32 := Nat.mod_lt _ (by decide)
                have key : ∀ hsz, list.length < num →
                    build_mok_list_loop num Data f (dbsize - lsz) (p + lsz)
                      (list ++ [mok_node p hsz ssz ty]) ≠ Res.fault →
                    count_keys_loop Data f (dbsize - lsz) (p + lsz) ((m + 1) % 2 ^ 32) =
                    (build_mok_list_loop num Data f (dbsize - lsz) (p + lsz)
                      (list ++ [mok_node p hsz ssz ty])).map
                      (fun xs => (m + (xs.length - list.length)) % 2 ^ 32) := by
                  intro hsz _ hb
                  rw [ih _ _ _ _ hm1 hb]
                  cases hbb : build_mok_list_loop num Data f (dbsize - lsz) (p + lsz)
                      (list ++ [mok_node p hsz ssz ty]) with
                  | ok xs =>
                    have hle := build_loop_length_le num Data f _ _ _ xs hbb
                    simp only [List.length_append, List.length_singleton] at hle
                    simp only [Res.map, List.length_append, List.length_singleton, Res.ok.injEq]
                    omega
                  | fault => rfl
                  | timeout => rfl
                  | blocked => rfl
                by_cases hc : ty = EfiCertX509Guid
                · have hne : ty ≠ EfiHashSha256Guid := by
                    rw [hc]; decide
                  have hs : ¬ (ty = EfiHashSha256Guid ∧ ssz ≠ 48) := fun hh => hne hh.1
                  rw [if_neg hs] at h ⊢
                  rw [if_neg (not_not.mpr hc)]
                  cases h20 : rd32 Data (p + 20) with
                  | none => simp [h20] at h
                  | some hsz =>
                    simp only [h20] at h ⊢
                    by_cases hn : list.length < num
                    · rw [if_pos hn] at h ⊢
                      exact key hsz hn h
                    · rw [if_neg hn] at h
                      exact absurd rfl h
                · have hh : ty = EfiHashSha256Guid := by
                    by_contra hh; exact hu ⟨hc, hh⟩
                  rw [if_pos hc]
                  by_cases h48 : ssz ≠ 48
                  · rw [if_pos (⟨hh, h48⟩ : ty = EfiHashSha256Guid ∧ ssz ≠ 48)] at h ⊢
                    rw [if_pos h48]
                    exact ih _ _ _ _ hm h
                  · have hs : ¬ (ty = EfiHashSha256Guid ∧ ssz ≠ 48) := fun hx => h48 hx.2
                    rw [if_neg hs] at h ⊢
                    rw [if_neg h48]
                    cases h20 : rd32 Data (p + 20) with
                    | none => simp [h20] at h
                    | some hsz =>
                      simp only [h20] at h ⊢
                      by_cases hn : list.length < num
                      · rw [if_pos hn] at h ⊢
                        exact key hsz hn h
                      · rw [if_neg hn] at h
                        exact absurd rfl h


/-- A header whose `list_size` is zero never lets the loop leave. -/
theorem build_loop_stuck (num : Nat) (Data : List Byte) (dbsize p : Nat) (h0 : dbsize ≠ 0)
    (h16 : rd32 Data (p + 16) = some 0) :
    ∀ (fuel : Nat) (list xs : List MokListNode),
      build_mok_list_loop num Data fuel dbsize p list ≠ Res.ok xs := by
  intro fuel
  induction fuel with
  | zero => intro list xs h; simp [build_mok_list_loop] at h
  | succ f ih =>
    intro list xs h
    rw [build_mok_list_loop, if_neg h0] at h
    simp only [h16, Nat.not_lt_zero, if_false, Nat.sub_zero, Nat.add_zero] at h
    split at h
    · cases h
    · split at h
      · exact ih _ _ h
      · split at h
        · cases h
        · split at h
          · exact ih _ _ h
          · split at h
            · cases h
            · split at h
              · exact ih _ _ h
              · cases h

/-- Every entry written costs at least one byte of the stream. -/
theorem build_loop_length_bound (num : Nat) (Data : List Byte) :
    ∀ (fuel dbsize p : Nat) (list xs : List MokListNode),
      build_mok_list_loop num Data fuel dbsize p list = Res.ok xs →
      xs.length ≤ list.length + dbsize := by
  intro fuel
  induction fuel with
  | zero => intro dbsize p list xs h; simp [build_mok_list_loop] at h
  | succ f ih =>
    intro dbsize p list xs h
    rw [build_mok_list_loop] at h
    by_cases h0 : dbsize = 0
    · rw [if_pos h0] at h; cases h; omega
    · rw [if_neg h0] at h
      cases h16 : rd32 Data (p + 16) with
      | none => simp [h16] at h
      | some lsz =>
        simp only [h16] at h
        by_cases hz : lsz = 0
        · subst hz
          exfalso
          refine build_loop_stuck num Data dbsize p h0 h16 (f + 1) list xs ?_
          rw [build_mok_list_loop, if_neg h0]
          simp only [h16]
          exact h
        · split at h
          · cases h; omega
          · split at h
            · cases h
            · split at h
              · have := ih _ _ _ _ h; omega
              · split at h
                · cases h
                · split at h
                  · have := ih _ _ _ _ h; omega
                  · split at h
                    · cases h
                    · split at h
                      · have := ih _ _ _ _ h
                        simp only [List.length_append, List.length_singleton] at this
                        omega
                      · cases h

/-- An allocation of exactly as many nodes as were produced is enough. -/
theorem build_loop_num (num num' : Nat) (Data : List Byte) :
    ∀ (fuel dbsize p : Nat) (list xs : List MokListNode),
      build_mok_list_loop num Data fuel dbsize p list = Res.ok xs → xs.length ≤ num' →
      build_mok_list_loop num' Data fuel dbsize p list = Res.ok xs := by
  intro fuel
  induction fuel with
  | zero => intro dbsize p list xs h; simp [build_mok_list_loop] at h
  | succ f ih =>
    intro dbsize p list xs h hn
    rw [build_mok_list_loop] at h ⊢
    by_cases h0 : dbsize = 0
    · rw [if_pos h0] at h ⊢; exact h
    · rw [if_neg h0] at h ⊢
      cases h16 : rd32 Data (p + 16) with
      | none => simp [h16] at h
      | some lsz =>
        simp only [h16] at h ⊢
        by_cases hlt : dbsize < lsz
        · rw [if_pos hlt] at h ⊢; exact h
        · rw [if_neg hlt] at h ⊢
          cases hG : rdGuid Data p with
          | none => simp [hG] at h
          | some ty =>
            simp only [hG] at h ⊢
            by_cases hu : ty ≠ EfiCertX509Guid ∧ ty ≠ EfiHashSha256Guid
            · rw [if_pos hu] at h ⊢; exact ih _ _ _ _ h hn
            · rw [if_neg hu] at h ⊢
              cases h24 : rd32 Data (p + 24) with
              | none => simp [h24] at h
              | some ssz =>
                simp only [h24] at h ⊢
                by_cases hs : ty = EfiHashSha256Guid ∧ ssz ≠ 48
                · rw [if_pos hs] at h ⊢; exact ih _ _ _ _ h hn
                · rw [if_neg hs] at h ⊢
                  cases h20 : rd32 Data (p + 20) with
                  | none => simp [h20] at h
                  | some hsz =>
                    simp only [h20] at h ⊢
                    by_cases hl : list.length < num
                    · rw [if_pos hl] at h
                      have hle := build_loop_length_le num Data _ _ _ _ _ h
                      simp only [List.length_append, List.length_singleton] at hle
                      rw [if_pos (by omega)]
                      exact ih _ _ _ _ h hn
                    · rw [if_neg hl] at h; cases h

/-! ### Encoding -/

theorem rdBytes_length {mem : List Byte} {p n : Nat} {b : List Byte}
    (h : rdBytes mem p n = some b) : b.length = n := by
  unfold rdBytes at h
  split at h
  · rename_i h0
    cases h
    rw [h0]
    rfl
  · split at h
    · cases h
      simp only [List.length_take, List.length_drop]
      omega
    · cases h

theorem encoded_eq_block (e : SigEntry) : e.encoded = e.list.block.bytes := by
  simp [SigEntry.encoded, SigListBlock.bytes, SigList.block, SigEntry.list, sigBytes,
    SigListBlock.SignatureListSize, SHIM_LOCK_GUID]

theorem encode_eq_streamOf (es : List SigEntry) :
    encode es = streamOf (es.map (fun e => e.list.block)) := by
  induction es with
  | nil => rfl
  | cons e es ih => simp [encode, streamOf, ih, encoded_eq_block]

/-- The buffer written back is the encoding of the entries the nodes denote. -/
theorem write_back_data_eq (mem : List Byte) (list : List MokListNode) :
    write_back_data mem list =
      match entriesOf mem list with
      | some es => Res.ok (encode es)
      | none => Res.fault := by
  induction list with
  | nil => rfl
  | cons n list ih =>
    rw [write_back_data, entriesOf]
    cases hM : n.Mok with
    | none => simpa using ih
    | some Mok =>
      simp only []
      cases hb : rdBytes mem Mok n.MokSize with
      | none => rfl
      | some b =>
        have hl := rdBytes_length hb
        rw [ih]
        cases he : entriesOf mem list with
        | none => rfl
        | some es =>
          have e1 : n.MokSize + sizeof_EFI_SIGNATURE_LIST + sizeof_EFI_SIGNATURE_DATA - 1
              = sizeof_EFI_SIGNATURE_LIST + (b.length + 16) := by
            show n.MokSize + 28 + 17 - 1 = 28 + (b.length + 16)
            omega
          have e2 : n.MokSize + sizeof_EFI_GUID = b.length + 16 := by
            show n.MokSize + 16 = b.length + 16
            omega
          simp only [encode, SigEntry.encoded, e1, e2, List.append_assoc]

/-! ### Parsing a stream of well-formed lists -/

theorem block_fits {l : SigList} (h : l.wf) : l.block.fits := by
  obtain ⟨h1, h2, h3⟩ := h
  have hb : (sigBytes l.sigs).length = l.sigs.length * l.sig_size := by
    have : ∀ ss : List SigData, (∀ s ∈ ss, 16 + s.data.length = l.sig_size) →
        (sigBytes ss).length = ss.length * l.sig_size := by
      intro ss
      induction ss with
      | nil => intro _; simp [sigBytes]
      | cons s ss ih =>
        intro hs
        have h16 := s.owner_guid.property
        have hd := hs s (List.mem_cons_self _ _)
        have := ih (fun x hx => hs x (List.mem_cons_of_mem _ hx))
        simp only [sigBytes, List.length_append, List.length_cons, this, h16, Nat.succ_mul]
        omega
    exact this _ h2
  have hge : l.sig_size ≤ l.sigs.length * l.sig_size := Nat.le_mul_of_pos_left _ h1
  unfold SigList.list_size at h3
  refine ⟨?_, ?_, ?_⟩
  · simp only [SigListBlock.SignatureListSize, SigList.block, List.length_append, hb]
    omega
  · simp only [SigList.block]
    omega
  · simp only [SigList.block]
    omega

theorem mok_node_MokSize (c h s : Nat) (ty : EFI_GUID) :
    (mok_node c h s ty).MokSize = (s + 2 ^ 32 - 16) % 2 ^ 32 := rfl

theorem entriesOf_cons_some (mem : List Byte) (n : MokListNode) (ns : List MokListNode)
    (p : Nat) (b : List Byte) (es : List SigEntry) (hM : n.Mok = some p)
    (hb : rdBytes mem p n.MokSize = some b) (hes : entriesOf mem ns = some es) :
    entriesOf mem (n :: ns) = some ({ kind := n.Type_, bytes := b } :: es) := by
  rw [entriesOf]
  simp only [hM, hb, hes]

theorem entriesOf_nodesFrom (ls : List SigList) (hwf : ∀ l ∈ ls, l.wf) :
    ∀ A : List Byte,
      entriesOf (A ++ streamOf (ls.map SigList.block))
        (nodesFrom A.length (ls.map SigList.block)) = some (firstEntries ls) := by
  induction ls with
  | nil => intro A; rfl
  | cons l ls ih =>
    intro A
    have hl : l.wf := hwf l (List.mem_cons_self _ _)
    have hrec := ih (fun x hx => hwf x (List.mem_cons_of_mem _ hx)) (A ++ l.block.bytes)
    have hlenA : (A ++ l.block.bytes).length = A.length + l.block.SignatureListSize := by
      simp [length_bytes]
    rw [hlenA] at hrec
    have hmem : A ++ streamOf (List.map SigList.block (l :: ls))
        = A ++ l.block.bytes ++ streamOf (List.map SigList.block ls) := by
      simp [streamOf]
    rw [hmem]
    by_cases hs : l.block.skipped
    · simp only [List.map_cons, nodesFrom, firstEntries, hs, if_true]
      exact hrec
    · obtain ⟨h1, h2, h3⟩ := hl
      obtain ⟨s, ss, hss⟩ : ∃ s ss, l.sigs = s :: ss := by
        cases hsg : l.sigs with
        | nil => rw [hsg] at h1; simp at h1
        | cons s ss => exact ⟨s, ss, rfl⟩
      have hd : 16 + s.data.length = l.sig_size := h2 s (by rw [hss]; exact List.mem_cons_self _ _)
      have hfit := block_fits (hwf l (List.mem_cons_self _ _))
      have hsz : l.sig_size < 2 ^ 32 := hfit.2.2
      simp only [List.map_cons, nodesFrom, firstEntries, hs, if_false]
      rw [hss]
      have hMS : (mok_node A.length l.block.SignatureHeaderSize l.block.SignatureSize
          l.block.SignatureType).MokSize = s.data.length := by
        rw [mok_node_MokSize]
        simp only [SigList.block]
        omega
      have hP : (A ++ (l.type_guid.val ++ (le32 l.block.SignatureListSize ++
            (le32 l.block.SignatureHeaderSize ++ (le32 l.block.SignatureSize ++
              (l.header ++ s.owner_guid.val)))))).length
          = A.length + sizeof_EFI_SIGNATURE_LIST + l.block.SignatureHeaderSize
            + sizeof_EFI_GUID := by
        simp only [List.length_append, length_le32, l.type_guid.property,
          s.owner_guid.property, SigList.block, sizeof_EFI_SIGNATURE_LIST, sizeof_EFI_GUID]
        omega
      have hrd : rdBytes (A ++ l.block.bytes ++ streamOf (List.map SigList.block ls))
          (A.length + sizeof_EFI_SIGNATURE_LIST + l.block.SignatureHeaderSize + sizeof_EFI_GUID)
          (mok_node A.length l.block.SignatureHeaderSize l.block.SignatureSize
            l.block.SignatureType).MokSize = some s.data := by
        rw [hMS]
        have hm : A ++ l.block.bytes ++ streamOf (List.map SigList.block ls) =
            (A ++ (l.type_guid.val ++ (le32 l.block.SignatureListSize ++
              (le32 l.block.SignatureHeaderSize ++ (le32 l.block.SignatureSize ++
                (l.header ++ s.owner_guid.val)))))) ++
            (s.data ++ (sigBytes ss ++ streamOf (List.map SigList.block ls))) := by
          simp only [SigListBlock.bytes, SigList.block, hss, sigBytes, List.append_assoc]
        rw [hm]
        exact rdBytes_append _ s.data _ _ s.data.length hP rfl
      exact entriesOf_cons_some _ _ _ _ _ _ rfl hrd hrec


/-! ### The parser on whole streams -/

theorem build_mok_list_stream (ls : List SigListBlock) (hfit : ∀ l ∈ ls, l.fits)
    (fuel num : Nat) (hfuel : ls.length < fuel)
    (hnum : (ls.filter (fun l => ¬ l.skipped)).length ≤ num) :
    build_mok_list fuel num (streamOf ls) (streamOf ls).length = Res.ok (nodesFrom 0 ls) := by
  have h := build_loop_stream num ls hfit [] [] fuel [] hfuel (by simpa using hnum)
  simpa [build_mok_list] using h

/-- When the parser returns and the stream is shorter than `2 ^ 32` bytes, the
count is the number of entries. -/
theorem count_keys_of_build (fuel num : Nat) (Data : List Byte) (DataSize : Nat)
    (xs : List MokListNode) (hsize : DataSize < 2 ^ 32)
    (h : build_mok_list fuel num Data DataSize = Res.ok xs) :
    count_keys fuel Data DataSize = Res.ok xs.length := by
  unfold build_mok_list at h
  have hb := build_loop_length_bound num Data fuel DataSize 0 [] xs h
  have hl := count_lockstep num Data fuel DataSize 0 [] 0 (by decide) (by rw [h]; simp)
  unfold count_keys
  rw [hl, h]
  simp only [Res.map, List.length_nil, Nat.sub_zero, Nat.zero_add, Res.ok.injEq]
  simp only [List.length_nil, Nat.zero_add] at hb
  omega

/-- C2: for every input stream shorter than `2 ^ 32` bytes on which
`build_mok_list` does not run into undefined behaviour, `count_keys` has the
same outcome as `build_mok_list` and, when they return, returns the number of
entries `build_mok_list` produced; an allocation of `count_keys` nodes is
exactly what `build_mok_list` needs. -/
theorem count_keys_eq_build_mok_list_length (fuel num : Nat) (Data : List Byte)
    (DataSize : Nat) (hsize : DataSize < 2 ^ 32)
    (hdef : build_mok_list fuel num Data DataSize ≠ Res.fault) :
    count_keys fuel Data DataSize = (build_mok_list fuel num Data DataSize).map List.length ∧
    ∀ n, count_keys fuel Data DataSize = Res.ok n →
      build_mok_list fuel n Data DataSize = build_mok_list fuel num Data DataSize := by
  have hl := count_lockstep num Data fuel DataSize 0 [] 0 (by decide) hdef
  cases hb : build_mok_list fuel num Data DataSize with
  | ok xs =>
    have hc := count_keys_of_build fuel num Data DataSize xs hsize hb
    refine ⟨by rw [hc]; rfl, ?_⟩
    intro n hn
    rw [hc] at hn
    cases hn
    exact build_loop_num num xs.length Data fuel DataSize 0 [] xs hb (Nat.le_refl _)
  | fault => exact absurd hb hdef
  | timeout =>
    have : count_keys fuel Data DataSize = Res.timeout := by
      unfold count_keys; unfold build_mok_list at hb; rw [hl, hb]; rfl
    refine ⟨by rw [this]; rfl, ?_⟩
    intro n hn
    rw [this] at hn
    cases hn
  | blocked =>
    have : count_keys fuel Data DataSize = Res.blocked := by
      unfold count_keys; unfold build_mok_list at hb; rw [hl, hb]; rfl
    refine ⟨by rw [this]; rfl, ?_⟩
    intro n hn
    rw [this] at hn
    cases hn

set_option maxRecDepth 100000 in
/-- Witness for C2 on a stream with an unknown list, a malformed hash list, a
certificate list and a hash list. -/
theorem count_keys_eq_build_mok_list_length_witness :
    ((streamOf sampleBlocks).length < 2 ^ 32 ∧
      build_mok_list 8 5 (streamOf sampleBlocks) (streamOf sampleBlocks).length ≠ Res.fault) ∧
    (count_keys 8 (streamOf sampleBlocks) (streamOf sampleBlocks).length =
        (build_mok_list 8 5 (streamOf sampleBlocks) (streamOf sampleBlocks).length).map
          List.length ∧
      ∀ n, count_keys 8 (streamOf sampleBlocks) (streamOf sampleBlocks).length = Res.ok n →
        build_mok_list 8 n (streamOf sampleBlocks) (streamOf sampleBlocks).length =
          build_mok_list 8 5 (streamOf sampleBlocks) (streamOf sampleBlocks).length) :=
  ⟨⟨by decide, by decide⟩,
    count_keys_eq_build_mok_list_length 8 5 (streamOf sampleBlocks)
      (streamOf sampleBlocks).length (by decide) (by decide)⟩

theorem map_Type_nodesFrom (ls : List SigListBlock) :
    ∀ start, (nodesFrom start ls).map (fun n => n.Type_) =
      (ls.filter (fun l => ¬ l.skipped)).map (fun l => l.SignatureType) := by
  induction ls with
  | nil => intro; rfl
  | cons l ls ih =>
    intro start
    by_cases h : l.skipped <;> simp [nodesFrom, h, ih, List.filter_cons, mok_node]

/-- C5: on a stream of complete signature lists `build_mok_list` returns, in
stream order, exactly one entry for every list that the skip rule does not
drop (type neither X.509 nor SHA-256, or SHA-256 with `sig_size ≠ 48`); a
skipped list does not end the parse. -/
theorem build_mok_list_skip_rule (ls : List SigListBlock) (hfit : ∀ l ∈ ls, l.fits)
    (fuel num : Nat) (hfuel : ls.length < fuel)
    (hnum : (ls.filter (fun l => ¬ l.skipped)).length ≤ num) :
    build_mok_list fuel num (streamOf ls) (streamOf ls).length = Res.ok (nodesFrom 0 ls) ∧
    (nodesFrom 0 ls).length = (ls.filter (fun l => ¬ l.skipped)).length ∧
    (nodesFrom 0 ls).map (fun n => n.Type_) =
      (ls.filter (fun l => ¬ l.skipped)).map (fun l => l.SignatureType) := by
  exact ⟨build_mok_list_stream ls hfit fuel num hfuel hnum, length_nodesFrom ls 0,
    map_Type_nodesFrom ls 0⟩

/-- Witness for C5: of the four sample lists the first two are dropped and the
last two are returned. -/
theorem build_mok_list_skip_rule_witness :
    ((∀ l ∈ sampleBlocks, l.fits) ∧ sampleBlocks.length < 8 ∧
      (sampleBlocks.filter (fun l => ¬ l.skipped)).length ≤ 2) ∧
    (build_mok_list 8 2 (streamOf sampleBlocks) (streamOf sampleBlocks).length
        = Res.ok (nodesFrom 0 sampleBlocks) ∧
      (nodesFrom 0 sampleBlocks).length = (sampleBlocks.filter (fun l => ¬ l.skipped)).length ∧
      (nodesFrom 0 sampleBlocks).map (fun n => n.Type_) =
        (sampleBlocks.filter (fun l => ¬ l.skipped)).map (fun l => l.SignatureType)) :=
  ⟨⟨by decide, by decide, by decide⟩,
    build_mok_list_skip_rule sampleBlocks (by decide) 8 2 (by decide) (by decide)⟩

/-! ### One entry per list -/

theorem length_firstEntries (ls : List SigList) (hwf : ∀ l ∈ ls, l.wf) :
    (firstEntries ls).length =
      ((ls.map SigList.block).filter (fun l => ¬ l.skipped)).length := by
  induction ls with
  | nil => rfl
  | cons l ls ih =>
    have hrec := ih (fun x hx => hwf x (List.mem_cons_of_mem _ hx))
    have hl : l.wf := hwf l (List.mem_cons_self _ _)
    by_cases hs : l.block.skipped
    · simp [firstEntries, hs, List.filter_cons, hrec]
    · obtain ⟨s, ss, hss⟩ : ∃ s ss, l.sigs = s :: ss := by
        cases hsg : l.sigs with
        | nil => have := hl.1; rw [hsg] at this; simp at this
        | cons s ss => exact ⟨s, ss, rfl⟩
      simp [firstEntries, hs, List.filter_cons, hrec, hss]

theorem build_mok_list_firstEntries (ls : List SigList) (hwf : ∀ l ∈ ls, l.wf)
    (hsize : (streamOf (ls.map SigList.block)).length < 2 ^ 32)
    (fuel num : Nat) (hfuel : ls.length < fuel) (hnum : (firstEntries ls).length ≤ num) :
    ∃ list, build_mok_list fuel num (streamOf (ls.map SigList.block))
        (streamOf (ls.map SigList.block)).length = Res.ok list ∧
      list.length = (firstEntries ls).length ∧
      entriesOf (streamOf (ls.map SigList.block)) list = some (firstEntries ls) ∧
      count_keys fuel (streamOf (ls.map SigList.block))
        (streamOf (ls.map SigList.block)).length = Res.ok (firstEntries ls).length := by
  have hfit : ∀ b ∈ ls.map SigList.block, b.fits := by
    intro b hb
    obtain ⟨l, hl, rfl⟩ := List.mem_map.mp hb
    exact block_fits (hwf l hl)
  have hlen := length_firstEntries ls hwf
  have hb := build_mok_list_stream (ls.map SigList.block) hfit fuel num
    (by simpa using hfuel) (by rw [← hlen]; exact hnum)
  have he := entriesOf_nodesFrom ls hwf []
  simp only [List.nil_append, List.length_nil] at he
  have hn : (nodesFrom 0 (ls.map SigList.block)).length = (firstEntries ls).length := by
    rw [length_nodesFrom, hlen]
  refine ⟨_, hb, hn, he, ?_⟩
  rw [← hn]
  exact count_keys_of_build fuel num _ _ _ hsize hb

/-- C3 (amended): for every well-formed stream `build_mok_list` returns exactly
one entry for each recognised list, its first signature, in stream order, and
`count_keys` returns the number of recognised lists; the signatures after the
first of a list are not returned. -/
theorem build_mok_list_first_signature_only (ls : List SigList) (hwf : ∀ l ∈ ls, l.wf)
    (hsize : (streamOf (ls.map SigList.block)).length < 2 ^ 32)
    (fuel num : Nat) (hfuel : ls.length < fuel) (hnum : (firstEntries ls).length ≤ num) :
    ∃ list, build_mok_list fuel num (streamOf (ls.map SigList.block))
        (streamOf (ls.map SigList.block)).length = Res.ok list ∧
      list.length = (firstEntries ls).length ∧
      entriesOf (streamOf (ls.map SigList.block)) list = some (firstEntries ls) ∧
      count_keys fuel (streamOf (ls.map SigList.block))
        (streamOf (ls.map SigList.block)).length = Res.ok (firstEntries ls).length :=
  build_mok_list_firstEntries ls hwf hsize fuel num hfuel hnum

set_option maxRecDepth 100000 in
/-- Witness for the amended C3 on three sample lists. -/
theorem build_mok_list_first_signature_only_witness :
    ((∀ l ∈ sampleLists, l.wf) ∧ (streamOf (sampleLists.map SigList.block)).length < 2 ^ 32 ∧
      sampleLists.length < 6 ∧ (firstEntries sampleLists).length ≤ 3) ∧
    ∃ list, build_mok_list 6 3 (streamOf (sampleLists.map SigList.block))
        (streamOf (sampleLists.map SigList.block)).length = Res.ok list ∧
      list.length = (firstEntries sampleLists).length ∧
      entriesOf (streamOf (sampleLists.map SigList.block)) list
        = some (firstEntries sampleLists) ∧
      count_keys 6 (streamOf (sampleLists.map SigList.block))
        (streamOf (sampleLists.map SigList.block)).length
        = Res.ok (firstEntries sampleLists).length :=
  ⟨⟨by decide, by decide, by decide, by decide⟩,
    build_mok_list_first_signature_only sampleLists (by decide) (by decide) 6 3
      (by decide) (by decide)⟩

set_option maxRecDepth 100000 in
/-- C3 (counterexample): a well-formed certificate list with two signatures
flattens to two entries, but `build_mok_list` returns only the first one and
`count_keys` returns one. -/
theorem build_mok_list_not_flattening :
    twoSigList.wf ∧
    flattenLists [twoSigList] =
      [{ kind := EfiCertX509Guid, bytes := [1, 2] }, { kind := EfiCertX509Guid, bytes := [3, 4] }] ∧
    build_mok_list 4 2 (streamOf [twoSigList.block]) (streamOf [twoSigList.block]).length
      = Res.ok [{ MokSize := 2, Mok := some 44, Type_ := EfiCertX509Guid }] ∧
    entriesOf (streamOf [twoSigList.block])
        [{ MokSize := 2, Mok := some 44, Type_ := EfiCertX509Guid }]
      = some [{ kind := EfiCertX509Guid, bytes := [1, 2] }] ∧
    count_keys 4 (streamOf [twoSigList.block]) (streamOf [twoSigList.block]).length
      = Res.ok 1 ∧
    ¬ (∃ list, build_mok_list 4 2 (streamOf [twoSigList.block])
          (streamOf [twoSigList.block]).length = Res.ok list ∧
        entriesOf (streamOf [twoSigList.block]) list = some (flattenLists [twoSigList])) := by
  refine ⟨by decide, by decide, by decide, by decide, by decide, ?_⟩
  rintro ⟨list, h1, h2⟩
  have h3 : build_mok_list 4 2 (streamOf [twoSigList.block]) (streamOf [twoSigList.block]).length
      = Res.ok [{ MokSize := 2, Mok := some 44, Type_ := EfiCertX509Guid }] := by decide
  rw [h3] at h1
  cases h1
  revert h2
  decide

/-! ### The write-back call -/

theorem SetVariable_trace (name : VarName) (attributes : Nat) (data : List Byte) (w : World) :
    (SetVariable name attributes data w).2.trace
      = w.trace ++ [Event.SetVariable name attributes data] := by
  unfold SetVariable
  simp only []
  split
  · rfl
  · split
    · split
      · split <;> rfl
      · rfl
    · split
      · split <;> rfl
      · rfl

theorem length_encode (es : List SigEntry) :
    (encode es).length =
      (es.map (fun e => sizeof_EFI_SIGNATURE_LIST + (e.bytes.length + 16))).sum := by
  induction es with
  | nil => rfl
  | cons e es ih =>
    simp only [encode, List.length_append, ih, List.map_cons, List.sum_cons, SigEntry.encoded,
      e.kind.property, SHIM_LOCK_GUID.property, length_le32, sizeof_EFI_SIGNATURE_LIST]
    omega

theorem encode_eq_flatten (es : List SigEntry) :
    encode es = (es.map SigEntry.encoded).flatten := by
  induction es with
  | nil => rfl
  | cons e es ih => simp [encode, ih]

theorem write_back_mok_list_emits (mem : List Byte) (list : List MokListNode) (key_num : Nat)
    (es : List SigEntry) (w : World) (hk : key_num ≤ list.length)
    (hes : entriesOf mem (list.take key_num) = some es) :
    ∃ st w' tail, write_back_mok_list mem list key_num w = Res.ok (st, w') ∧
      w'.trace = w.trace ++ Event.SetVariable VarName.MokList
        (EFI_VARIABLE_NON_VOLATILE ||| EFI_VARIABLE_BOOTSERVICE_ACCESS) (encode es) :: tail ∧
      ∀ e ∈ tail, ∃ text, e = Event.Console text := by
  have hd := write_back_data_eq mem (list.take key_num)
  rw [hes] at hd
  unfold write_back_mok_list
  rw [if_neg (by omega), hd]
  simp only []
  split
  · refine ⟨_, _, [Event.Console "Failed to set variable"], rfl, ?_, ?_⟩
    · simp [console, World.log, SetVariable_trace]
    · intro e he
      exact ⟨_, List.mem_singleton.mp he⟩
  · refine ⟨_, _, [], rfl, ?_, ?_⟩
    · simp [SetVariable_trace]
    · intro e he
      cases he

/-- C4: the payload `write_back_mok_list` hands to `SetVariable(MokList, NV|BS)`
is, for each non-removed entry in order, one signature list with the entry's
kind as type, `list_size = sizeof(header) + sig_size`, `header_size = 0`,
`sig_size = |bytes| + 16`, owner `SHIM_LOCK_GUID` and the entry's bytes; its
length is the sum of the list sizes, and no entries give zero bytes. -/
theorem write_back_mok_list_format (mem : List Byte) (list : List MokListNode) (key_num : Nat)
    (es : List SigEntry) (w : World) (hk : key_num ≤ list.length)
    (hes : entriesOf mem (list.take key_num) = some es) :
    (∃ st w' tail, write_back_mok_list mem list key_num w = Res.ok (st, w') ∧
      w'.trace = w.trace ++ Event.SetVariable VarName.MokList
        (EFI_VARIABLE_NON_VOLATILE ||| EFI_VARIABLE_BOOTSERVICE_ACCESS) (encode es) :: tail ∧
      ∀ e ∈ tail, ∃ text, e = Event.Console text) ∧
    encode es = (es.map (fun e => e.kind.val ++ (le32 (sizeof_EFI_SIGNATURE_LIST +
        (e.bytes.length + 16)) ++ (le32 0 ++ (le32 (e.bytes.length + 16) ++
        (SHIM_LOCK_GUID.val ++ e.bytes)))))).flatten ∧
    (encode es).length =
      (es.map (fun e => sizeof_EFI_SIGNATURE_LIST + (e.bytes.length + 16))).sum ∧
    encode [] = [] :=
  ⟨write_back_mok_list_emits mem list key_num es w hk hes, encode_eq_flatten es,
    length_encode es, rfl⟩

set_option maxRecDepth 100000 in
/-- Witness for C4: two entries and a removed node. -/
theorem write_back_mok_list_format_witness :
    (3 ≤ sampleNodes.length ∧ entriesOf sampleMem (sampleNodes.take 3) = some sampleEntries) ∧
    ((∃ st w' tail, write_back_mok_list sampleMem sampleNodes 3 emptyWorld = Res.ok (st, w') ∧
      w'.trace = emptyWorld.trace ++ Event.SetVariable VarName.MokList
        (EFI_VARIABLE_NON_VOLATILE ||| EFI_VARIABLE_BOOTSERVICE_ACCESS)
        (encode sampleEntries) :: tail ∧
      ∀ e ∈ tail, ∃ text, e = Event.Console text) ∧
    encode sampleEntries = (sampleEntries.map (fun e => e.kind.val ++
        (le32 (sizeof_EFI_SIGNATURE_LIST + (e.bytes.length + 16)) ++ (le32 0 ++
        (le32 (e.bytes.length + 16) ++ (SHIM_LOCK_GUID.val ++ e.bytes)))))).flatten ∧
    (encode sampleEntries).length =
      (sampleEntries.map (fun e => sizeof_EFI_SIGNATURE_LIST + (e.bytes.length + 16))).sum ∧
    encode [] = []) :=
  ⟨⟨by decide, by decide⟩,
    write_back_mok_list_format sampleMem sampleNodes 3 sampleEntries emptyWorld
      (by decide) (by decide)⟩

/-! ### Round trip -/

theorem encoded_le_encode {e : SigEntry} {es : List SigEntry} (h : e ∈ es) :
    sizeof_EFI_SIGNATURE_LIST + (e.bytes.length + 16) ≤ (encode es).length := by
  induction es with
  | nil => cases h
  | cons x xs ih =>
    rw [length_encode, List.map_cons, List.sum_cons, ← length_encode]
    rcases List.mem_cons.mp h with rfl | h'
    · omega
    · have := ih h'
      omega

theorem firstEntries_map_list (es : List SigEntry)
    (hns : ∀ e ∈ es, ¬ e.list.block.skipped) :
    firstEntries (es.map SigEntry.list) = es := by
  induction es with
  | nil => rfl
  | cons e es ih =>
    have h1 := hns e (List.mem_cons_self _ _)
    have h2 := ih (fun x hx => hns x (List.mem_cons_of_mem _ hx))
    simp only [List.map_cons, firstEntries, h1, if_false, h2]
    rfl

/-- Every sequence of entries is denoted by some node list over some buffer. -/
theorem entriesOf_placed (es : List SigEntry) :
    ∀ A : List Byte, entriesOf (A ++ placedBytes es) (placedNodes A.length es) = some es := by
  induction es with
  | nil => intro A; rfl
  | cons e es ih =>
    intro A
    have hrec := ih (A ++ e.bytes)
    rw [List.length_append, List.append_assoc] at hrec
    have hrd : rdBytes (A ++ (e.bytes ++ placedBytes es)) A.length e.bytes.length
        = some e.bytes := rdBytes_append A e.bytes _ _ _ rfl rfl
    exact entriesOf_cons_some _ _ _ _ _ _ rfl hrd hrec

/-- C1: for every sequence of entries (kind X.509 or SHA-256, every hash entry
32 bytes long, the whole encoding shorter than `2 ^ 32` bytes) held by the
nodes of a list, `write_back_mok_list` emits the encoding of the entries, and
`build_mok_list` on that byte stream returns as many nodes as there are
entries, denoting the same kinds and bytes in the same order; `count_keys`
returns their number. -/
theorem build_mok_list_write_back_roundtrip (mem : List Byte) (list : List MokListNode)
    (es : List SigEntry) (w : World) (fuel : Nat)
    (hes : entriesOf mem list = some es)
    (hkind : ∀ e ∈ es, e.kind = EfiCertX509Guid ∨ e.kind = EfiHashSha256Guid)
    (hhash : ∀ e ∈ es, e.kind = EfiHashSha256Guid → e.bytes.length = SHA256_DIGEST_SIZE)
    (hsize : (encode es).length < 2 ^ 32)
    (hfuel : es.length < fuel) :
    ∃ st w' tail Data, write_back_mok_list mem list list.length w = Res.ok (st, w') ∧
      w'.trace = w.trace ++ Event.SetVariable VarName.MokList
        (EFI_VARIABLE_NON_VOLATILE ||| EFI_VARIABLE_BOOTSERVICE_ACCESS) Data :: tail ∧
      count_keys fuel Data Data.length = Res.ok es.length ∧
      ∃ list', build_mok_list fuel es.length Data Data.length = Res.ok list' ∧
        list'.length = es.length ∧ entriesOf Data list' = some es := by
  have hfmt := write_back_mok_list_emits mem list list.length es w (Nat.le_refl _)
    (by rw [List.take_length]; exact hes)
  obtain ⟨st, w', tail, h1, h2, _⟩ := hfmt
  refine ⟨st, w', tail, encode es, h1, h2, ?_⟩
  have hns : ∀ e ∈ es, ¬ e.list.block.skipped := by
    intro e he hsk
    rcases hsk with ⟨hc, hh⟩ | ⟨hh, h48⟩
    · rcases hkind e he with h | h
      · exact hc h
      · exact hh h
    · have := hhash e he hh
      apply h48
      show e.bytes.length + 16 = 48
      rw [this]
  have hwf : ∀ l ∈ es.map SigEntry.list, l.wf := by
    intro l hl
    obtain ⟨e, he, rfl⟩ := List.mem_map.mp hl
    have hle := encoded_le_encode he
    refine ⟨Nat.le_refl _, ?_, ?_⟩
    · intro s hs
      have : s = { owner_guid := SHIM_LOCK_GUID, data := e.bytes } := List.mem_singleton.mp hs
      rw [this]
      show 16 + e.bytes.length = e.bytes.length + 16
      omega
    · show sizeof_EFI_SIGNATURE_LIST + 0 + 1 * (e.bytes.length + 16) < 2 ^ 32
      omega
  have hfe := firstEntries_map_list es hns
  have hst : streamOf ((es.map SigEntry.list).map SigList.block) = encode es := by
    rw [encode_eq_streamOf, List.map_map]
    rfl
  have h := build_mok_list_firstEntries (es.map SigEntry.list) hwf
    (by rw [hst]; exact hsize) fuel es.length (by simpa using hfuel) (by rw [hfe])
  rw [hst, hfe] at h
  obtain ⟨list', hb, hl, he, hc⟩ := h
  exact ⟨hc, list', hb, hl, he⟩

set_option maxRecDepth 100000 in
/-- Witness for C1: a certificate, a removed node and a hash. -/
theorem build_mok_list_write_back_roundtrip_witness :
    (entriesOf sampleMem sampleNodes = some sampleEntries ∧
      (∀ e ∈ sampleEntries, e.kind = EfiCertX509Guid ∨ e.kind = EfiHashSha256Guid) ∧
      (∀ e ∈ sampleEntries, e.kind = EfiHashSha256Guid → e.bytes.length = SHA256_DIGEST_SIZE) ∧
      (encode sampleEntries).length < 2 ^ 32 ∧ sampleEntries.length < 4) ∧
    ∃ st w' tail Data,
      write_back_mok_list sampleMem sampleNodes sampleNodes.length emptyWorld = Res.ok (st, w') ∧
      w'.trace = emptyWorld.trace ++ Event.SetVariable VarName.MokList
        (EFI_VARIABLE_NON_VOLATILE ||| EFI_VARIABLE_BOOTSERVICE_ACCESS) Data :: tail ∧
      count_keys 4 Data Data.length = Res.ok sampleEntries.length ∧
      ∃ list', build_mok_list 4 sampleEntries.length Data Data.length = Res.ok list' ∧
        list'.length = sampleEntries.length ∧ entriesOf Data list' = some sampleEntries :=
  ⟨⟨by decide, by decide, by decide, by decide, by decide⟩,
    build_mok_list_write_back_roundtrip sampleMem sampleNodes sampleEntries emptyWorld 4
      (by decide) (by decide) (by decide) (by decide) (by decide)⟩

/-! ### The authentication engine -/

theorem get_line_loop_length (m : Nat) :
    ∀ (keys line l ks : List Nat), get_line_loop m keys line = some (l, ks) →
      line.length ≤ m → l.length ≤ m := by
  intro keys
  induction keys with
  | nil => intro line l ks h; simp [get_line_loop] at h
  | cons key keys ih =>
    intro line l ks h hl
    rw [get_line_loop] at h
    by_cases c1 : (line.length ≥ m ∧ key ≠ CHAR_BACKSPACE) ∨ key = CHAR_NULL ∨ key = CHAR_TAB ∨
        key = CHAR_LINEFEED ∨ key = CHAR_CARRIAGE_RETURN
    · rw [if_pos c1] at h
      by_cases c2 : key ≠ CHAR_CARRIAGE_RETURN
      · rw [if_pos c2] at h
        exact ih _ _ _ h hl
      · rw [if_neg c2] at h
        cases h
        exact hl
    · rw [if_neg c1] at h
      by_cases c3 : line.length = 0 ∧ key = CHAR_BACKSPACE
      · rw [if_pos c3] at h
        exact ih _ _ _ h hl
      · rw [if_neg c3] at h
        by_cases c4 : key = CHAR_BACKSPACE
        · rw [if_pos c4] at h
          refine ih _ _ _ h ?_
          simp only [List.length_dropLast]
          omega
        · rw [if_neg c4] at h
          refine ih _ _ _ h ?_
          simp only [List.length_append, List.length_singleton]
          have : line.length < m := by
            by_contra hc
            exact c1 (Or.inl ⟨by omega, c4⟩)
          omega

theorem get_line_length {m : Nat} {w w1 : World} {l : List Nat}
    (h : get_line m w = some (l, w1)) : l.length ≤ m := by
  unfold get_line at h
  split at h
  · cases h
  · rename_i line keys heq
    cases h
    exact get_line_loop_length m _ _ _ _ heq (by simp)

theorem match_password_loop_spec (E : Ext) (pw_crypt : Option (List Byte))
    (Data : Option (List Byte)) (DataSize : Nat) (auth_hash : List Byte) (auth_size : Nat) :
    ∀ (n fail_count : Nat) (w : World), fail_count + n = 3 →
      (match match_password_loop E pw_crypt Data DataSize auth_hash auth_size (n + 1)
          fail_count w with
        | Res.ok (fc, w1) =>
          if fc ≥ 3 then Res.ok (EFI_ACCESS_DENIED, w1) else Res.ok (EFI_SUCCESS, w1)
        | Res.fault => Res.fault
        | Res.timeout => Res.timeout
        | Res.blocked => Res.blocked) =
      retry_policy (attempt_fails E pw_crypt Data DataSize auth_hash auth_size) n w := by
  intro n
  induction n with
  | zero =>
    intro fc w h
    have : fc = 3 := by omega
    subst this
    simp [match_password_loop, retry_policy]
  | succ n ih =>
    intro fc w h
    have hfc : fc < 3 := by omega
    rw [match_password_loop, if_pos hfc, retry_policy]
    cases hg : get_line PASSWORD_MAX w with
    | none => rfl
    | some r =>
      obtain ⟨password, w1⟩ := r
      have hlen := get_line_length hg
      simp only []
      have hrec := ih (fc + 1) w1 (by omega)
      by_cases h1 : password.length < PASSWORD_MIN ∨ password.length > PASSWORD_MAX
      · have hf : attempt_fails E pw_crypt Data DataSize auth_hash auth_size password := by
          left
          rcases h1 with h1 | h1
          · exact List.length_eq_zero.mp (by simp only [PASSWORD_MIN] at h1; omega)
          · omega
        rw [if_pos h1, if_pos hf]
        exact hrec
      · rw [if_neg h1]
        have hne : password ≠ [] := by
          intro he
          apply h1
          left
          rw [he]
          decide
        by_cases h2 : (attempt_hash E pw_crypt Data DataSize password).1 ≠ EFI_SUCCESS
        · rw [if_pos h2, if_pos (show attempt_fails E pw_crypt Data DataSize auth_hash auth_size
              password from Or.inr (Or.inl h2))]
          exact hrec
        · rw [if_neg h2]
          by_cases h3 : auth_hash.take auth_size ≠
              (attempt_hash E pw_crypt Data DataSize password).2.take auth_size
          · rw [if_pos h3, if_pos (show attempt_fails E pw_crypt Data DataSize auth_hash
                auth_size password from Or.inr (Or.inr h3))]
            exact hrec
          · rw [if_neg h3]
            have hnf : ¬ attempt_fails E pw_crypt Data DataSize auth_hash auth_size password := by
              rintro (h | h | h)
              · exact hne h
              · exact h2 h
              · exact h3 h
            rw [if_neg hnf]
            simp only []
            rw [if_neg (by omega)]

theorem match_password_eq_retry (E : Ext) (pw_crypt Data auth : Option (List Byte))
    (DataSize : Nat) (w : World) (hv : valid_record E pw_crypt auth) :
    match_password E pw_crypt Data DataSize auth w =
      retry_policy (attempt_fails E pw_crypt Data DataSize (stored_hash E pw_crypt auth).1
        (stored_hash E pw_crypt auth).2) 3 w := by
  unfold match_password
  cases pw_crypt with
  | some record =>
    simp only [valid_record] at hv
    simp only [stored_hash, if_neg hv]
    exact match_password_loop_spec E (some record) Data DataSize _ _ 3 0 w rfl
  | none =>
    cases auth with
    | none => simp [valid_record] at hv
    | some a =>
      simp only [stored_hash, Option.getD_some]
      exact match_password_loop_spec E none Data DataSize _ _ 3 0 w rfl

theorem retry_policy_three (fails : List Nat → Prop) [DecidablePred fails] (w w' : World)
    (st : EFI_STATUS) (h : retry_policy fails 3 w = Res.ok (st, w')) :
    (st = EFI_SUCCESS ∨ st = EFI_ACCESS_DENIED) ∧
    (st = EFI_ACCESS_DENIED ↔
      ∃ l1 w1 l2 w2 l3, get_line PASSWORD_MAX w = some (l1, w1) ∧
        get_line PASSWORD_MAX w1 = some (l2, w2) ∧ get_line PASSWORD_MAX w2 = some (l3, w') ∧
        fails l1 ∧ fails l2 ∧ fails l3) := by
  rw [retry_policy] at h
  cases h1 : get_line PASSWORD_MAX w with
  | none => rw [h1] at h; cases h
  | some r1 =>
    obtain ⟨l1, w1⟩ := r1
    rw [h1] at h
    simp only [] at h
    by_cases f1 : fails l1
    · rw [if_pos f1, retry_policy] at h
      cases h2 : get_line PASSWORD_MAX w1 with
      | none => rw [h2] at h; cases h
      | some r2 =>
        obtain ⟨l2, w2⟩ := r2
        rw [h2] at h
        simp only [] at h
        by_cases f2 : fails l2
        · rw [if_pos f2, retry_policy] at h
          cases h3 : get_line PASSWORD_MAX w2 with
          | none => rw [h3] at h; cases h
          | some r3 =>
            obtain ⟨l3, w3⟩ := r3
            rw [h3] at h
            simp only [] at h
            by_cases f3 : fails l3
            · rw [if_pos f3, retry_policy] at h
              cases h
              exact ⟨Or.inr rfl, fun _ => ⟨l1, w1, l2, w2, l3, rfl, h2, h3, f1, f2, f3⟩,
                fun _ => rfl⟩
            · rw [if_neg f3] at h
              cases h
              refine ⟨Or.inl rfl, (fun hh => by cases hh), ?_⟩
              rintro ⟨a1, v1, a2, v2, a3, e1, e2, e3, g1, g2, g3⟩
              cases e1
              rw [h2] at e2
              cases e2
              rw [h3] at e3
              cases e3
              exact absurd g3 f3
        · rw [if_neg f2] at h
          cases h
          refine ⟨Or.inl rfl, (fun hh => by cases hh), ?_⟩
          rintro ⟨a1, v1, a2, v2, a3, e1, e2, e3, g1, g2, g3⟩
          cases e1
          rw [h2] at e2
          cases e2
          exact absurd g2 f2
    · rw [if_neg f1] at h
      cases h
      refine ⟨Or.inl rfl, (fun hh => by cases hh), ?_⟩
      rintro ⟨a1, v1, a2, v2, a3, e1, e2, e3, g1, g2, g3⟩
      cases e1
      exact absurd g1 f1

/-- C10: for a usable stored record `match_password` follows the retry policy
with three attempts: it returns `EFI_SUCCESS` at the first attempt that does
not fail, leaving every later keystroke unread, and `EFI_ACCESS_DENIED` exactly
when the first three lines read all fail (empty line, hash computation
failure, or hash mismatch); it never reads a fourth line. -/
theorem match_password_retry_policy (E : Ext) (pw_crypt Data auth : Option (List Byte))
    (DataSize : Nat) (w : World) (hv : valid_record E pw_crypt auth) :
    match_password E pw_crypt Data DataSize auth w =
      retry_policy (attempt_fails E pw_crypt Data DataSize (stored_hash E pw_crypt auth).1
        (stored_hash E pw_crypt auth).2) 3 w ∧
    ∀ st w', match_password E pw_crypt Data DataSize auth w = Res.ok (st, w') →
      (st = EFI_SUCCESS ∨ st = EFI_ACCESS_DENIED) ∧
      (st = EFI_ACCESS_DENIED ↔
        ∃ l1 w1 l2 w2 l3, get_line PASSWORD_MAX w = some (l1, w1) ∧
          get_line PASSWORD_MAX w1 = some (l2, w2) ∧
          get_line PASSWORD_MAX w2 = some (l3, w') ∧
          attempt_fails E pw_crypt Data DataSize (stored_hash E pw_crypt auth).1
            (stored_hash E pw_crypt auth).2 l1 ∧
          attempt_fails E pw_crypt Data DataSize (stored_hash E pw_crypt auth).1
            (stored_hash E pw_crypt auth).2 l2 ∧
          attempt_fails E pw_crypt Data DataSize (stored_hash E pw_crypt auth).1
            (stored_hash E pw_crypt auth).2 l3) := by
  have he := match_password_eq_retry E pw_crypt Data auth DataSize w hv
  refine ⟨he, ?_⟩
  intro st w' h
  rw [he] at h
  exact retry_policy_three _ w w' st h

/-! ### What the authentication leaves untouched -/

theorem get_line_frame {m : Nat} {w w1 : World} {l : List Nat}
    (h : get_line m w = some (l, w1)) : ∃ ks, w1 = { w with keys := ks } := by
  unfold get_line at h
  split at h
  · cases h
  · cases h
    exact ⟨_, rfl⟩

theorem retry_policy_frame (fails : List Nat → Prop) [DecidablePred fails] :
    ∀ (n : Nat) (w w' : World) (st : EFI_STATUS),
      retry_policy fails n w = Res.ok (st, w') → ∃ ks, w' = { w with keys := ks } := by
  intro n
  induction n with
  | zero =>
    intro w w' st h
    rw [retry_policy] at h
    cases h
    exact ⟨w.keys, rfl⟩
  | succ n ih =>
    intro w w' st h
    rw [retry_policy] at h
    cases hg : get_line PASSWORD_MAX w with
    | none => rw [hg] at h; cases h
    | some r =>
      obtain ⟨l, w1⟩ := r
      rw [hg] at h
      simp only [] at h
      obtain ⟨ks, rfl⟩ := get_line_frame hg
      split at h
      · obtain ⟨ks', rfl⟩ := ih _ _ _ h
        exact ⟨ks', rfl⟩
      · cases h
        exact ⟨ks, rfl⟩

theorem match_password_frame (E : Ext) (pw_crypt Data auth : Option (List Byte))
    (DataSize : Nat) (w w' : World) (st : EFI_STATUS)
    (h : match_password E pw_crypt Data DataSize auth w = Res.ok (st, w')) :
    ∃ ks, w' = { w with keys := ks } := by
  by_cases hv : valid_record E pw_crypt auth
  · rw [match_password_eq_retry E pw_crypt Data auth DataSize w hv] at h
    exact retry_policy_frame _ 3 w w' st h
  · unfold match_password at h
    cases pw_crypt with
    | some record =>
      simp only [valid_record, not_not] at hv
      simp only [hv, if_true] at h
      cases h
      exact ⟨w.keys, rfl⟩
    | none =>
      cases auth with
      | none =>
        simp only [] at h
        cases h
        exact ⟨w.keys, rfl⟩
      | some a => simp [valid_record] at hv

/-! ### A malformed password record -/

theorem store_keys_wrong_size (E : Ext) (MokNew : Option (List Byte)) (MokNewSize : Nat)
    (w : World) (v : Variable) (hv : w.vars VarName.MokAuth = some v)
    (hle : v.data.length ≤ E.PASSWORD_CRYPT_SIZE)
    (h32 : v.data.length ≠ SHA256_DIGEST_SIZE) (hpc : v.data.length ≠ E.PASSWORD_CRYPT_SIZE) :
    store_keys E MokNew MokNewSize true w
      = Res.ok (EFI_SUCCESS, console "Failed to get MokAuth" w) := by
  unfold store_keys
  simp [GetVariable, hv, hle, h32, hpc]

theorem delete_keys_wrong_size (E : Ext) (fuel : Nat) (MokDel : Option (List Byte))
    (MokDelSize : Nat) (w : World) (v : Variable) (hv : w.vars VarName.MokDelAuth = some v)
    (hle : v.data.length ≤ E.PASSWORD_CRYPT_SIZE)
    (h32 : v.data.length ≠ SHA256_DIGEST_SIZE) (hpc : v.data.length ≠ E.PASSWORD_CRYPT_SIZE) :
    delete_keys E fuel MokDel MokDelSize w
      = Res.ok (EFI_SUCCESS, console "Failed to get MokDelAuth" w) := by
  unfold delete_keys
  simp [GetVariable, hv, hle, h32, hpc]

/-- An absent or oversized `MokAuth` does give a non-success status. -/
theorem store_keys_unreadable_auth (E : Ext) (MokNew : Option (List Byte)) (MokNewSize : Nat)
    (w : World)
    (h : w.vars VarName.MokAuth = none ∨
      ∃ v, w.vars VarName.MokAuth = some v ∧ E.PASSWORD_CRYPT_SIZE < v.data.length) :
    ∃ st, st ≠ EFI_SUCCESS ∧
      store_keys E MokNew MokNewSize true w = Res.ok (st, console "Failed to get MokAuth" w) := by
  rcases h with h | ⟨v, hv, hlt⟩
  · refine ⟨EFI_NOT_FOUND, by decide, ?_⟩
    unfold store_keys
    simp [GetVariable, h]
  · refine ⟨EFI_BUFFER_TOO_SMALL, by decide, ?_⟩
    have : ¬ v.data.length ≤ E.PASSWORD_CRYPT_SIZE := by omega
    unfold store_keys
    simp [GetVariable, hv, this]

/-- An absent or oversized `MokDelAuth` does give a non-success status. -/
theorem delete_keys_unreadable_auth (E : Ext) (fuel : Nat) (MokDel : Option (List Byte))
    (MokDelSize : Nat) (w : World)
    (h : w.vars VarName.MokDelAuth = none ∨
      ∃ v, w.vars VarName.MokDelAuth = some v ∧ E.PASSWORD_CRYPT_SIZE < v.data.length) :
    ∃ st, st ≠ EFI_SUCCESS ∧
      delete_keys E fuel MokDel MokDelSize w
        = Res.ok (st, console "Failed to get MokDelAuth" w) := by
  rcases h with h | ⟨v, hv, hlt⟩
  · refine ⟨EFI_NOT_FOUND, by decide, ?_⟩
    unfold delete_keys
    simp [GetVariable, h]
  · refine ⟨EFI_BUFFER_TOO_SMALL, by decide, ?_⟩
    have : ¬ v.data.length ≤ E.PASSWORD_CRYPT_SIZE := by omega
    unfold delete_keys
    simp [GetVariable, hv, this]

set_option maxRecDepth 100000 in
/-- C8 (the code at the failing input): with a ten-byte `MokAuth` /
`MokDelAuth`, `store_keys` and `delete_keys` return `EFI_SUCCESS`, and the
enroll and delete prompts then delete the staging variables and request the
reset although `MokList` was never written. -/
theorem malformed_auth_record_is_reported_as_success :
    (store_keys sampleExt (some sampleMokNew) sampleMokNew.length true
        malformedAuthWorld).map (fun r => r.1) = Res.ok EFI_SUCCESS ∧
    (delete_keys sampleExt 4 (some sampleMokNew) sampleMokNew.length
        malformedAuthWorld).map (fun r => r.1) = Res.ok EFI_SUCCESS ∧
    (mok_enrollment_prompt sampleExt 4 (some sampleMokNew) sampleMokNew.length true
        malformedAuthWorld).map
      (fun r => (r.1, r.2.vars VarName.MokNew, r.2.vars VarName.MokAuth,
        r.2.vars VarName.MokList, r.2.trace)) =
      Res.ok (-1, none, none, malformedAuthWorld.vars VarName.MokList,
        [Event.Console "Failed to get MokAuth", Event.DeleteVariable VarName.MokNew,
         Event.DeleteVariable VarName.MokAuth, Event.Console "The system must now be rebooted",
         Event.ResetSystem, Event.Console "Failed to reboot"]) ∧
    (mok_deletion_prompt sampleExt 4 (some sampleMokNew) sampleMokNew.length
        malformedAuthWorld).map
      (fun r => (r.1, r.2.vars VarName.MokDel, r.2.vars VarName.MokDelAuth,
        r.2.vars VarName.MokList, r.2.trace)) =
      Res.ok (-1, none, none, malformedAuthWorld.vars VarName.MokList,
        [Event.Console "Failed to get MokDelAuth", Event.DeleteVariable VarName.MokDel,
         Event.DeleteVariable VarName.MokDelAuth,
         Event.Console "The system must now be rebooted",
         Event.ResetSystem, Event.Console "Failed to reboot"]) := by
  refine ⟨by decide, by decide, by decide, by decide⟩

set_option maxRecDepth 100000 in
/-- C7 (the code at the failing input): with a ten-byte `MokAuth`,
`store_keys` on a non-empty `MokNew` with authentication returns
`EFI_SUCCESS` without any `SetVariable`; `MokList` is what it was. -/
theorem store_keys_success_without_append :
    sampleMokNew ≠ [] ∧
    (store_keys sampleExt (some sampleMokNew) sampleMokNew.length true
        malformedAuthWorld).map (fun r => (r.1, r.2.trace, r.2.vars VarName.MokList)) =
      Res.ok (EFI_SUCCESS, [Event.Console "Failed to get MokAuth"],
        malformedAuthWorld.vars VarName.MokList) := by
  refine ⟨by decide, by decide⟩

/-! ### Authentication failure -/

theorem quiet_refl (w : World) : quiet w w := ⟨rfl, rfl, [], by simp⟩

theorem quiet_trans {a b c : World} (h1 : quiet a b) (h2 : quiet b c) : quiet a c := by
  obtain ⟨v1, k1, t1, e1⟩ := h1
  obtain ⟨v2, k2, t2, e2⟩ := h2
  refine ⟨v2.trans v1, k2.trans k1, t1 ++ t2, ?_⟩
  rw [e2, e1]
  simp

theorem quiet_console (text : String) (w : World) : quiet w (console text w) :=
  ⟨rfl, rfl, [text], rfl⟩

theorem quiet_keys (w : World) (ks : List Nat) : quiet w { w with keys := ks } :=
  ⟨rfl, rfl, [], by simp⟩

theorem quiet_selects (w : World) (ss : List Int) : quiet w { w with selects := ss } :=
  ⟨rfl, rfl, [], by simp⟩

theorem console_all_frame :
    ∀ (texts : List String) (w : World),
      console_all texts w = { w with trace := w.trace ++ texts.map Event.Console } := by
  intro texts
  induction texts with
  | nil =>
    intro w
    cases w
    simp [console_all]
  | cons text texts ih =>
    intro w
    have h := ih (console text w)
    unfold console_all at h ⊢
    rw [List.foldl_cons, h]
    simp [console, World.log]

theorem quiet_console_all (texts : List String) (w : World) :
    quiet w (console_all texts w) := by
  rw [console_all_frame]
  exact ⟨rfl, rfl, texts, rfl⟩

theorem count_keys_call_ok {fuel : Nat} {Data : List Byte} {DataSize n : Nat} {w w' : World}
    (h : count_keys_call fuel Data DataSize w = Res.ok (n, w')) :
    count_keys fuel Data DataSize = Res.ok n ∧
      w' = console_all (count_keys_notify Data fuel DataSize 0) w := by
  unfold count_keys_call at h
  split at h
  · rename_i m hm
    simp only [Res.ok.injEq, Prod.mk.injEq] at h
    rw [hm, h.1]
    exact ⟨rfl, h.2.symm⟩
  · cases h
  · cases h
  · cases h

theorem count_keys_call_eq (fuel : Nat) (Data : List Byte) (DataSize : Nat) (w : World) :
    count_keys_call fuel Data DataSize w =
      (count_keys fuel Data DataSize).map
        (fun n => (n, console_all (count_keys_notify Data fuel DataSize 0) w)) := by
  unfold count_keys_call
  cases count_keys fuel Data DataSize <;> rfl

theorem show_mok_info_quiet {mem : List Byte} {Mok : Option Nat} {MokSize : Nat} {w w' : World}
    (h : show_mok_info mem Mok MokSize w = Res.ok w') : quiet w w' ∧ w'.keys = w.keys := by
  unfold show_mok_info at h
  split at h
  · cases h; exact ⟨quiet_refl _, rfl⟩
  · split at h
    · cases h; exact ⟨quiet_refl _, rfl⟩
    · split at h
      · cases h
      · cases h; exact ⟨quiet_console _ _, rfl⟩

theorem list_keys_loop_quiet (mem : List Byte) (keys : List MokListNode) (MokNum : Nat) :
    ∀ (selects : List Int) (w w' : World),
      list_keys_loop mem keys MokNum selects w = Res.ok w' →
      quiet w w' ∧ w'.keys = w.keys := by
  intro selects
  induction selects with
  | nil => intro w w' h; simp [list_keys_loop] at h
  | cons c rest ih =>
    intro w w' h
    rw [list_keys_loop] at h
    split at h
    · split at h
      · cases h
      · split at h
        · cases h
        · rename_i key _
          cases hs : show_mok_info mem key.Mok key.MokSize { w with selects := rest } with
          | ok w2 =>
            rw [hs] at h
            simp only [] at h
            obtain ⟨q1, k1⟩ := show_mok_info_quiet hs
            obtain ⟨q2, k2⟩ := ih _ _ h
            exact ⟨quiet_trans (quiet_trans (quiet_selects w rest) q1) q2, by rw [k2, k1]⟩
          | fault => rw [hs] at h; cases h
          | timeout => rw [hs] at h; cases h
          | blocked => rw [hs] at h; cases h
    · cases h
      exact ⟨quiet_selects w rest, rfl⟩

theorem list_keys_quiet {fuel : Nat} {KeyList : Option (List Byte)} {KeyListSize : Nat}
    {w w' : World} {st : EFI_STATUS}
    (h : list_keys fuel KeyList KeyListSize w = Res.ok (st, w')) :
    quiet w w' ∧ w'.keys = w.keys := by
  unfold list_keys at h
  split at h
  · cases h; exact ⟨quiet_console _ _, rfl⟩
  · split at h
    · rename_i MokNum w0 hc
      obtain ⟨_, rfl⟩ := count_keys_call_ok hc
      have q0 := quiet_console_all (count_keys_notify (KeyList.getD []) fuel KeyListSize 0) w
      have k0 : (console_all (count_keys_notify (KeyList.getD []) fuel KeyListSize 0) w).keys
          = w.keys := by rw [console_all_frame]
      split at h
      · split at h
        · split at h
          · rename_i hl
            cases h
            have hq := list_keys_loop_quiet _ _ _ _ _ _ hl
            exact ⟨quiet_trans q0 hq.1, hq.2.trans k0⟩
          · cases h
          · cases h
          · cases h
        · cases h; exact ⟨q0, k0⟩
      · cases h
      · cases h
      · cases h
    · cases h
    · cases h
    · cases h

theorem console_select_frame {w w' : World} {c : Int}
    (h : console_select w = some (c, w')) : ∃ ss, w' = { w with selects := ss } := by
  unfold console_select at h
  split at h
  · cases h
  · cases h; exact ⟨_, rfl⟩

theorem retry_policy_denied (fails : List Nat → Prop) [DecidablePred fails]
    (w w1 w2 w3 : World) (l1 l2 l3 : List Nat)
    (h1 : get_line PASSWORD_MAX w = some (l1, w1))
    (h2 : get_line PASSWORD_MAX w1 = some (l2, w2))
    (h3 : get_line PASSWORD_MAX w2 = some (l3, w3))
    (f1 : fails l1) (f2 : fails l2) (f3 : fails l3) :
    retry_policy fails 3 w = Res.ok (EFI_ACCESS_DENIED, w3) := by
  simp only [retry_policy, h1, h2, h3, f1, f2, f3, if_true]

theorem store_keys_denied (E : Ext) (MokNew : Option (List Byte)) (MokNewSize : Nat)
    (w w3 : World) (a : Variable) (ha : w.vars VarName.MokAuth = some a)
    (hs : a.data.length = SHA256_DIGEST_SIZE ∨ a.data.length = E.PASSWORD_CRYPT_SIZE)
    (hv : valid_record E (auth_call E a.data MokNew MokNewSize).1
      (auth_call E a.data MokNew MokNewSize).2.2.2)
    (h3 : three_failures E a.data MokNew MokNewSize w w3) :
    store_keys E MokNew MokNewSize true w = Res.ok (EFI_ACCESS_DENIED, w3) := by
  obtain ⟨l1, w1, l2, w2, l3, g1, g2, g3, hf⟩ := h3
  have hle : a.data.length ≤ E.PASSWORD_CRYPT_SIZE := by
    rcases hs with h | h
    · rw [h]; exact E.legacy_fits
    · omega
  have hmp : match_password E (auth_call E a.data MokNew MokNewSize).1
      (auth_call E a.data MokNew MokNewSize).2.1 (auth_call E a.data MokNew MokNewSize).2.2.1
      (auth_call E a.data MokNew MokNewSize).2.2.2 w = Res.ok (EFI_ACCESS_DENIED, w3) := by
    rw [match_password_eq_retry _ _ _ _ _ _ hv]
    exact retry_policy_denied _ w w1 w2 w3 l1 l2 l3 g1 g2 g3
      (hf l1 (by simp)) (hf l2 (by simp)) (hf l3 (by simp))
  unfold store_keys
  simp only [GetVariable, ha, hle, if_true]
  have hcond : ¬ (EFI_SUCCESS ≠ EFI_SUCCESS ∨
      (a.data.length ≠ SHA256_DIGEST_SIZE ∧ a.data.length ≠ E.PASSWORD_CRYPT_SIZE)) := by
    rintro (h | ⟨h1, h2⟩)
    · exact h rfl
    · rcases hs with h | h
      · exact h1 h
      · exact h2 h
  rw [if_neg hcond]
  by_cases hp : a.data.length = E.PASSWORD_CRYPT_SIZE
  · simp only [auth_call, hp, if_true] at hmp
    simp only [hp, if_true, hmp]
    rfl
  · simp only [auth_call, hp, if_false] at hmp
    simp only [hp, if_false, hmp]
    rfl

theorem delete_keys_denied (E : Ext) (fuel : Nat) (MokDel : Option (List Byte))
    (MokDelSize : Nat) (w w3 : World) (a : Variable)
    (ha : w.vars VarName.MokDelAuth = some a)
    (hs : a.data.length = SHA256_DIGEST_SIZE ∨ a.data.length = E.PASSWORD_CRYPT_SIZE)
    (hv : valid_record E (auth_call E a.data MokDel MokDelSize).1
      (auth_call E a.data MokDel MokDelSize).2.2.2)
    (h3 : three_failures E a.data MokDel MokDelSize w w3) :
    delete_keys E fuel MokDel MokDelSize w = Res.ok (EFI_ACCESS_DENIED, w3) := by
  obtain ⟨l1, w1, l2, w2, l3, g1, g2, g3, hf⟩ := h3
  have hle : a.data.length ≤ E.PASSWORD_CRYPT_SIZE := by
    rcases hs with h | h
    · rw [h]; exact E.legacy_fits
    · omega
  have hmp : match_password E (auth_call E a.data MokDel MokDelSize).1
      (auth_call E a.data MokDel MokDelSize).2.1 (auth_call E a.data MokDel MokDelSize).2.2.1
      (auth_call E a.data MokDel MokDelSize).2.2.2 w = Res.ok (EFI_ACCESS_DENIED, w3) := by
    rw [match_password_eq_retry _ _ _ _ _ _ hv]
    exact retry_policy_denied _ w w1 w2 w3 l1 l2 l3 g1 g2 g3
      (hf l1 (by simp)) (hf l2 (by simp)) (hf l3 (by simp))
  unfold delete_keys
  simp only [GetVariable, ha, hle, if_true]
  have hcond : ¬ (EFI_SUCCESS ≠ EFI_SUCCESS ∨
      (a.data.length ≠ SHA256_DIGEST_SIZE ∧ a.data.length ≠ E.PASSWORD_CRYPT_SIZE)) := by
    rintro (h | ⟨h1, h2⟩)
    · exact h rfl
    · rcases hs with h | h
      · exact h1 h
      · exact h2 h
  rw [if_neg hcond]
  by_cases hp : a.data.length = E.PASSWORD_CRYPT_SIZE
  · simp only [auth_call, hp, if_true] at hmp
    simp only [hp, if_true, hmp]
    rfl
  · simp only [auth_call, hp, if_false] at hmp
    simp only [hp, if_false, hmp]
    rfl

theorem three_failures_quiet {E : Ext} {record : List Byte} {staged : Option (List Byte)}
    {size : Nat} {w w3 : World} (h : three_failures E record staged size w w3) :
    quiet w w3 := by
  obtain ⟨l1, w1, l2, w2, l3, g1, g2, g3, _⟩ := h
  obtain ⟨k1, rfl⟩ := get_line_frame g1
  obtain ⟨k2, rfl⟩ := get_line_frame g2
  obtain ⟨k3, rfl⟩ := get_line_frame g3
  exact quiet_keys w k3

/-- C9: when the operator's three password attempts all fail, the enroll
action (`mok_enrollment_prompt` with authentication) ends with
`EFI_ACCESS_DENIED` from `store_keys` and reports failure, and `delete_keys`
ends with `EFI_ACCESS_DENIED`; in both the variable store is what it was (so
`MokList` and the staging and auth variables keep their values) and nothing
but console output was added to the trace: no `SetVariable`, no delete, no
reset. -/
theorem authentication_failure_is_side_effect_free (E : Ext) (fuel : Nat) :
    (∀ (MokNew : Option (List Byte)) (MokNewSize : Nat) (w w1 w2 w3 : World) (a : Variable)
        (answer : Int),
      list_keys fuel MokNew MokNewSize w = Res.ok (EFI_SUCCESS, w1) →
      console_select w1 = some (answer, w2) → answer ≠ 0 →
      w.vars VarName.MokAuth = some a →
      (a.data.length = SHA256_DIGEST_SIZE ∨ a.data.length = E.PASSWORD_CRYPT_SIZE) →
      valid_record E (auth_call E a.data MokNew MokNewSize).1
        (auth_call E a.data MokNew MokNewSize).2.2.2 →
      three_failures E a.data MokNew MokNewSize w2 w3 →
      store_keys E MokNew MokNewSize true w2 = Res.ok (EFI_ACCESS_DENIED, w3) ∧
      mok_enrollment_prompt E fuel MokNew MokNewSize true w
        = Res.ok (-1, console "Failed to enroll keys\n" w3) ∧
      quiet w (console "Failed to enroll keys\n" w3)) ∧
    (∀ (MokDel : Option (List Byte)) (MokDelSize : Nat) (w w3 : World) (a : Variable),
      w.vars VarName.MokDelAuth = some a →
      (a.data.length = SHA256_DIGEST_SIZE ∨ a.data.length = E.PASSWORD_CRYPT_SIZE) →
      valid_record E (auth_call E a.data MokDel MokDelSize).1
        (auth_call E a.data MokDel MokDelSize).2.2.2 →
      three_failures E a.data MokDel MokDelSize w w3 →
      delete_keys E fuel MokDel MokDelSize w = Res.ok (EFI_ACCESS_DENIED, w3) ∧ quiet w w3) := by
  constructor
  · intro MokNew MokNewSize w w1 w2 w3 a answer hl hc hans ha hs hv h3
    obtain ⟨q1, _⟩ := list_keys_quiet hl
    obtain ⟨ss, rfl⟩ := console_select_frame hc
    have ha2 : ({ w1 with selects := ss } : World).vars VarName.MokAuth = some a := by
      show w1.vars VarName.MokAuth = some a
      rw [q1.1]; exact ha
    have hst := store_keys_denied E MokNew MokNewSize _ w3 a ha2 hs hv h3
    refine ⟨hst, ?_, ?_⟩
    · unfold mok_enrollment_prompt
      simp only [hl, hc, hst]
      simp [hans]
    · exact quiet_trans (quiet_trans (quiet_trans q1 (quiet_selects w1 ss))
        (three_failures_quiet h3)) (quiet_console _ _)
  · intro MokDel MokDelSize w w3 a ha hs hv h3
    exact ⟨delete_keys_denied E fuel MokDel MokDelSize w w3 a ha hs hv h3,
      three_failures_quiet h3⟩

set_option maxRecDepth 100000 in
/-- Witness for C10: a legacy record for "pw"; the operator types "x", then
"pw"; the third line "zz" is left unread. -/
theorem match_password_retry_policy_witness :
    valid_record sampleExt none (some sampleLegacyAuth) ∧
    (match_password sampleExt none (some sampleMokNew) sampleMokNew.length
        (some sampleLegacyAuth) secondTryWorld).map (fun r => (r.1, r.2.keys))
      = Res.ok (EFI_SUCCESS, [0x7A, 0x7A, 0xD]) ∧
    (match_password sampleExt none (some sampleMokNew) sampleMokNew.length
        (some sampleLegacyAuth) secondTryWorld =
      retry_policy (attempt_fails sampleExt none (some sampleMokNew) sampleMokNew.length
        (stored_hash sampleExt none (some sampleLegacyAuth)).1
        (stored_hash sampleExt none (some sampleLegacyAuth)).2) 3 secondTryWorld ∧
    ∀ st w', match_password sampleExt none (some sampleMokNew) sampleMokNew.length
        (some sampleLegacyAuth) secondTryWorld = Res.ok (st, w') →
      (st = EFI_SUCCESS ∨ st = EFI_ACCESS_DENIED) ∧
      (st = EFI_ACCESS_DENIED ↔
        ∃ l1 w1 l2 w2 l3, get_line PASSWORD_MAX secondTryWorld = some (l1, w1) ∧
          get_line PASSWORD_MAX w1 = some (l2, w2) ∧
          get_line PASSWORD_MAX w2 = some (l3, w') ∧
          attempt_fails sampleExt none (some sampleMokNew) sampleMokNew.length
            (stored_hash sampleExt none (some sampleLegacyAuth)).1
            (stored_hash sampleExt none (some sampleLegacyAuth)).2 l1 ∧
          attempt_fails sampleExt none (some sampleMokNew) sampleMokNew.length
            (stored_hash sampleExt none (some sampleLegacyAuth)).1
            (stored_hash sampleExt none (some sampleLegacyAuth)).2 l2 ∧
          attempt_fails sampleExt none (some sampleMokNew) sampleMokNew.length
            (stored_hash sampleExt none (some sampleLegacyAuth)).1
            (stored_hash sampleExt none (some sampleLegacyAuth)).2 l3)) :=
  ⟨by decide, by decide,
    match_password_retry_policy sampleExt none (some sampleMokNew) (some sampleLegacyAuth)
      sampleMokNew.length secondTryWorld (by decide)⟩

set_option maxRecDepth 100000 in
/-- Witness for C9: the operator confirms the enrollment and types three
wrong passwords ("x", an empty line, "yz"). -/
theorem authentication_failure_is_side_effect_free_witness :
    (list_keys 4 (some sampleMokNew) sampleMokNew.length wrongPasswordWorld
        = Res.ok (EFI_SUCCESS, { wrongPasswordWorld with selects := [1] }) ∧
      console_select { wrongPasswordWorld with selects := [1] }
        = some (1, { wrongPasswordWorld with selects := [] }) ∧
      (1 : Int) ≠ 0 ∧
      wrongPasswordWorld.vars VarName.MokAuth = some { attributes := 3, data := sampleLegacyAuth } ∧
      three_failures sampleExt sampleLegacyAuth (some sampleMokNew) sampleMokNew.length
        { wrongPasswordWorld with selects := [] }
        { wrongPasswordWorld with selects := [], keys := [] }) ∧
    (store_keys sampleExt (some sampleMokNew) sampleMokNew.length true
        { wrongPasswordWorld with selects := [] }
      = Res.ok (EFI_ACCESS_DENIED, { wrongPasswordWorld with selects := [], keys := [] }) ∧
    mok_enrollment_prompt sampleExt 4 (some sampleMokNew) sampleMokNew.length true
        wrongPasswordWorld
      = Res.ok (-1, console "Failed to enroll keys\n"
          { wrongPasswordWorld with selects := [], keys := [] }) ∧
    quiet wrongPasswordWorld (console "Failed to enroll keys\n"
      { wrongPasswordWorld with selects := [], keys := [] })) ∧
    (delete_keys sampleExt 4 (some sampleMokNew) sampleMokNew.length wrongPasswordWorld
      = Res.ok (EFI_ACCESS_DENIED, { wrongPasswordWorld with keys := [] }) ∧
    quiet wrongPasswordWorld { wrongPasswordWorld with keys := [] }) := by
  have h3 : three_failures sampleExt sampleLegacyAuth (some sampleMokNew) sampleMokNew.length
      { wrongPasswordWorld with selects := [] }
      { wrongPasswordWorld with selects := [], keys := [] } :=
    ⟨[0x78], { wrongPasswordWorld with selects := [], keys := [0xD, 0x79, 0x7A, 0xD] },
      [], { wrongPasswordWorld with selects := [], keys := [0x79, 0x7A, 0xD] },
      [0x79, 0x7A], rfl, rfl, rfl, by decide⟩
  have h3d : three_failures sampleExt sampleModernAuth (some sampleMokNew) sampleMokNew.length
      wrongPasswordWorld { wrongPasswordWorld with keys := [] } :=
    ⟨[0x78], { wrongPasswordWorld with keys := [0xD, 0x79, 0x7A, 0xD] },
      [], { wrongPasswordWorld with keys := [0x79, 0x7A, 0xD] },
      [0x79, 0x7A], rfl, rfl, rfl, by decide⟩
  have hl : list_keys 4 (some sampleMokNew) sampleMokNew.length wrongPasswordWorld
      = Res.ok (EFI_SUCCESS, { wrongPasswordWorld with selects := [1] }) := by
    rfl
  have key := authentication_failure_is_side_effect_free sampleExt 4
  exact ⟨⟨hl, rfl, by decide, rfl, h3⟩,
    key.1 (some sampleMokNew) sampleMokNew.length wrongPasswordWorld _ _ _
      { attributes := 3, data := sampleLegacyAuth } 1 hl rfl (by decide) rfl
      (Or.inl (by decide)) (by decide) h3,
    key.2 (some sampleMokNew) sampleMokNew.length wrongPasswordWorld _
      { attributes := 3, data := sampleModernAuth } rfl (Or.inr (by decide))
      (by decide) h3d⟩

/-! ### Delete -/

theorem CompareMem_spec (MokDel MokListData : List Byte) (d m : MokListNode) (eq : Bool)
    (hsz : m.MokSize = d.MokSize)
    (h : CompareMem MokDel d.Mok MokListData m.Mok d.MokSize = some eq) :
    (eq = true ↔ sameKey MokDel d MokListData m) := by
  unfold CompareMem at h
  unfold sameKey MokListNode.bytesIn
  by_cases h0 : d.MokSize = 0
  · rw [if_pos h0] at h
    cases h
    simp only [true_iff]
    refine ⟨hsz.symm, ?_⟩
    rw [hsz, h0]
    cases d.Mok <;> cases m.Mok <;> simp
  · rw [if_neg h0] at h
    cases hd : d.Mok with
    | none => rw [hd] at h; cases hm : m.Mok <;> rw [hm] at h <;> cases h
    | some a =>
      cases hm : m.Mok with
      | none => rw [hd, hm] at h; cases h
      | some b =>
        rw [hd, hm] at h
        simp only [] at h
        cases hx : rdBytes MokDel a d.MokSize with
        | none => rw [hx] at h; cases h
        | some x =>
          cases hy : rdBytes MokListData b d.MokSize with
          | none => rw [hx, hy] at h; cases h
          | some y =>
            rw [hx, hy] at h
            simp only [Option.some.injEq] at h
            have ex : x = (MokDel.drop a).take d.MokSize := by
              exact rdBytes_eq_take hx
            have ey : y = (MokListData.drop b).take d.MokSize := by
              exact rdBytes_eq_take hy
            rw [← h, hsz]
            simp only [← ex, ← ey, decide_eq_true_eq, true_and]

theorem delete_one_eq (MokListData MokDel : List Byte) (key : MokListNode) :
    ∀ (mok mok1 : List MokListNode),
      delete_one MokListData MokDel key mok = Res.ok mok1 →
      mok1 = mok.map (fun m => if sameKey MokDel key MokListData m then m.removed else m) := by
  intro mok
  induction mok with
  | nil => intro mok1 h; rw [delete_one] at h; cases h; rfl
  | cons m mok ih =>
    intro mok1 h
    rw [delete_one] at h
    by_cases hsz : m.MokSize = key.MokSize
    · rw [if_pos hsz] at h
      cases hc : CompareMem MokDel key.Mok MokListData m.Mok key.MokSize with
      | none => rw [hc] at h; cases h
      | some eq =>
        rw [hc] at h
        simp only [] at h
        have hspec := CompareMem_spec MokDel MokListData key m eq hsz hc
        cases hr : delete_one MokListData MokDel key mok with
        | ok rest =>
          rw [hr] at h
          simp only [] at h
          have hrest := ih rest hr
          cases eq with
          | true =>
            simp only [if_true] at h
            cases h
            simp only [List.map_cons, if_pos (hspec.mp rfl), hrest]
            rfl
          | false =>
            simp only [Bool.false_eq_true, if_false] at h
            cases h
            have hn : ¬ sameKey MokDel key MokListData m := fun hh => by
              have := hspec.mpr hh
              cases this
            simp only [List.map_cons, if_neg hn, hrest]
        | fault => rw [hr] at h; cases h
        | timeout => rw [hr] at h; cases h
        | blocked => rw [hr] at h; cases h
    · rw [if_neg hsz] at h
      have hn : ¬ sameKey MokDel key MokListData m := fun hh => hsz hh.1.symm
      cases hr : delete_one MokListData MokDel key mok with
      | ok rest =>
        rw [hr] at h
        simp only [] at h
        cases h
        simp only [List.map_cons, if_neg hn, ih rest hr]
      | fault => rw [hr] at h; cases h
      | timeout => rw [hr] at h; cases h
      | blocked => rw [hr] at h; cases h

theorem delete_all_eq (MokListData MokDel : List Byte) :
    ∀ (del_key mok mok1 : List MokListNode),
      delete_all MokListData MokDel del_key mok = Res.ok mok1 →
      mok1 = mok.map (fun m =>
        if requested MokDel del_key MokListData m then m.removed else m) := by
  intro del_key
  induction del_key with
  | nil =>
    intro mok mok1 h
    rw [delete_all] at h
    cases h
    simp [requested]
  | cons key del_key ih =>
    intro mok mok1 h
    rw [delete_all] at h
    cases h1 : delete_one MokListData MokDel key mok with
    | ok mid =>
      rw [h1] at h
      simp only [] at h
      have e1 := delete_one_eq MokListData MokDel key mok mid h1
      have e2 := ih mid mok1 h
      rw [e2, e1, List.map_map]
      apply List.map_congr_left
      intro m _
      simp only [Function.comp]
      by_cases hk : sameKey MokDel key MokListData m
      · have hreq : requested MokDel (key :: del_key) MokListData m :=
          ⟨key, List.mem_cons_self _ _, hk⟩
        rw [if_pos hk, if_pos hreq]
        split <;> rfl
      · rw [if_neg hk]
        by_cases hr : requested MokDel del_key MokListData m
        · have hreq : requested MokDel (key :: del_key) MokListData m := by
            obtain ⟨d, hd, hs⟩ := hr
            exact ⟨d, List.mem_cons_of_mem _ hd, hs⟩
          rw [if_pos hr, if_pos hreq]
        · have hreq : ¬ requested MokDel (key :: del_key) MokListData m := by
            rintro ⟨d, hd, hs⟩
            rcases List.mem_cons.mp hd with rfl | hd'
            · exact hk hs
            · exact hr ⟨d, hd', hs⟩
          rw [if_neg hr, if_neg hreq]
    | fault => rw [h1] at h; cases h
    | timeout => rw [h1] at h; cases h
    | blocked => rw [h1] at h; cases h

theorem entriesOf_map_removed (mem : List Byte) (P : MokListNode → Prop) [DecidablePred P] :
    ∀ mok : List MokListNode,
      entriesOf mem (mok.map (fun m => if P m then m.removed else m))
        = entriesOf mem (mok.filter (fun m => ¬ P m)) := by
  intro mok
  induction mok with
  | nil => rfl
  | cons m mok ih =>
    by_cases hp : P m
    · simp only [List.map_cons, if_pos hp, List.filter_cons, hp, not_true_eq_false,
        decide_False, Bool.false_eq_true, if_false]
      rw [entriesOf]
      simp only [MokListNode.removed]
      exact ih
    · simp only [List.map_cons, if_neg hp, List.filter_cons, hp, not_false_eq_true,
        decide_True, if_true]
      rw [entriesOf, entriesOf, ih]
      simp only [if_false]

theorem build_loop_le_num (num : Nat) (Data : List Byte) :
    ∀ (fuel dbsize p : Nat) (list xs : List MokListNode),
      build_mok_list_loop num Data fuel dbsize p list = Res.ok xs → list.length ≤ num →
      xs.length ≤ num := by
  intro fuel
  induction fuel with
  | zero => intro dbsize p list xs h; simp [build_mok_list_loop] at h
  | succ f ih =>
    intro dbsize p list xs h hn
    rw [build_mok_list_loop] at h
    split at h
    · cases h; exact hn
    · split at h
      · cases h
      · split at h
        · cases h; exact hn
        · split at h
          · cases h
          · split at h
            · exact ih _ _ _ _ h hn
            · split at h
              · cases h
              · split at h
                · exact ih _ _ _ _ h hn
                · split at h
                  · cases h
                  · split at h
                    · refine ih _ _ _ _ h ?_
                      simp only [List.length_append, List.length_singleton]
                      omega
                    · cases h

theorem encode_eq_nil {es : List SigEntry} (h : encode es = []) : es = [] := by
  cases es with
  | nil => rfl
  | cons e es =>
    have := congrArg List.length h
    rw [length_encode, List.map_cons, List.sum_cons] at this
    simp only [List.length_nil, sizeof_EFI_SIGNATURE_LIST] at this
    omega

theorem SetVariable_set (name : VarName) (data : List Byte) (w : World)
    (h : (SetVariable name (EFI_VARIABLE_NON_VOLATILE ||| EFI_VARIABLE_BOOTSERVICE_ACCESS)
      data w).1 = EFI_SUCCESS) :
    (SetVariable name (EFI_VARIABLE_NON_VOLATILE ||| EFI_VARIABLE_BOOTSERVICE_ACCESS)
        data w).2.vars name =
      (if data = [] then none
       else some { attributes := EFI_VARIABLE_NON_VOLATILE ||| EFI_VARIABLE_BOOTSERVICE_ACCESS,
                   data := data }) ∧
    ∀ n, n ≠ name →
      (SetVariable name (EFI_VARIABLE_NON_VOLATILE ||| EFI_VARIABLE_BOOTSERVICE_ACCESS)
        data w).2.vars n = w.vars n := by
  have hbit : ¬ ((EFI_VARIABLE_NON_VOLATILE ||| EFI_VARIABLE_BOOTSERVICE_ACCESS) &&&
      EFI_VARIABLE_APPEND_WRITE ≠ 0) := by decide
  unfold SetVariable at h ⊢
  simp only [] at h ⊢
  by_cases hl : w.locked name = true
  · rw [if_pos hl] at h
    cases h
  · rw [if_neg hl, if_neg hbit] at h ⊢
    by_cases hd : data = []
    · rw [if_pos hd] at h ⊢
      cases hv : w.vars name with
      | none => rw [hv] at h; cases h
      | some v =>
        simp only [World.setVar, World.log, if_pos hd]
        refine ⟨by simp, ?_⟩
        intro n hn
        simp [hn]
    · rw [if_neg hd]
      simp only [World.setVar, World.log, if_neg hd]
      refine ⟨by simp, ?_⟩
      intro n hn
      simp [hn]

theorem get_variable_present (w : World) (name : VarName) (v : Variable)
    (hL : w.vars name = some v) (hne : v.data ≠ []) :
    get_variable w name =
      GetVariableResult.mk EFI_SUCCESS (some v.attributes) v.data.length (some v.data) := by
  have hpos : ¬ v.data.length ≤ 0 := by
    have := List.length_pos.mpr hne
    omega
  have h1 : GetVariable w name 0 =
      GetResult.mk EFI_BUFFER_TOO_SMALL none v.data.length [] := by
    simp only [GetVariable, hL, if_neg hpos]
  have h2 : GetVariable w name v.data.length =
      GetResult.mk EFI_SUCCESS (some v.attributes) v.data.length v.data := by
    simp only [GetVariable, hL, Nat.le_refl, if_true]
  unfold get_variable
  simp only [h1, h2, ne_eq, not_true_eq_false, if_false]

theorem delete_keys_commit_spec (fuel : Nat) (MokDel : Option (List Byte))
    (MokDelSize attributes : Nat) (w w' : World) (v : Variable)
    (hL : w.vars VarName.MokList = some v) (hne : v.data ≠ [])
    (hrt : v.attributes &&& EFI_VARIABLE_RUNTIME_ACCESS = 0)
    (h : delete_keys_commit fuel MokDel MokDelSize attributes w = Res.ok (EFI_SUCCESS, w')) :
    ∃ mok del_key es,
      count_keys fuel v.data v.data.length = Res.ok mok.length ∧
      build_mok_list fuel mok.length v.data v.data.length = Res.ok mok ∧
      count_keys fuel (MokDel.getD []) MokDelSize = Res.ok del_key.length ∧
      build_mok_list fuel del_key.length (MokDel.getD []) MokDelSize = Res.ok del_key ∧
      entriesOf v.data
        (mok.filter (fun m => ¬ requested (MokDel.getD []) del_key v.data m)) = some es ∧
      (SetVariable VarName.MokList
        (EFI_VARIABLE_NON_VOLATILE ||| EFI_VARIABLE_BOOTSERVICE_ACCESS) (encode es)
        (console_all (count_keys_notify (MokDel.getD []) fuel MokDelSize 0)
          (console_all (count_keys_notify v.data fuel v.data.length 0) w))).1
          = EFI_SUCCESS ∧
      w' = (SetVariable VarName.MokList
        (EFI_VARIABLE_NON_VOLATILE ||| EFI_VARIABLE_BOOTSERVICE_ACCESS) (encode es)
        (console_all (count_keys_notify (MokDel.getD []) fuel MokDelSize 0)
          (console_all (count_keys_notify v.data fuel v.data.length 0) w))).2 := by
  have hpos : v.data.length ≠ 0 := by
    have := List.length_pos.mpr hne
    omega
  unfold delete_keys_commit at h
  rw [get_variable_present w VarName.MokList v hL hne] at h
  simp only [Option.getD_some] at h
  rw [if_neg (by rw [hrt]; simp), if_neg hpos] at h
  rw [count_keys_call_eq] at h
  cases hc : count_keys fuel v.data v.data.length with
  | fault => rw [hc] at h; cases h
  | timeout => rw [hc] at h; cases h
  | blocked => rw [hc] at h; cases h
  | ok mok_num =>
    rw [hc] at h
    simp only [Res.map] at h
    cases hb : build_mok_list fuel mok_num v.data v.data.length with
    | fault => rw [hb] at h; cases h
    | timeout => rw [hb] at h; cases h
    | blocked => rw [hb] at h; cases h
    | ok mok =>
      rw [hb] at h
      simp only [] at h
      rw [count_keys_call_eq] at h
      cases hcd : count_keys fuel (MokDel.getD []) MokDelSize with
      | fault => rw [hcd] at h; cases h
      | timeout => rw [hcd] at h; cases h
      | blocked => rw [hcd] at h; cases h
      | ok del_num =>
        rw [hcd] at h
        simp only [Res.map] at h
        cases hbd : build_mok_list fuel del_num (MokDel.getD []) MokDelSize with
        | fault => rw [hbd] at h; cases h
        | timeout => rw [hbd] at h; cases h
        | blocked => rw [hbd] at h; cases h
        | ok del_key =>
          rw [hbd] at h
          simp only [] at h
          by_cases hlen : del_key.length < del_num ∨ mok.length < mok_num
          · rw [if_pos hlen] at h; cases h
          · rw [if_neg hlen] at h
            have hm1 : mok.length ≤ mok_num :=
              build_loop_le_num mok_num v.data fuel _ 0 [] mok hb (Nat.zero_le _)
            have hd1 : del_key.length ≤ del_num :=
              build_loop_le_num del_num _ fuel _ 0 [] del_key hbd (Nat.zero_le _)
            have hm : mok.length = mok_num := by omega
            have hd : del_key.length = del_num := by omega
            subst hm
            subst hd
            rw [List.take_length, List.take_length] at h
            cases hda : delete_all v.data (MokDel.getD []) del_key mok with
            | fault => rw [hda] at h; cases h
            | timeout => rw [hda] at h; cases h
            | blocked => rw [hda] at h; cases h
            | ok mok1 =>
              rw [hda] at h
              simp only [] at h
              have e1 := delete_all_eq v.data (MokDel.getD []) del_key mok mok1 hda
              have hl1 : mok1.length = mok.length := by rw [e1, List.length_map]
              unfold write_back_mok_list at h
              rw [if_neg (by omega), ← hl1, List.take_length, write_back_data_eq] at h
              have e2 : entriesOf v.data mok1 = entriesOf v.data
                  (mok.filter (fun m => ¬ requested (MokDel.getD []) del_key v.data m)) := by
                rw [e1]
                exact entriesOf_map_removed v.data _ mok
              rw [e2] at h
              cases he : entriesOf v.data
                  (mok.filter (fun m => ¬ requested (MokDel.getD []) del_key v.data m)) with
              | none => rw [he] at h; cases h
              | some es =>
                rw [he] at h
                simp only [] at h
                refine ⟨mok, del_key, es, rfl, hb, rfl, hbd, he, ?_⟩
                split at h
                · rename_i hne'
                  simp only [Res.ok.injEq, Prod.mk.injEq] at h
                  exact absurd h.1 hne'
                · rename_i heq
                  simp only [Res.ok.injEq, Prod.mk.injEq] at h
                  exact ⟨not_not.mp heq, h.2.symm⟩

theorem delete_keys_reaches_commit (E : Ext) (fuel : Nat) (MokDel : Option (List Byte))
    (MokDelSize : Nat) (w w' : World) (a : Variable)
    (ha : w.vars VarName.MokDelAuth = some a)
    (hs : a.data.length = SHA256_DIGEST_SIZE ∨ a.data.length = E.PASSWORD_CRYPT_SIZE)
    (h : delete_keys E fuel MokDel MokDelSize w = Res.ok (EFI_SUCCESS, w')) :
    ∃ ks attributes,
      delete_keys_commit fuel MokDel MokDelSize attributes { w with keys := ks }
        = Res.ok (EFI_SUCCESS, w') := by
  have hle : a.data.length ≤ E.PASSWORD_CRYPT_SIZE := by
    rcases hs with h | h
    · rw [h]; exact E.legacy_fits
    · omega
  have hcond : ¬ (EFI_SUCCESS ≠ EFI_SUCCESS ∨
      (a.data.length ≠ SHA256_DIGEST_SIZE ∧ a.data.length ≠ E.PASSWORD_CRYPT_SIZE)) := by
    rintro (h | ⟨h1, h2⟩)
    · exact h rfl
    · rcases hs with h | h
      · exact h1 h
      · exact h2 h
  unfold delete_keys at h
  simp only [GetVariable, ha, hle, if_true] at h
  rw [if_neg hcond] at h
  generalize hmp : (if a.data.length = E.PASSWORD_CRYPT_SIZE then
      match_password E (some a.data) none 0 none w
    else match_password E none MokDel MokDelSize (some a.data) w) = r at h
  cases r with
  | fault => cases h
  | timeout => cases h
  | blocked => cases h
  | ok p =>
    obtain ⟨st, w1⟩ := p
    simp only [] at h
    have hfr : ∃ ks, w1 = { w with keys := ks } := by
      split at hmp
      · exact match_password_frame _ _ _ _ _ _ _ _ hmp
      · exact match_password_frame _ _ _ _ _ _ _ _ hmp
    obtain ⟨ks, rfl⟩ := hfr
    by_cases hst : st ≠ EFI_SUCCESS
    · rw [if_pos hst] at h
      cases h
    · rw [if_neg hst] at h
      exact ⟨ks, _, h⟩

theorem entriesOf_mem {mem : List Byte} :
    ∀ {l : List MokListNode} {es : List SigEntry}, entriesOf mem l = some es →
      ∀ e ∈ es, ∃ m ∈ l, e.kind = m.Type_ ∧ e.bytes = m.bytesIn mem ∧
        e.bytes.length = m.MokSize := by
  intro l
  induction l with
  | nil =>
    intro es h e he
    rw [entriesOf] at h
    cases h
    cases he
  | cons n ns ih =>
    intro es h e he
    rw [entriesOf] at h
    cases hM : n.Mok with
    | none =>
      rw [hM] at h
      obtain ⟨m, hm, hh⟩ := ih h e he
      exact ⟨m, List.mem_cons_of_mem _ hm, hh⟩
    | some p =>
      rw [hM] at h
      simp only [] at h
      cases hb : rdBytes mem p n.MokSize with
      | none => rw [hb] at h; cases h
      | some b =>
        cases hr : entriesOf mem ns with
        | none => rw [hb, hr] at h; cases h
        | some rest =>
          rw [hb, hr] at h
          cases h
          rcases List.mem_cons.mp he with rfl | he'
          · refine ⟨n, List.mem_cons_self _ _, rfl, ?_, rdBytes_length hb⟩
            unfold MokListNode.bytesIn
            rw [hM]
            exact rdBytes_eq_take hb
          · obtain ⟨m, hm, hh⟩ := ih hr e he'
            exact ⟨m, List.mem_cons_of_mem _ hm, hh⟩

theorem mem_entriesOf {mem : List Byte} :
    ∀ {l : List MokListNode} {es : List SigEntry}, entriesOf mem l = some es →
      ∀ m ∈ l, m.Mok ≠ none → { kind := m.Type_, bytes := m.bytesIn mem } ∈ es := by
  intro l
  induction l with
  | nil => intro es _ m hm; cases hm
  | cons n ns ih =>
    intro es h m hm hnn
    rw [entriesOf] at h
    cases hM : n.Mok with
    | none =>
      rw [hM] at h
      rcases List.mem_cons.mp hm with rfl | hm'
      · exact absurd hM hnn
      · exact ih h m hm' hnn
    | some p =>
      rw [hM] at h
      simp only [] at h
      cases hb : rdBytes mem p n.MokSize with
      | none => rw [hb] at h; cases h
      | some b =>
        cases hr : entriesOf mem ns with
        | none => rw [hb, hr] at h; cases h
        | some rest =>
          rw [hb, hr] at h
          cases h
          rcases List.mem_cons.mp hm with rfl | hm'
          · have : m.bytesIn mem = b := by
              unfold MokListNode.bytesIn
              rw [hM]
              exact (rdBytes_eq_take hb).symm
            rw [this]
            exact List.mem_cons_self _ _
          · exact List.mem_cons_of_mem _ (ih hr m hm' hnn)

theorem build_loop_nonnull (num : Nat) (Data : List Byte) :
    ∀ (fuel dbsize p : Nat) (list xs : List MokListNode),
      build_mok_list_loop num Data fuel dbsize p list = Res.ok xs →
      (∀ n ∈ list, n.Mok ≠ none) → ∀ n ∈ xs, n.Mok ≠ none := by
  intro fuel
  induction fuel with
  | zero => intro dbsize p list xs h; simp [build_mok_list_loop] at h
  | succ f ih =>
    intro dbsize p list xs h hn
    rw [build_mok_list_loop] at h
    split at h
    · cases h; exact hn
    · split at h
      · cases h
      · split at h
        · cases h; exact hn
        · split at h
          · cases h
          · split at h
            · exact ih _ _ _ _ h hn
            · split at h
              · cases h
              · split at h
                · exact ih _ _ _ _ h hn
                · split at h
                  · cases h
                  · split at h
                    · refine ih _ _ _ _ h ?_
                      intro n hmem
                      rcases List.mem_append.mp hmem with h1 | h1
                      · exact hn n h1
                      · rw [List.mem_singleton.mp h1]
                        simp [mok_node]
                    · cases h

/-- C6 (amended): the entries of a payload are those `build_mok_list` returns
for it, one per recognised list (its first signature).  When `delete_keys`
succeeds after authentication against a well-sized `MokDelAuth`, with
`MokList` present, non-empty and without the runtime-access attribute, it
shows message boxes only and then makes one runtime call,
`SetVariable(MokList, NV|BS)`, with the encoding of exactly those entries of
`MokList` that no entry of `MokDel` equals in size and bytes, in their
original order; `MokList` then holds that encoding (it is gone when nothing
survives) and no other variable changed.  No surviving entry has the bytes of
an entry of `MokDel`, and every entry of `MokList` that equals none of them
survives. -/
theorem delete_keys_writes_survivors (E : Ext) (fuel : Nat) (MokDel : Option (List Byte))
    (MokDelSize : Nat) (w w' : World) (a v : Variable)
    (ha : w.vars VarName.MokDelAuth = some a)
    (hs : a.data.length = SHA256_DIGEST_SIZE ∨ a.data.length = E.PASSWORD_CRYPT_SIZE)
    (hL : w.vars VarName.MokList = some v) (hne : v.data ≠ [])
    (hrt : v.attributes &&& EFI_VARIABLE_RUNTIME_ACCESS = 0)
    (h : delete_keys E fuel MokDel MokDelSize w = Res.ok (EFI_SUCCESS, w')) :
    ∃ mok del_key es,
      build_mok_list fuel mok.length v.data v.data.length = Res.ok mok ∧
      build_mok_list fuel del_key.length (MokDel.getD []) MokDelSize = Res.ok del_key ∧
      entriesOf v.data
        (mok.filter (fun m => ¬ requested (MokDel.getD []) del_key v.data m)) = some es ∧
      (∃ texts : List String, w'.trace = w.trace ++ texts.map Event.Console ++
        [Event.SetVariable VarName.MokList
          (EFI_VARIABLE_NON_VOLATILE ||| EFI_VARIABLE_BOOTSERVICE_ACCESS) (encode es)]) ∧
      w'.vars VarName.MokList =
        (if es = [] then none
         else some { attributes := EFI_VARIABLE_NON_VOLATILE ||| EFI_VARIABLE_BOOTSERVICE_ACCESS,
                     data := encode es }) ∧
      (∀ n, n ≠ VarName.MokList → w'.vars n = w.vars n) ∧
      (∀ e ∈ es, ∀ d ∈ del_key,
        ¬ (d.MokSize = e.bytes.length ∧ d.bytesIn (MokDel.getD []) = e.bytes)) ∧
      (∀ m ∈ mok, ¬ requested (MokDel.getD []) del_key v.data m →
        { kind := m.Type_, bytes := m.bytesIn v.data } ∈ es) := by
  obtain ⟨ks, attributes, hc⟩ := delete_keys_reaches_commit E fuel MokDel MokDelSize w w' a ha hs h
  obtain ⟨mok, del_key, es, _, hb, _, hbd, he, hst, hw⟩ :=
    delete_keys_commit_spec fuel MokDel MokDelSize attributes { w with keys := ks } w' v hL hne
      hrt hc
  rw [console_all_frame, console_all_frame] at hst hw
  have hset := SetVariable_set VarName.MokList (encode es) _ hst
  refine ⟨mok, del_key, es, hb, hbd, he, ?_, ?_, ?_, ?_, ?_⟩
  · refine ⟨count_keys_notify v.data fuel v.data.length 0 ++
      count_keys_notify (MokDel.getD []) fuel MokDelSize 0, ?_⟩
    rw [hw, SetVariable_trace]
    simp
  · rw [hw, hset.1]
    by_cases hes : es = []
    · rw [if_pos hes, if_pos (by rw [hes]; rfl)]
    · rw [if_neg hes, if_neg (fun hh => hes (encode_eq_nil hh))]
  · intro n hn
    rw [hw, hset.2 n hn]
  · intro e hmem d hd hsame
    obtain ⟨m, hm, _, hbytes, hlen⟩ := entriesOf_mem he e hmem
    have hmf := (List.mem_filter.mp hm).2
    simp only [decide_eq_true_eq] at hmf
    apply hmf
    exact ⟨d, hd, by rw [← hlen]; exact hsame.1, by rw [← hbytes]; exact hsame.2⟩
  · intro m hm hnr
    have hnn : m.Mok ≠ none :=
      build_loop_nonnull _ _ _ _ _ _ _ hb (fun n hn => by cases hn) m hm
    exact mem_entriesOf he m (List.mem_filter.mpr ⟨hm, by simpa using hnr⟩) hnn

set_option maxRecDepth 100000 in
/-- Witness for C6: `MokList` is a list with the two signatures `A`, `C`
followed by a list with `B`; `MokDel` requests `B`; the operator enters the
right password.  The entries of `MokList` are `A` and `B`, and `MokList`
becomes the encoding of `A`. -/
theorem delete_keys_writes_survivors_witness :
    ((deleteFrom (streamOf [acList.block, certB.list.block])).vars VarName.MokDelAuth
        = some { attributes := 3, data := sampleModernAuth } ∧
      ((Variable.mk 3 sampleModernAuth).data.length = SHA256_DIGEST_SIZE ∨
        (Variable.mk 3 sampleModernAuth).data.length = sampleExt.PASSWORD_CRYPT_SIZE) ∧
      (deleteFrom (streamOf [acList.block, certB.list.block])).vars VarName.MokList
        = some { attributes := 3, data := streamOf [acList.block, certB.list.block] } ∧
      (Variable.mk 3 (streamOf [acList.block, certB.list.block])).data ≠ [] ∧
      (Variable.mk 3 (streamOf [acList.block, certB.list.block])).attributes
        &&& EFI_VARIABLE_RUNTIME_ACCESS = 0 ∧
      (delete_keys sampleExt 5 (some (encode [certB])) (encode [certB]).length
          (deleteFrom (streamOf [acList.block, certB.list.block]))).map
            (fun r => (r.1, r.2.vars VarName.MokList, r.2.trace))
        = Res.ok (EFI_SUCCESS, some { attributes := 3, data := encode [certA] },
            [Event.SetVariable VarName.MokList 3 (encode [certA])])) ∧
    ∃ w', delete_keys sampleExt 5 (some (encode [certB])) (encode [certB]).length
        (deleteFrom (streamOf [acList.block, certB.list.block])) = Res.ok (EFI_SUCCESS, w') ∧
      ∃ mok del_key es,
        build_mok_list 5 mok.length (streamOf [acList.block, certB.list.block])
          (streamOf [acList.block, certB.list.block]).length = Res.ok mok ∧
        build_mok_list 5 del_key.length (encode [certB]) (encode [certB]).length
          = Res.ok del_key ∧
        entriesOf (streamOf [acList.block, certB.list.block])
          (mok.filter (fun m => ¬ requested (encode [certB]) del_key
            (streamOf [acList.block, certB.list.block]) m)) = some es ∧
        (∃ texts : List String, w'.trace =
          (deleteFrom (streamOf [acList.block, certB.list.block])).trace ++
            texts.map Event.Console ++ [Event.SetVariable VarName.MokList
              (EFI_VARIABLE_NON_VOLATILE ||| EFI_VARIABLE_BOOTSERVICE_ACCESS) (encode es)]) ∧
        w'.vars VarName.MokList =
          (if es = [] then none
           else some { attributes :=
                         EFI_VARIABLE_NON_VOLATILE ||| EFI_VARIABLE_BOOTSERVICE_ACCESS,
                       data := encode es }) ∧
        (∀ n, n ≠ VarName.MokList →
          w'.vars n = (deleteFrom (streamOf [acList.block, certB.list.block])).vars n) ∧
        (∀ e ∈ es, ∀ d ∈ del_key,
          ¬ (d.MokSize = e.bytes.length ∧ d.bytesIn (encode [certB]) = e.bytes)) ∧
        (∀ m ∈ mok, ¬ requested (encode [certB]) del_key
            (streamOf [acList.block, certB.list.block]) m →
          { kind := m.Type_, bytes := m.bytesIn (streamOf [acList.block, certB.list.block]) }
            ∈ es) := by
  have hrun : (delete_keys sampleExt 5 (some (encode [certB])) (encode [certB]).length
      (deleteFrom (streamOf [acList.block, certB.list.block]))).map (fun r => r.1)
        = Res.ok EFI_SUCCESS := by decide
  refine ⟨⟨rfl, Or.inr (by decide), rfl, by decide, by decide, by decide⟩, ?_⟩
  cases hres : delete_keys sampleExt 5 (some (encode [certB])) (encode [certB]).length
      (deleteFrom (streamOf [acList.block, certB.list.block])) with
  | ok r =>
    obtain ⟨st, w'⟩ := r
    rw [hres] at hrun
    simp only [Res.map, Res.ok.injEq] at hrun
    subst hrun
    exact ⟨w', rfl, delete_keys_writes_survivors sampleExt 5 (some (encode [certB]))
      (encode [certB]).length (deleteFrom (streamOf [acList.block, certB.list.block])) w'
      { attributes := 3, data := sampleModernAuth }
      { attributes := 3, data := streamOf [acList.block, certB.list.block] } rfl
      (Or.inr (by decide)) rfl (by decide) (by decide) hres⟩
  | fault => rw [hres] at hrun; cases hrun
  | timeout => rw [hres] at hrun; cases hrun
  | blocked => rw [hres] at hrun; cases hrun

set_option maxRecDepth 100000 in
/-- C6 (counterexample): both payloads are well-formed streams.  First,
`MokList` is a list with the signatures `A`, `C` followed by a list with `B`,
and `MokDel` requests `B`: the flattened entries are `A`, `C`, `B`, so `A` and
`C` should survive, but `delete_keys` succeeds and writes the encoding of `A`
alone.  Second, `MokList` holds `A` and `C` in two lists and `MokDel` is one
list with the signatures `C`, `A`: nothing should survive, but `delete_keys`
succeeds and leaves `A` in `MokList`. -/
theorem delete_keys_sees_first_signatures_only :
    (acList.wf ∧ certB.list.wf ∧
      flattenLists [acList, certB.list] = [certA, certC, certB] ∧
      flattenLists [certB.list] = [certB] ∧
      encode [certB] = streamOf [certB.list.block] ∧
      (delete_keys sampleExt 5 (some (encode [certB])) (encode [certB]).length
          (deleteFrom (streamOf [acList.block, certB.list.block]))).map
            (fun r => (r.1, r.2.vars VarName.MokList))
        = Res.ok (EFI_SUCCESS, some { attributes := 3, data := encode [certA] }) ∧
      encode [certA] ≠ encode ((flattenLists [acList, certB.list]).filter
        (fun e => ∀ d ∈ flattenLists [certB.list], d.bytes ≠ e.bytes))) ∧
    (caList.wf ∧ certA.list.wf ∧ certC.list.wf ∧
      flattenLists [certA.list, certC.list] = [certA, certC] ∧
      flattenLists [caList] = [certC, certA] ∧
      encode [certA, certC] = streamOf [certA.list.block, certC.list.block] ∧
      (delete_keys sampleExt 5 (some (streamOf [caList.block]))
          (streamOf [caList.block]).length (deleteFrom (encode [certA, certC]))).map
            (fun r => (r.1, r.2.vars VarName.MokList))
        = Res.ok (EFI_SUCCESS, some { attributes := 3, data := encode [certA] }) ∧
      (flattenLists [certA.list, certC.list]).filter
        (fun e => ∀ d ∈ flattenLists [caList], d.bytes ≠ e.bytes) = []) := by
  refine ⟨⟨by decide, by decide, by decide, by decide, by decide, by decide, by decide⟩,
    ⟨by decide, by decide, by decide, by decide, by decide, by decide, by decide, by decide⟩⟩

set_option maxRecDepth 100000 in
/-- The message boxes of `count_keys` on a concrete run: `MokList` holds a
list of unknown type, a hash list with `sig_size` 20, a certificate and a hash;
`delete_keys` shows one box for each of the two skipped lists and writes the
other two entries back. -/
theorem delete_keys_shows_skipped_lists :
    (delete_keys sampleExt 5 (some (encode [certB])) (encode [certB]).length
        (deleteFrom (streamOf sampleBlocks))).map (fun r => (r.1, r.2.trace)) =
      Res.ok (EFI_SUCCESS,
        [Event.Console "Doesn't look like a key or hash",
         Event.Console "Doesn't look like a valid hash",
         Event.SetVariable VarName.MokList 3 (encode sampleEntries)]) := by
  decide

/-! ### Enroll with a well-sized password record -/

theorem SetVariable_append (name : VarName) (data : List Byte) (w : World) (hd : data ≠ [])
    (h : (SetVariable name (EFI_VARIABLE_NON_VOLATILE ||| EFI_VARIABLE_BOOTSERVICE_ACCESS
      ||| EFI_VARIABLE_APPEND_WRITE) data w).1 = EFI_SUCCESS) :
    (SetVariable name (EFI_VARIABLE_NON_VOLATILE ||| EFI_VARIABLE_BOOTSERVICE_ACCESS
        ||| EFI_VARIABLE_APPEND_WRITE) data w).2.vars name =
      some (match w.vars name with
        | none => { attributes :=
                      EFI_VARIABLE_NON_VOLATILE ||| EFI_VARIABLE_BOOTSERVICE_ACCESS,
                    data := data }
        | some v => { attributes := v.attributes, data := v.data ++ data }) ∧
    ∀ n, n ≠ name →
      (SetVariable name (EFI_VARIABLE_NON_VOLATILE ||| EFI_VARIABLE_BOOTSERVICE_ACCESS
        ||| EFI_VARIABLE_APPEND_WRITE) data w).2.vars n = w.vars n := by
  have hbit : (EFI_VARIABLE_NON_VOLATILE ||| EFI_VARIABLE_BOOTSERVICE_ACCESS |||
      EFI_VARIABLE_APPEND_WRITE) &&& EFI_VARIABLE_APPEND_WRITE ≠ 0 := by decide
  unfold SetVariable at h ⊢
  simp only [] at h ⊢
  by_cases hl : w.locked name = true
  · rw [if_pos hl] at h
    cases h
  · rw [if_neg hl, if_pos hbit]
    cases hv : w.vars name with
    | none =>
      simp only [if_neg hd, World.setVar, World.log]
      refine ⟨by simp; decide, ?_⟩
      intro n hn
      simp [hn, hv]
    | some v =>
      simp only [World.setVar, World.log]
      refine ⟨by simp, ?_⟩
      intro n hn
      simp [hn]

/-- Apart from the malformed-record path, a successful `store_keys` on a
non-empty `MokNew` has issued exactly one runtime call, the append write of
the `MokNew` bytes, and `MokList` is its former contents followed by them. -/
theorem store_keys_appends (E : Ext) (MokNew : Option (List Byte)) (MokNewSize : Nat)
    (authenticate : Bool) (w w' : World) (hsize : MokNewSize ≠ 0)
    (hauth : authenticate = true → ∃ a, w.vars VarName.MokAuth = some a ∧
      (a.data.length = SHA256_DIGEST_SIZE ∨ a.data.length = E.PASSWORD_CRYPT_SIZE))
    (h : store_keys E MokNew MokNewSize authenticate w = Res.ok (EFI_SUCCESS, w')) :
    ∃ bytes, MokNew = some bytes ∧ MokNewSize ≤ bytes.length ∧
      w'.trace = w.trace ++ [Event.SetVariable VarName.MokList
        (EFI_VARIABLE_NON_VOLATILE ||| EFI_VARIABLE_BOOTSERVICE_ACCESS
          ||| EFI_VARIABLE_APPEND_WRITE) (bytes.take MokNewSize)] ∧
      w'.vars VarName.MokList =
        some (match w.vars VarName.MokList with
          | none => { attributes :=
                        EFI_VARIABLE_NON_VOLATILE ||| EFI_VARIABLE_BOOTSERVICE_ACCESS,
                      data := bytes.take MokNewSize }
          | some v => { attributes := v.attributes,
                        data := v.data ++ bytes.take MokNewSize }) ∧
      ∀ n, n ≠ VarName.MokList → w'.vars n = w.vars n := by
  have hwrite : ∀ w0 : World, store_keys_write MokNew MokNewSize w0 = Res.ok (EFI_SUCCESS, w') →
      ∃ bytes, MokNew = some bytes ∧ MokNewSize ≤ bytes.length ∧
        w'.trace = w0.trace ++ [Event.SetVariable VarName.MokList
          (EFI_VARIABLE_NON_VOLATILE ||| EFI_VARIABLE_BOOTSERVICE_ACCESS
            ||| EFI_VARIABLE_APPEND_WRITE) (bytes.take MokNewSize)] ∧
        w'.vars VarName.MokList =
          some (match w0.vars VarName.MokList with
            | none => { attributes :=
                          EFI_VARIABLE_NON_VOLATILE ||| EFI_VARIABLE_BOOTSERVICE_ACCESS,
                        data := bytes.take MokNewSize }
            | some v => { attributes := v.attributes,
                          data := v.data ++ bytes.take MokNewSize }) ∧
        ∀ n, n ≠ VarName.MokList → w'.vars n = w0.vars n := by
    intro w0 hw
    unfold store_keys_write at hw
    rw [if_neg hsize] at hw
    cases hM : MokNew with
    | none => rw [hM] at hw; cases hw
    | some bytes =>
      rw [hM] at hw
      simp only [] at hw
      cases hr : rdBytes bytes 0 MokNewSize with
      | none => rw [hr] at hw; cases hw
      | some data =>
        rw [hr] at hw
        simp only [] at hw
        have hdl := rdBytes_length hr
        have hdata : data = bytes.take MokNewSize ∧ MokNewSize ≤ bytes.length := by
          have e := rdBytes_eq_take hr
          have hi := rdBytes_inside hr hsize
          exact ⟨by simpa using e, by omega⟩
        have hdne : data ≠ [] := by
          intro hh
          rw [hh] at hdl
          exact hsize hdl.symm
        split at hw
        · rename_i hne'
          simp only [Res.ok.injEq, Prod.mk.injEq] at hw
          exact absurd hw.1 hne'
        · rename_i heq
          simp only [Res.ok.injEq, Prod.mk.injEq] at hw
          have hst := not_not.mp heq
          have hset := SetVariable_append VarName.MokList data w0 hdne hst
          refine ⟨bytes, rfl, hdata.2, ?_, ?_, ?_⟩
          · rw [← hw.2, SetVariable_trace, hdata.1]
          · rw [← hw.2, hset.1, hdata.1]
          · intro n hn
            rw [← hw.2, hset.2 n hn]
  cases authenticate with
  | false =>
    unfold store_keys at h
    simp only [Bool.false_eq_true, if_false] at h
    exact hwrite w h
  | true =>
    obtain ⟨a, ha, hs⟩ := hauth rfl
    have hle : a.data.length ≤ E.PASSWORD_CRYPT_SIZE := by
      rcases hs with h | h
      · rw [h]; exact E.legacy_fits
      · omega
    have hcond : ¬ (EFI_SUCCESS ≠ EFI_SUCCESS ∨
        (a.data.length ≠ SHA256_DIGEST_SIZE ∧ a.data.length ≠ E.PASSWORD_CRYPT_SIZE)) := by
      rintro (h | ⟨h1, h2⟩)
      · exact h rfl
      · rcases hs with h | h
        · exact h1 h
        · exact h2 h
    unfold store_keys at h
    simp only [GetVariable, ha, hle, if_true] at h
    rw [if_neg hcond] at h
    generalize hmp : (if a.data.length = E.PASSWORD_CRYPT_SIZE then
        match_password E (some a.data) none 0 none w
      else match_password E none MokNew MokNewSize (some a.data) w) = r at h
    cases r with
    | fault => cases h
    | timeout => cases h
    | blocked => cases h
    | ok p =>
      obtain ⟨st, w1⟩ := p
      simp only [] at h
      have hfr : ∃ ks, w1 = { w with keys := ks } := by
        split at hmp
        · exact match_password_frame _ _ _ _ _ _ _ _ hmp
        · exact match_password_frame _ _ _ _ _ _ _ _ hmp
      obtain ⟨ks, rfl⟩ := hfr
      by_cases hst : st ≠ EFI_SUCCESS
      · rw [if_pos hst] at h
        cases h
      · rw [if_neg hst] at h
        exact hwrite { w with keys := ks } h

/-! ## The tamper branch of `delete_keys` -/

theorem get_variable_attributes (w : World) (name : VarName) (v : Variable)
    (hL : w.vars name = some v) :
    (get_variable w name).attributes = some v.attributes := by
  by_cases hne : v.data = []
  · unfold get_variable
    simp [GetVariable, hL, hne]
  · rw [get_variable_present w name v hL hne]

theorem get_variable_absent (w : World) (name : VarName) (hL : w.vars name = none) :
    get_variable w name = GetVariableResult.mk EFI_NOT_FOUND none 0 none := by
  unfold get_variable
  simp [GetVariable, hL]

theorem delete_keys_authenticated (E : Ext) (fuel : Nat) (MokDel : Option (List Byte))
    (MokDelSize : Nat) (w w1 : World) (a : Variable)
    (ha : w.vars VarName.MokDelAuth = some a)
    (hs : a.data.length = SHA256_DIGEST_SIZE ∨ a.data.length = E.PASSWORD_CRYPT_SIZE)
    (hmp : match_password E (auth_call E a.data MokDel MokDelSize).1
      (auth_call E a.data MokDel MokDelSize).2.1 (auth_call E a.data MokDel MokDelSize).2.2.1
      (auth_call E a.data MokDel MokDelSize).2.2.2 w = Res.ok (EFI_SUCCESS, w1)) :
    delete_keys E fuel MokDel MokDelSize w =
      delete_keys_commit fuel MokDel MokDelSize a.attributes w1 := by
  have hle : a.data.length ≤ E.PASSWORD_CRYPT_SIZE := by
    rcases hs with h | h
    · rw [h]; exact E.legacy_fits
    · omega
  have hcond : ¬ (EFI_SUCCESS ≠ EFI_SUCCESS ∨
      (a.data.length ≠ SHA256_DIGEST_SIZE ∧ a.data.length ≠ E.PASSWORD_CRYPT_SIZE)) := by
    rintro (h | ⟨h1, h2⟩)
    · exact h rfl
    · rcases hs with h | h
      · exact h1 h
      · exact h2 h
  unfold delete_keys
  simp only [GetVariable, ha, hle, if_true]
  rw [if_neg hcond]
  by_cases hp : a.data.length = E.PASSWORD_CRYPT_SIZE
  · simp only [auth_call, hp, if_true] at hmp
    simp only [hp, if_true, hmp]
    rfl
  · simp only [auth_call, hp, if_false] at hmp
    simp only [hp, if_false, hmp]
    rfl

/-- The machine the tamper branch leaves: the alert, the deletion of
`MokList`, and the error box when the firmware refuses the deletion. -/
theorem delete_keys_commit_alert (fuel : Nat) (MokDel : Option (List Byte))
    (MokDelSize attributes : Nat) (w : World)
    (hrt : ((get_variable w VarName.MokList).attributes.getD attributes) &&&
      EFI_VARIABLE_RUNTIME_ACCESS ≠ 0) :
    ∃ w', delete_keys_commit fuel MokDel MokDelSize attributes w
        = Res.ok (EFI_ACCESS_DENIED, w') ∧
      w'.locked = w.locked ∧ w'.keys = w.keys ∧ w'.selects = w.selects ∧
      ((w.vars VarName.MokList = none ∨ w.locked VarName.MokList = false) →
        w'.vars VarName.MokList = none) ∧
      (∀ n, n ≠ VarName.MokList → w'.vars n = w.vars n) ∧
      ∃ texts : List String, w'.trace = w.trace ++
        [Event.Console "MokList is compromised! Erase all keys in MokList!",
         Event.DeleteVariable VarName.MokList] ++ texts.map Event.Console := by
  unfold delete_keys_commit
  simp only []
  rw [if_pos hrt]
  cases hv : w.vars VarName.MokList with
  | none =>
    simp only [LibDeleteVariable, console, World.log, hv, ne_eq, not_false_eq_true, if_true,
      reduceCtorEq]
    refine ⟨_, rfl, rfl, rfl, rfl, fun _ => hv, fun _ _ => rfl, ["Failed to erase MokList"], ?_⟩
    simp
  | some v =>
    by_cases hl : w.locked VarName.MokList = true
    · simp only [LibDeleteVariable, console, World.log, hv, hl, ne_eq, not_false_eq_true,
        if_true, reduceCtorEq]
      refine ⟨_, rfl, rfl, rfl, rfl, ?_, fun _ _ => rfl, ["Failed to erase MokList"], ?_⟩
      · rintro (h | h)
        · cases h
        · cases h
      · simp
    · simp only [LibDeleteVariable, console, World.log, hv, hl, ne_eq, not_true_eq_false,
        if_false, World.setVar, Bool.false_eq_true]
      refine ⟨_, rfl, rfl, rfl, rfl, fun _ => by simp, fun n hn => by simp [hn], [], ?_⟩
      simp

/-- C11: when `MokList` is present with the runtime-access attribute and
the operator has authenticated against `MokDelAuth`, `delete_keys` returns
`EFI_ACCESS_DENIED`; its one call of the variable runtime is the deletion of
`MokList` (absent afterwards unless the firmware refuses), every other
variable is as it was, `MokList` is not rewritten, and `mok_deletion_prompt`
then only reports the failure and returns `-1`, so `MokDel` and `MokDelAuth`
stay as they were. -/
theorem delete_keys_tamper_handling (E : Ext) (fuel : Nat) (MokDel : Option (List Byte))
    (MokDelSize : Nat) (w w1 : World) (a v : Variable)
    (ha : w.vars VarName.MokDelAuth = some a)
    (hs : a.data.length = SHA256_DIGEST_SIZE ∨ a.data.length = E.PASSWORD_CRYPT_SIZE)
    (hmp : match_password E (auth_call E a.data MokDel MokDelSize).1
      (auth_call E a.data MokDel MokDelSize).2.1 (auth_call E a.data MokDel MokDelSize).2.2.1
      (auth_call E a.data MokDel MokDelSize).2.2.2 w = Res.ok (EFI_SUCCESS, w1))
    (hL : w.vars VarName.MokList = some v)
    (hrt : v.attributes &&& EFI_VARIABLE_RUNTIME_ACCESS ≠ 0) :
    ∃ w', delete_keys E fuel MokDel MokDelSize w = Res.ok (EFI_ACCESS_DENIED, w') ∧
      (w.locked VarName.MokList = false → w'.vars VarName.MokList = none) ∧
      (∀ n, n ≠ VarName.MokList → w'.vars n = w.vars n) ∧
      (∃ texts : List String, w'.trace = w.trace ++
        [Event.Console "MokList is compromised! Erase all keys in MokList!",
         Event.DeleteVariable VarName.MokList] ++ texts.map Event.Console) ∧
      (∀ w0 wl answer, list_keys fuel MokDel MokDelSize w0 = Res.ok (EFI_SUCCESS, wl) →
        console_select wl = some (answer, w) → answer ≠ 0 →
        mok_deletion_prompt E fuel MokDel MokDelSize w0 =
          Res.ok (-1, console "Failed to delete keys" w')) := by
  obtain ⟨ks, rfl⟩ := match_password_frame _ _ _ _ _ _ _ _ hmp
  have hL1 : ({ w with keys := ks } : World).vars VarName.MokList = some v := hL
  have hrt1 : ((get_variable { w with keys := ks } VarName.MokList).attributes.getD
      a.attributes) &&& EFI_VARIABLE_RUNTIME_ACCESS ≠ 0 := by
    rw [get_variable_attributes _ _ v hL1]
    exact hrt
  obtain ⟨w', hc, hlk, _, _, hgone, hrest, htr⟩ :=
    delete_keys_commit_alert fuel MokDel MokDelSize a.attributes { w with keys := ks } hrt1
  have hd : delete_keys E fuel MokDel MokDelSize w = Res.ok (EFI_ACCESS_DENIED, w') := by
    rw [delete_keys_authenticated E fuel MokDel MokDelSize w _ a ha hs hmp]
    exact hc
  refine ⟨w', hd, fun hl => hgone (Or.inr hl), hrest, htr, ?_⟩
  intro w0 wl answer hlist hsel hans
  unfold mok_deletion_prompt
  simp only [hlist, hsel, hd, ne_eq, not_true_eq_false, if_false, hans, reduceCtorEq,
    not_false_eq_true, if_true]

set_option maxRecDepth 100000 in
/-- Witness for C11: `MokList` holds `A`, `B` with attributes 7, the
operator types the right password. -/
theorem delete_keys_tamper_handling_witness :
    (tamperWorld.vars VarName.MokDelAuth = some { attributes := 3, data := sampleModernAuth } ∧
      match_password sampleExt (some sampleModernAuth) none 0 none tamperWorld
        = Res.ok (EFI_SUCCESS, { tamperWorld with keys := [] }) ∧
      tamperWorld.vars VarName.MokList
        = some { attributes := 7, data := encode [certA, certB] } ∧
      (7 : Nat) &&& EFI_VARIABLE_RUNTIME_ACCESS ≠ 0) ∧
    ∃ w', delete_keys sampleExt 4 (some (encode [certB])) (encode [certB]).length tamperWorld
        = Res.ok (EFI_ACCESS_DENIED, w') ∧
      w'.vars VarName.MokList = none ∧
      w'.vars VarName.MokDel = tamperWorld.vars VarName.MokDel ∧
      w'.vars VarName.MokDelAuth = tamperWorld.vars VarName.MokDelAuth ∧
      ∃ texts : List String, w'.trace = tamperWorld.trace ++
        [Event.Console "MokList is compromised! Erase all keys in MokList!",
         Event.DeleteVariable VarName.MokList] ++ texts.map Event.Console := by
  have hmp : match_password sampleExt (some sampleModernAuth) none 0 none tamperWorld
      = Res.ok (EFI_SUCCESS, { tamperWorld with keys := [] }) := rfl
  refine ⟨⟨rfl, hmp, rfl, by decide⟩, ?_⟩
  obtain ⟨w', hd, hgone, hrest, htr, _⟩ :=
    delete_keys_tamper_handling sampleExt 4 (some (encode [certB])) (encode [certB]).length
      tamperWorld { tamperWorld with keys := [] }
      { attributes := 3, data := sampleModernAuth }
      { attributes := 7, data := encode [certA, certB] } rfl (Or.inr (by decide)) hmp rfl
      (by decide)
  exact ⟨w', hd, hgone rfl, hrest _ (by decide), hrest _ (by decide), htr⟩

/-! ## `delete_keys` without a `MokList` -/

/-- With `MokList` absent, `get_variable` leaves `attributes` as the read of
`MokDelAuth` set it: the "nothing to do" path is taken exactly when that
value lacks the runtime-access bit. -/
theorem delete_keys_commit_no_list (fuel : Nat) (MokDel : Option (List Byte))
    (MokDelSize attributes : Nat) (w : World) (hL : w.vars VarName.MokList = none) :
    (attributes &&& EFI_VARIABLE_RUNTIME_ACCESS = 0 →
      delete_keys_commit fuel MokDel MokDelSize attributes w = Res.ok (EFI_SUCCESS, w)) ∧
    (attributes &&& EFI_VARIABLE_RUNTIME_ACCESS ≠ 0 →
      delete_keys_commit fuel MokDel MokDelSize attributes w = Res.ok (EFI_ACCESS_DENIED,
        console "Failed to erase MokList" ((console
          "MokList is compromised! Erase all keys in MokList!" w).log
            (Event.DeleteVariable VarName.MokList)))) := by
  constructor
  · intro h0
    unfold delete_keys_commit
    simp only [get_variable_absent w _ hL, Option.getD_none, h0, ne_eq, not_true_eq_false,
      if_false]
  · intro h1
    unfold delete_keys_commit
    simp only [get_variable_absent w _ hL, Option.getD_none]
    rw [if_pos h1]
    simp only [LibDeleteVariable, console, World.log, hL, ne_eq, not_false_eq_true, if_true,
      reduceCtorEq]

set_option maxRecDepth 100000 in
/-- C20 (the code at the failing input): `MokList` is absent, `MokDelAuth`
carries the runtime-access attribute and the operator types the right
password; `delete_keys` raises the tamper alert, calls the deletion of
`MokList` and returns `EFI_ACCESS_DENIED`. -/
theorem delete_keys_without_MokList_takes_tamper_branch :
    noMokListWorld.vars VarName.MokList = none ∧
    (match_password sampleExt (some sampleModernAuth) none 0 none noMokListWorld).map
      (fun r => r.1) = Res.ok EFI_SUCCESS ∧
    (delete_keys sampleExt 4 (some (encode [certB])) (encode [certB]).length
        noMokListWorld).map (fun r => (r.1, r.2.trace)) =
      Res.ok (EFI_ACCESS_DENIED,
        [Event.Console "MokList is compromised! Erase all keys in MokList!",
         Event.DeleteVariable VarName.MokList, Event.Console "Failed to erase MokList"]) := by
  refine ⟨rfl, by decide, by decide⟩

/-! ## The parser on corrupt input -/

/-- A header whose `list_size` is zero never lets the counting loop leave. -/
theorem count_loop_stuck (Data : List Byte) (dbsize p : Nat) (h0 : dbsize ≠ 0)
    (h16 : rd32 Data (p + 16) = some 0) :
    ∀ (fuel MokNum n : Nat), count_keys_loop Data fuel dbsize p MokNum ≠ Res.ok n := by
  intro fuel
  induction fuel with
  | zero => intro MokNum n h; simp [count_keys_loop] at h
  | succ f ih =>
    intro MokNum n h
    rw [count_keys_loop, if_neg h0] at h
    simp only [h16, Nat.not_lt_zero, if_false, Nat.sub_zero, Nat.add_zero] at h
    split at h
    · cases h
    · split at h
      · exact ih _ _ h
      · split at h
        · split at h
          · cases h
          · split at h
            · exact ih _ _ h
            · exact ih _ _ h
        · exact ih _ _ h

/-- On `zeroSizeStream` the counting loop uses up every budget. -/
theorem count_loop_zeroSizeStream :
    ∀ (fuel MokNum : Nat), count_keys_loop zeroSizeStream fuel 28 0 MokNum = Res.timeout := by
  intro fuel
  induction fuel with
  | zero => intro MokNum; rfl
  | succ f ih =>
    intro MokNum
    have h16 : rd32 zeroSizeStream (0 + 16) = some 0 := by decide
    have hg : rdGuid zeroSizeStream 0 = some EfiCertX509Guid := by decide
    rw [count_keys_loop, if_neg (by decide)]
    simp only [h16, hg, Nat.not_lt_zero, if_false, Nat.sub_zero, Nat.add_zero, ne_eq,
      not_true_eq_false, false_and]
    exact ih _

set_option maxRecDepth 100000 in
/-- C18 (the code at failing inputs): on a header whose `list_size` is 0
`count_keys` uses up every budget without returning and `build_mok_list`
never returns a list; after a complete list, three stray bytes make the next
loop test read `list_size` past the end of the input; and a stream that ends
inside its first header is counted as one entry. -/
theorem parser_is_not_total_on_corrupt_input :
    (∀ fuel, count_keys fuel zeroSizeStream zeroSizeStream.length = Res.timeout) ∧
    (∀ fuel num xs,
      build_mok_list fuel num zeroSizeStream zeroSizeStream.length ≠ Res.ok xs) ∧
    count_keys 4 strayTail strayTail.length = Res.fault ∧
    build_mok_list 4 1 strayTail strayTail.length = Res.fault ∧
    count_keys 4 truncatedHeader truncatedHeader.length = Res.ok 1 ∧
    build_mok_list 4 1 truncatedHeader truncatedHeader.length = Res.fault := by
  refine ⟨fun fuel => count_loop_zeroSizeStream fuel 0, fun fuel num xs => ?_,
    by decide, by decide, by decide, by decide⟩
  exact build_loop_stuck num zeroSizeStream 28 0 (by decide) (by decide) fuel [] xs

set_option maxRecDepth 100000 in
/-- C19 (the code at failing inputs): for a `sig_size` of 3 the entry's
`MokSize` is `3 - 16` wrapped to 32 bits and its data starts at offset 44 of
a 28-byte input; for a header size of 4096 the entry's 240 bytes start at
offset 4140 of a 28-byte input; and on a stream that ends inside its header
`build_mok_list` reads the `sig_size` field past the end. -/
theorem build_mok_list_entries_leave_the_buffer :
    shortSigStream.length = 28 ∧
    build_mok_list 4 1 shortSigStream 28 =
      Res.ok [{ MokSize := 4294967283, Mok := some 44, Type_ := EfiCertX509Guid }] ∧
    farHeaderStream.length = 28 ∧
    build_mok_list 4 1 farHeaderStream 28 =
      Res.ok [{ MokSize := 240, Mok := some 4140, Type_ := EfiCertX509Guid }] ∧
    truncatedHeader.length = 20 ∧ rd32 truncatedHeader 24 = none ∧
    build_mok_list 4 1 truncatedHeader 20 = Res.fault := by
  refine ⟨by decide, by decide, by decide, by decide, by decide, by decide, by decide⟩

/-! ## The menu -/

/-- The array `menu_item` item by item, in terms of the four pointers and the
two flags. -/
theorem menu_items_mem :
    ∀ MokNew MokDel MokSB MokPW MokAuth MokDelAuth : Bool,
      MOK_CONTINUE_BOOT ∈ menu_items MokNew MokDel MokSB MokPW MokAuth MokDelAuth ∧
      MOK_KEY_ENROLL ∈ menu_items MokNew MokDel MokSB MokPW MokAuth MokDelAuth ∧
      MOK_HASH_ENROLL ∈ menu_items MokNew MokDel MokSB MokPW MokAuth MokDelAuth ∧
      (MOK_ENROLL_MOK ∈ menu_items MokNew MokDel MokSB MokPW MokAuth MokDelAuth ↔
        MokNew = true) ∧
      (MOK_RESET_MOK ∈ menu_items MokNew MokDel MokSB MokPW MokAuth MokDelAuth ↔
        (MokAuth = true ∧ MokNew = false)) ∧
      (MOK_DELETE_MOK ∈ menu_items MokNew MokDel MokSB MokPW MokAuth MokDelAuth ↔
        (MokDel = true ∨ MokDelAuth = true)) ∧
      (MOK_CHANGE_SB ∈ menu_items MokNew MokDel MokSB MokPW MokAuth MokDelAuth ↔
        MokSB = true) ∧
      (MOK_SET_PW ∈ menu_items MokNew MokDel MokSB MokPW MokAuth MokDelAuth ↔
        MokPW = true) := by
  decide

/-- The flag `MokAuth` is set exactly when `MokAuth` is present with a legal
record size. -/
theorem auth_flags_MokAuth (E : Ext) (w : World) :
    (auth_flags E w).1 = true ↔
      ∃ v, w.vars VarName.MokAuth = some v ∧
        (v.data.length = SHA256_DIGEST_SIZE ∨ v.data.length = E.PASSWORD_CRYPT_SIZE) := by
  unfold auth_flags
  simp only [decide_eq_true_eq, GetVariable]
  cases hv : w.vars VarName.MokAuth with
  | none => simp
  | some v =>
    by_cases hle : v.data.length ≤ E.PASSWORD_CRYPT_SIZE
    · simp [hle]
    · have h32 : v.data.length ≠ SHA256_DIGEST_SIZE := by
        have := E.legacy_fits
        omega
      have hp : v.data.length ≠ E.PASSWORD_CRYPT_SIZE := by omega
      simp [hle, h32, hp]

/-- When the read of `MokAuth` leaves `auth_size` at `PASSWORD_CRYPT_SIZE` (the
variable is absent, or holds a modern record), the flag `MokDelAuth` is set
exactly when `MokDelAuth` is present with a legal record size. -/
theorem auth_flags_MokDelAuth (E : Ext) (w : World)
    (h : w.vars VarName.MokAuth = none ∨
      ∃ v, w.vars VarName.MokAuth = some v ∧ v.data.length = E.PASSWORD_CRYPT_SIZE) :
    (auth_flags E w).2 = true ↔
      ∃ v, w.vars VarName.MokDelAuth = some v ∧
        (v.data.length = SHA256_DIGEST_SIZE ∨ v.data.length = E.PASSWORD_CRYPT_SIZE) := by
  have hsz : (GetVariable w VarName.MokAuth E.PASSWORD_CRYPT_SIZE).size
      = E.PASSWORD_CRYPT_SIZE := by
    rcases h with h | ⟨v, hv, hl⟩
    · simp [GetVariable, h]
    · simp [GetVariable, hv, hl]
  unfold auth_flags
  simp only [decide_eq_true_eq, hsz]
  simp only [GetVariable]
  cases hv : w.vars VarName.MokDelAuth with
  | none => simp
  | some v =>
    by_cases hle : v.data.length ≤ E.PASSWORD_CRYPT_SIZE
    · simp [hle]
    · have h32 : v.data.length ≠ SHA256_DIGEST_SIZE := by
        have := E.legacy_fits
        omega
      have hp : v.data.length ≠ E.PASSWORD_CRYPT_SIZE := by omega
      simp [hle, h32, hp]

set_option maxRecDepth 100000 in
/-- C13 (the code at the failing input): `MokAuth` holds a legacy record of
32 bytes and `MokDelAuth` a modern record of 172 bytes, `MokDel` is absent.
The read of `MokAuth` leaves 32 in `auth_size`, the read of `MokDelAuth` into
a buffer of that size fails, the flag stays 0 and the menu has no "Delete
MOK". -/
theorem menu_omits_delete_after_legacy_MokAuth :
    staleSizeWorld.vars VarName.MokAuth = some { attributes := 7, data := sampleLegacyAuth } ∧
    sampleLegacyAuth.length = SHA256_DIGEST_SIZE ∧
    staleSizeWorld.vars VarName.MokDelAuth
      = some { attributes := 7, data := sampleModernAuth } ∧
    sampleModernAuth.length = sampleExt.PASSWORD_CRYPT_SIZE ∧
    (GetVariable staleSizeWorld VarName.MokDelAuth
      (GetVariable staleSizeWorld VarName.MokAuth sampleExt.PASSWORD_CRYPT_SIZE).size).status
        = EFI_BUFFER_TOO_SMALL ∧
    auth_flags sampleExt staleSizeWorld = (true, false) ∧
    (menu_items false false false false (auth_flags sampleExt staleSizeWorld).1
        (auth_flags sampleExt staleSizeWorld).2).map menu_string =
      ["Continue boot", "Reset MOK", "Enroll key from disk", "Enroll hash from disk"] ∧
    (enter_mok_menu sampleExt 4 4 none 0 none 0 none 0 none 0 staleSizeWorld).map
      (fun r => (r.1, r.2.trace)) = Res.ok (EFI_SUCCESS, []) := by
  refine ⟨rfl, by decide, rfl, by decide, by decide, by decide, by decide, by decide⟩

/-! ## The password gate -/

/-- Outside the three conditions the gate passes and the machine is untouched. -/
theorem verify_pw_open (E : Ext) (w : World)
    (h : ∀ v, w.vars VarName.MokPWStore = some v →
      (v.data.length ≠ SHA256_DIGEST_SIZE ∧ v.data.length ≠ E.PASSWORD_CRYPT_SIZE) ∨
      v.attributes &&& EFI_VARIABLE_RUNTIME_ACCESS ≠ 0) :
    verify_pw E w = Res.ok (true, w) := by
  unfold verify_pw
  simp only [GetVariable]
  cases hv : w.vars VarName.MokPWStore with
  | none => simp
  | some v =>
    by_cases hle : v.data.length ≤ E.PASSWORD_CRYPT_SIZE
    · simp only [hle, if_true]
      rcases h v hv with ⟨h1, h2⟩ | h3
      · rw [if_pos (Or.inr ⟨h1, h2⟩)]
      · by_cases hc : EFI_SUCCESS ≠ EFI_SUCCESS ∨
            (v.data.length ≠ SHA256_DIGEST_SIZE ∧ v.data.length ≠ E.PASSWORD_CRYPT_SIZE)
        · rw [if_pos hc]
        · rw [if_neg hc]
          simp only [Option.getD_some]
          rw [if_pos h3]
    · simp [hle]

/-- Under the three conditions the gate is `match_password` on the stored
record: it passes on `EFI_SUCCESS` and fails, with the message, otherwise. -/
theorem verify_pw_demand (E : Ext) (w : World) (v : Variable)
    (hv : w.vars VarName.MokPWStore = some v)
    (hs : v.data.length = SHA256_DIGEST_SIZE ∨ v.data.length = E.PASSWORD_CRYPT_SIZE)
    (hrt : v.attributes &&& EFI_VARIABLE_RUNTIME_ACCESS = 0) :
    verify_pw E w =
      match match_password E (auth_call E v.data none 0).1 (auth_call E v.data none 0).2.1
          (auth_call E v.data none 0).2.2.1 (auth_call E v.data none 0).2.2.2 w with
      | Res.ok (efi_status, w1) =>
        if efi_status ≠ EFI_SUCCESS then Res.ok (false, console "Password limit reached" w1)
        else Res.ok (true, w1)
      | Res.fault => Res.fault
      | Res.timeout => Res.timeout
      | Res.blocked => Res.blocked := by
  have hle : v.data.length ≤ E.PASSWORD_CRYPT_SIZE := by
    rcases hs with h | h
    · rw [h]; exact E.legacy_fits
    · omega
  have hcond : ¬ (EFI_SUCCESS ≠ EFI_SUCCESS ∨
      (v.data.length ≠ SHA256_DIGEST_SIZE ∧ v.data.length ≠ E.PASSWORD_CRYPT_SIZE)) := by
    rintro (h | ⟨h1, h2⟩)
    · exact h rfl
    · rcases hs with h | h
      · exact h1 h
      · exact h2 h
  unfold verify_pw
  simp only [GetVariable, hv, hle, if_true]
  rw [if_neg hcond]
  simp only [Option.getD_some, hrt, ne_eq, not_true_eq_false, if_false]
  by_cases hp : v.data.length = E.PASSWORD_CRYPT_SIZE
  · simp only [auth_call, hp, if_true]
  · simp only [auth_call, hp, if_false]

/-- A failed gate ends `enter_mok_menu` at once. -/
theorem enter_mok_menu_gate_failed (E : Ext) (fuel rounds : Nat)
    (MokNew : Option (List Byte)) (MokNewSize : Nat) (MokDel : Option (List Byte))
    (MokDelSize : Nat) (MokSB : Option (List Byte)) (MokSBSize : Nat)
    (MokPW : Option (List Byte)) (MokPWSize : Nat) (w w1 : World)
    (h : verify_pw E w = Res.ok (false, w1)) :
    enter_mok_menu E fuel rounds MokNew MokNewSize MokDel MokDelSize MokSB MokSBSize MokPW
      MokPWSize w = Res.ok (EFI_ACCESS_DENIED, w1) := by
  unfold enter_mok_menu
  simp only [h, if_true]

theorem three_failures_frame {E : Ext} {record : List Byte} {staged : Option (List Byte)}
    {size : Nat} {w w3 : World} (h : three_failures E record staged size w w3) :
    ∃ ks, w3 = { w with keys := ks } := by
  obtain ⟨l1, w1, l2, w2, l3, g1, g2, g3, _⟩ := h
  obtain ⟨k1, rfl⟩ := get_line_frame g1
  obtain ⟨k2, rfl⟩ := get_line_frame g2
  obtain ⟨k3, rfl⟩ := get_line_frame g3
  exact ⟨k3, rfl⟩

theorem match_password_denied (E : Ext) (record : List Byte) (staged : Option (List Byte))
    (size : Nat) (w w3 : World)
    (hv : valid_record E (auth_call E record staged size).1
      (auth_call E record staged size).2.2.2)
    (h3 : three_failures E record staged size w w3) :
    match_password E (auth_call E record staged size).1 (auth_call E record staged size).2.1
      (auth_call E record staged size).2.2.1 (auth_call E record staged size).2.2.2 w
        = Res.ok (EFI_ACCESS_DENIED, w3) := by
  obtain ⟨l1, w1, l2, w2, l3, g1, g2, g3, hf⟩ := h3
  rw [match_password_eq_retry _ _ _ _ _ _ hv]
  exact retry_policy_denied _ w w1 w2 w3 l1 l2 l3 g1 g2 g3
    (hf l1 (by simp)) (hf l2 (by simp)) (hf l3 (by simp))

theorem match_password_unusable (E : Ext) (pw_crypt Data auth : Option (List Byte))
    (DataSize : Nat) (w : World) (hv : ¬ valid_record E pw_crypt auth) :
    match_password E pw_crypt Data DataSize auth w = Res.ok (EFI_INVALID_PARAMETER, w) := by
  unfold match_password
  cases pw_crypt with
  | some record =>
    simp only [valid_record, ne_eq, not_not] at hv
    simp only [hv, if_true]
  | none =>
    cases auth with
    | none => rfl
    | some a => simp [valid_record] at hv

/-- C12: `verify_pw` runs the password check exactly when `MokPWStore` is
present with the legacy or the modern record size and without the
runtime-access attribute.  Outside these conditions the gate passes with the
machine untouched (no prompt).  Under them the gate's outcome is that of
`match_password` on the stored record (for a usable record it waits for a
line); and when the three attempts all fail, `enter_mok_menu` returns
`EFI_ACCESS_DENIED` having touched no variable, read no menu choice and opened
no file browser.  (For a modern record whose method is unknown
`match_password` fails without reading a line, and the gate fails too.) -/
theorem password_gate (E : Ext) (fuel rounds : Nat)
    (MokNew : Option (List Byte)) (MokNewSize : Nat) (MokDel : Option (List Byte))
    (MokDelSize : Nat) (MokSB : Option (List Byte)) (MokSBSize : Nat)
    (MokPW : Option (List Byte)) (MokPWSize : Nat) (w : World) :
    ((∀ v, w.vars VarName.MokPWStore = some v →
        (v.data.length ≠ SHA256_DIGEST_SIZE ∧ v.data.length ≠ E.PASSWORD_CRYPT_SIZE) ∨
        v.attributes &&& EFI_VARIABLE_RUNTIME_ACCESS ≠ 0) →
      verify_pw E w = Res.ok (true, w)) ∧
    (∀ v, w.vars VarName.MokPWStore = some v →
      (v.data.length = SHA256_DIGEST_SIZE ∨ v.data.length = E.PASSWORD_CRYPT_SIZE) →
      v.attributes &&& EFI_VARIABLE_RUNTIME_ACCESS = 0 →
      (verify_pw E w =
        match match_password E (auth_call E v.data none 0).1 (auth_call E v.data none 0).2.1
            (auth_call E v.data none 0).2.2.1 (auth_call E v.data none 0).2.2.2 w with
        | Res.ok (efi_status, w1) =>
          if efi_status ≠ EFI_SUCCESS then
            Res.ok (false, console "Password limit reached" w1)
          else Res.ok (true, w1)
        | Res.fault => Res.fault
        | Res.timeout => Res.timeout
        | Res.blocked => Res.blocked) ∧
      (∀ w3, three_failures E v.data none 0 w w3 →
        ∃ w', enter_mok_menu E fuel rounds MokNew MokNewSize MokDel MokDelSize MokSB
            MokSBSize MokPW MokPWSize w = Res.ok (EFI_ACCESS_DENIED, w') ∧
          quiet w w' ∧ w'.selects = w.selects ∧ w'.files = w.files) ∧
      (valid_record E (auth_call E v.data none 0).1 (auth_call E v.data none 0).2.2.2 →
        get_line PASSWORD_MAX w = none → verify_pw E w = Res.blocked)) := by
  refine ⟨verify_pw_open E w, ?_⟩
  intro v hv hs hrt
  have hd := verify_pw_demand E w v hv hs hrt
  refine ⟨hd, ?_, ?_⟩
  · intro w3 h3
    by_cases hval : valid_record E (auth_call E v.data none 0).1
        (auth_call E v.data none 0).2.2.2
    · have hmp := match_password_denied E v.data none 0 w w3 hval h3
      have hvp : verify_pw E w = Res.ok (false, console "Password limit reached" w3) := by
        rw [hd, hmp]
        simp
      refine ⟨_, enter_mok_menu_gate_failed E fuel rounds _ _ _ _ _ _ _ _ w _ hvp,
        quiet_trans (three_failures_quiet h3) (quiet_console _ _), ?_, ?_⟩
      · obtain ⟨ks, rfl⟩ := three_failures_frame h3
        rfl
      · obtain ⟨ks, rfl⟩ := three_failures_frame h3
        rfl
    · have hmp := match_password_unusable E (auth_call E v.data none 0).1
        (auth_call E v.data none 0).2.1 (auth_call E v.data none 0).2.2.2
        (auth_call E v.data none 0).2.2.1 w hval
      have hvp : verify_pw E w = Res.ok (false, console "Password limit reached" w) := by
        rw [hd, hmp]
        simp
      exact ⟨_, enter_mok_menu_gate_failed E fuel rounds _ _ _ _ _ _ _ _ w _ hvp,
        quiet_console _ _, rfl, rfl⟩
  · intro hval hg
    rw [hd, match_password_eq_retry _ _ _ _ _ _ hval]
    simp only [retry_policy, hg]

set_option maxRecDepth 100000 in
/-- Witness for C12: `MokPWStore` holds the modern record for "pw" and the
operator types three wrong passwords. -/
theorem password_gate_witness :
    (gateWorld.vars VarName.MokPWStore = some { attributes := 3, data := sampleModernAuth } ∧
      sampleModernAuth.length = sampleExt.PASSWORD_CRYPT_SIZE ∧
      (3 : Nat) &&& EFI_VARIABLE_RUNTIME_ACCESS = 0 ∧
      three_failures sampleExt sampleModernAuth none 0 gateWorld
        { gateWorld with keys := [] }) ∧
    ∃ w', enter_mok_menu sampleExt 4 4 (some sampleMokNew) sampleMokNew.length none 0 none 0
        none 0 gateWorld = Res.ok (EFI_ACCESS_DENIED, w') ∧
      quiet gateWorld w' ∧ w'.selects = gateWorld.selects ∧ w'.files = gateWorld.files := by
  have h3 : three_failures sampleExt sampleModernAuth none 0 gateWorld
      { gateWorld with keys := [] } :=
    ⟨[0x78], { gateWorld with keys := [0xD, 0x79, 0x7A, 0xD] },
      [], { gateWorld with keys := [0x79, 0x7A, 0xD] },
      [0x79, 0x7A], rfl, rfl, rfl, by decide⟩
  exact ⟨⟨rfl, by decide, by decide, h3⟩,
    ((password_gate sampleExt 4 4 (some sampleMokNew) sampleMokNew.length none 0 none 0
      none 0 gateWorld).2 { attributes := 3, data := sampleModernAuth } rfl
      (Or.inr (by decide)) (by decide)).2.1 _ h3⟩

/-! ## The Secure Boot prompt -/

theorem sample_pos2_spec (PWLen pos1 : Nat) (h0 : PWLen ≠ 0) :
    ∀ (random rest : List Nat) (pos2 : Nat),
      sample_pos2 PWLen pos1 random = Res.ok (pos2, rest) → pos2 < PWLen ∧ pos2 ≠ pos1 := by
  intro random
  induction random with
  | nil => intro rest pos2 h; simp [sample_pos2] at h
  | cons r rs ih =>
    intro rest pos2 h
    rw [sample_pos2] at h
    split at h
    · exact ih _ _ h
    · rename_i hne
      simp only [Res.ok.injEq, Prod.mk.injEq] at h
      rw [← h.1]
      exact ⟨Nat.mod_lt _ (Nat.pos_of_ne_zero h0), hne⟩

theorem sample_pos3_spec (PWLen pos1 pos2 : Nat) (h0 : PWLen ≠ 0) :
    ∀ (random rest : List Nat) (pos3 : Nat),
      sample_pos3 PWLen pos1 pos2 random = Res.ok (pos3, rest) →
      pos3 < PWLen ∧ pos3 ≠ pos2 ∧ pos3 ≠ pos1 := by
  intro random
  induction random with
  | nil => intro rest pos3 h; simp [sample_pos3] at h
  | cons r rs ih =>
    intro rest pos3 h
    rw [sample_pos3] at h
    split at h
    · exact ih _ _ h
    · rename_i hne
      simp only [Res.ok.injEq, Prod.mk.injEq] at h
      rw [← h.1]
      exact ⟨Nat.mod_lt _ (Nat.pos_of_ne_zero h0), fun e => hne (Or.inl e),
        fun e => hne (Or.inr e)⟩

/-- Positions that the sampling returns are pairwise distinct and below `PWLen`. -/
theorem sample_positions_spec (PWLen : Nat) (random rest : List Nat) (p1 p2 p3 : Nat)
    (h : sample_positions PWLen random = Res.ok ((p1, p2, p3), rest)) :
    PWLen ≠ 0 ∧ p1 < PWLen ∧ p2 < PWLen ∧ p3 < PWLen ∧ p2 ≠ p1 ∧ p3 ≠ p2 ∧ p3 ≠ p1 := by
  unfold sample_positions at h
  cases random with
  | nil => cases h
  | cons r rs =>
    simp only [] at h
    by_cases h0 : PWLen = 0
    · rw [if_pos h0] at h; cases h
    · rw [if_neg h0] at h
      cases h2 : sample_pos2 PWLen (r % 256 % PWLen) rs with
      | fault => rw [h2] at h; cases h
      | timeout => rw [h2] at h; cases h
      | blocked => rw [h2] at h; cases h
      | ok q2 =>
        obtain ⟨q, rs2⟩ := q2
        rw [h2] at h
        simp only [] at h
        cases h3 : sample_pos3 PWLen (r % 256 % PWLen) q rs2 with
        | fault => rw [h3] at h; cases h
        | timeout => rw [h3] at h; cases h
        | blocked => rw [h3] at h; cases h
        | ok q3 =>
          obtain ⟨q', rs3⟩ := q3
          rw [h3] at h
          simp only [Res.ok.injEq, Prod.mk.injEq] at h
          obtain ⟨⟨e1, e2, e3⟩, _⟩ := h
          subst e1 e2 e3
          have s2 := sample_pos2_spec PWLen _ h0 _ _ _ h2
          have s3 := sample_pos3_spec PWLen _ _ h0 _ _ _ h3
          exact ⟨h0, Nat.mod_lt _ (Nat.pos_of_ne_zero h0), s2.1, s3.1, s2.2, s3.2.1, s3.2.2⟩

/-- With a `PWLen` of 1 the loop for `pos2` never finds a second position. -/
theorem sample_pos2_one : ∀ random : List Nat, sample_pos2 1 0 random = Res.timeout := by
  intro random
  induction random with
  | nil => rfl
  | cons r rs ih =>
    rw [sample_pos2, if_pos (by omega)]
    exact ih

/-- With a `PWLen` of 2 the loop for `pos3` never finds a third position. -/
theorem sample_pos3_two (pos1 pos2 : Nat) (h1 : pos1 < 2) (h2 : pos2 < 2) (hne : pos2 ≠ pos1) :
    ∀ random : List Nat, sample_pos3 2 pos1 pos2 random = Res.timeout := by
  intro random
  induction random with
  | nil => rfl
  | cons r rs ih =>
    rw [sample_pos3, if_pos (by omega)]
    exact ih

/-- While the random bytes repeat, the loop for `pos2` keeps running. -/
theorem sample_pos2_repeat (PWLen r : Nat) :
    ∀ n : Nat, sample_pos2 PWLen (r % 256 % PWLen) (List.replicate n r) = Res.timeout := by
  intro n
  induction n with
  | zero => rfl
  | succ k ih =>
    rw [List.replicate_succ, sample_pos2, if_pos rfl]
    exact ih

theorem get_pass_frame {pass p : Nat} {w w1 : World}
    (h : get_pass pass w = some (p, w1)) : ∃ ks, w1 = { w with keys := ks } := by
  unfold get_pass at h
  split at h
  · cases h
  · cases h
    exact ⟨_, rfl⟩

/-- The challenge consumes keystrokes and random bytes and nothing else. -/
theorem mok_sb_challenge_frame (MokSB : List Byte) :
    ∀ (fuel fail_count : Nat) (pass : Nat × Nat × Nat)
      (w w' : World) (n : Nat),
      mok_sb_challenge MokSB fuel fail_count pass w = Res.ok (n, w') →
      ∃ ks rs, w' = { w with keys := ks, random := rs } := by
  intro fuel
  induction fuel with
  | zero => intro fail_count pass w w' n h; simp [mok_sb_challenge] at h
  | succ f ih =>
    intro fail_count pass w w' n h
    rw [mok_sb_challenge] at h
    split at h
    · split at h
      · cases h
      · split at h
        · split at h
          · cases h
          · rename_i g1
            split at h
            · cases h
            · rename_i g2
              split at h
              · cases h
              · rename_i g3
                obtain ⟨k1, rfl⟩ := get_pass_frame g1
                obtain ⟨k2, rfl⟩ := get_pass_frame g2
                obtain ⟨k3, rfl⟩ := get_pass_frame g3
                split at h
                · cases h
                · obtain ⟨ks, rs, e⟩ := ih _ _ _ _ _ h
                  exact ⟨ks, rs, e⟩
                · cases h
                  exact ⟨_, _, rfl⟩
        · cases h
        · cases h
        · cases h
    · cases h
      exact ⟨w.keys, w.random, rfl⟩

/-- The commit path of `mok_sb_prompt`: after a passed challenge and a
confirmation, `MokSBState` is written (state 0) or deleted (otherwise) and
the reset is requested; `MokSB` is not touched. -/
theorem mok_sb_prompt_commit (MokSB : Option (List Byte)) (w w1 w2 : World)
    (n state : Nat) (ret : Int)
    (hc : mok_sb_challenge (MokSB.getD []) 4 0 w.indeterminate w = Res.ok (n, w1))
    (hn : n < 3) (hs : rd32 (MokSB.getD []) 0 = some state)
    (hsel : console_select w1 = some (ret, w2)) (hret : ret ≠ 0)
    (hl : w.locked VarName.MokSBState = false) :
    ∃ w', mok_sb_prompt MokSB sizeof_MokSBvar w = Res.ok (-1, w') ∧
      w'.vars VarName.MokSBState =
        (if state = 0 then
          some { attributes := EFI_VARIABLE_NON_VOLATILE ||| EFI_VARIABLE_BOOTSERVICE_ACCESS,
                 data := [1] }
         else none) ∧
      (∀ name, name ≠ VarName.MokSBState → w'.vars name = w.vars name) ∧
      w'.trace = w.trace ++
        [if state = 0 then Event.SetVariable VarName.MokSBState
            (EFI_VARIABLE_NON_VOLATILE ||| EFI_VARIABLE_BOOTSERVICE_ACCESS) [1]
          else Event.DeleteVariable VarName.MokSBState,
         Event.Console "The system must now be rebooted", Event.ResetSystem,
         Event.Console "Failed to reboot"] := by
  obtain ⟨ks, rs, rfl⟩ := mok_sb_challenge_frame _ _ _ _ _ _ _ hc
  obtain ⟨ss, rfl⟩ := console_select_frame hsel
  unfold mok_sb_prompt
  simp only [ne_eq, not_true_eq_false, if_false, hc, hs, hsel, hret, ge_iff_le]
  rw [if_neg (by omega)]
  have hbit : (EFI_VARIABLE_NON_VOLATILE ||| EFI_VARIABLE_BOOTSERVICE_ACCESS) &&&
      EFI_VARIABLE_APPEND_WRITE = 0 := by decide
  by_cases h0 : state = 0
  · simp only [h0, if_true, SetVariable, World.log, hl, World.setVar, reboot, console, hbit,
      ne_eq, not_true_eq_false, if_false, Bool.false_eq_true, reduceCtorEq]
    refine ⟨_, rfl, ?_, ?_, ?_⟩
    · simp
    · intro name hname
      simp [hname]
    · simp
  · simp only [h0, if_false, LibDeleteVariable, World.log, hl, World.setVar, reboot, console]
    cases hv : w.vars VarName.MokSBState with
    | none =>
      refine ⟨_, rfl, ?_, ?_, ?_⟩
      · simpa using hv
      · intro name hname
        rfl
      · simp
    | some v =>
      refine ⟨_, rfl, ?_, ?_, ?_⟩
      · simp
      · intro name hname
        simp [hname]
      · simp

set_option maxRecDepth 100000 in
/-- C16 (the code at the failing input): the record is size-valid, the
operator enters the three characters asked for and confirms.  When the reset
is requested `MokSBState` is `[1]` with attributes 3 (state 0), or absent
(state 1), as the claim says; but `MokSB` is still in the store: the commit
path never deletes it. -/
theorem sb_toggle_requests_reset_with_MokSB_present :
    (sampleMokSB 0 8).length = sizeof_MokSBvar ∧
    (mok_sb_challenge (sampleMokSB 0 8) 4 0 (sbWorld (sampleMokSB 0 8) 1).indeterminate
      (sbWorld (sampleMokSB 0 8) 1)).map (fun r => r.1) = Res.ok 0 ∧
    (mok_sb_prompt (some (sampleMokSB 0 8)) sizeof_MokSBvar (sbWorld (sampleMokSB 0 8) 1)).map
      (fun r => (r.1, r.2.vars VarName.MokSBState, r.2.vars VarName.MokSB, r.2.trace)) =
      Res.ok (-1, some { attributes := 3, data := [1] },
        some { attributes := 7, data := sampleMokSB 0 8 },
        [Event.SetVariable VarName.MokSBState 3 [1],
         Event.Console "The system must now be rebooted", Event.ResetSystem,
         Event.Console "Failed to reboot"]) ∧
    (mok_sb_prompt (some (sampleMokSB 1 8)) sizeof_MokSBvar (sbWorld (sampleMokSB 1 8) 1)).map
      (fun r => (r.1, r.2.vars VarName.MokSBState, r.2.vars VarName.MokSB, r.2.trace)) =
      Res.ok (-1, none, some { attributes := 7, data := sampleMokSB 1 8 },
        [Event.DeleteVariable VarName.MokSBState,
         Event.Console "The system must now be rebooted", Event.ResetSystem,
         Event.Console "Failed to reboot"]) := by
  refine ⟨by decide, by decide, by decide, by decide⟩

set_option maxRecDepth 100000 in
/-- C17 (the code at failing inputs): the size validation lets every `PWLen`
through.  With `PWLen = 0` the first remainder divides by zero; with `PWLen`
1 or 2 no stream of random bytes lets the sampling complete; with
`PWLen = 17` and the random byte 16 the position 16 is sampled and
`Password[16]` is read outside the record.  (With a `PWLen` of 8, the
sampling also keeps running for as long as the random bytes repeat.) -/
theorem challenge_sampling_trusts_PWLen :
    ((sampleMokSB 0 0).length = sizeof_MokSBvar ∧
      (mok_sb_prompt (some (sampleMokSB 0 0)) sizeof_MokSBvar
        (sbWorld (sampleMokSB 0 0) 1)).map (fun r => r.1) = Res.fault) ∧
    (∀ random p rest, sample_positions 1 random ≠ Res.ok (p, rest)) ∧
    (∀ random p rest, sample_positions 2 random ≠ Res.ok (p, rest)) ∧
    ((sampleMokSB 0 17).length = sizeof_MokSBvar ∧
      sample_positions 17 [16, 0, 1] = Res.ok ((16, 0, 1), []) ∧
      rd16 (sampleMokSB 0 17) (8 + 2 * 16) = none ∧
      (mok_sb_prompt (some (sampleMokSB 0 17)) sizeof_MokSBvar
        { sbWorld (sampleMokSB 0 17) 1 with random := [16, 0, 1] }).map (fun r => r.1)
        = Res.fault) ∧
    (∀ n, sample_positions 8 (List.replicate n 7) = Res.timeout) := by
  refine ⟨⟨by decide, by decide⟩, ?_, ?_, ⟨by decide, by decide, by decide, by decide⟩, ?_⟩
  · rintro random ⟨p1, p2, p3⟩ rest h
    have := sample_positions_spec 1 random rest p1 p2 p3 h
    omega
  · rintro random ⟨p1, p2, p3⟩ rest h
    have := sample_positions_spec 2 random rest p1 p2 p3 h
    omega
  · intro n
    cases n with
    | zero => rfl
    | succ k =>
      have h := sample_pos2_repeat 8 7 k
      rw [List.replicate_succ]
      unfold sample_positions
      simp only [h]
      rfl

/-! ## Declining a prompt -/

theorem console_select_quiet {w w' : World} {c : Int}
    (h : console_select w = some (c, w')) : quiet w w' := by
  obtain ⟨ss, rfl⟩ := console_select_frame h
  exact quiet_selects _ _

theorem match_password_quiet {E : Ext} {pw_crypt Data auth : Option (List Byte)}
    {DataSize : Nat} {w w' : World} {st : EFI_STATUS}
    (h : match_password E pw_crypt Data DataSize auth w = Res.ok (st, w')) : quiet w w' := by
  obtain ⟨ks, rfl⟩ := match_password_frame _ _ _ _ _ _ _ _ h
  exact quiet_keys _ _

theorem mok_sb_challenge_quiet {MokSB : List Byte} {fuel fail_count n : Nat}
    {pass : Nat × Nat × Nat} {w w' : World}
    (h : mok_sb_challenge MokSB fuel fail_count pass w = Res.ok (n, w')) : quiet w w' := by
  obtain ⟨ks, rs, rfl⟩ := mok_sb_challenge_frame _ _ _ _ _ _ _ h
  exact ⟨rfl, rfl, [], by simp⟩

/-- The decline branch of `mok_sb_prompt`: `MokSB` is deleted and `-1` returned. -/
theorem mok_sb_prompt_decline (MokSB : Option (List Byte)) (w w1 w2 : World) (n state : Nat)
    (hc : mok_sb_challenge (MokSB.getD []) 4 0 w.indeterminate w = Res.ok (n, w1))
    (hn : n < 3) (hs : rd32 (MokSB.getD []) 0 = some state)
    (hsel : console_select w1 = some (0, w2)) :
    mok_sb_prompt MokSB sizeof_MokSBvar w
      = Res.ok (-1, (LibDeleteVariable VarName.MokSB w2).2) ∧
    (LibDeleteVariable VarName.MokSB w2).2.trace
      = w.trace ++ [Event.DeleteVariable VarName.MokSB] ∧
    (LibDeleteVariable VarName.MokSB w2).2.vars VarName.MokSB
      = (if w.locked VarName.MokSB then w.vars VarName.MokSB else none) ∧
    ∀ name, name ≠ VarName.MokSB →
      (LibDeleteVariable VarName.MokSB w2).2.vars name = w.vars name := by
  obtain ⟨ks, rs, rfl⟩ := mok_sb_challenge_frame _ _ _ _ _ _ _ hc
  obtain ⟨ss, rfl⟩ := console_select_frame hsel
  refine ⟨?_, ?_, ?_, ?_⟩
  · unfold mok_sb_prompt
    simp only [ne_eq, not_true_eq_false, if_false, hc, hs, hsel, ge_iff_le, if_true]
    rw [if_neg (by omega)]
  · simp only [LibDeleteVariable, World.log]
    cases hv : w.vars VarName.MokSB with
    | none => rfl
    | some v =>
      by_cases hl : w.locked VarName.MokSB = true
      · simp only [hl, if_true]
      · simp only [hl, World.setVar]
        rfl
  · simp only [LibDeleteVariable, World.log]
    cases hv : w.vars VarName.MokSB with
    | none =>
      simp only [hv]
      split <;> rfl
    | some v =>
      by_cases hl : w.locked VarName.MokSB = true
      · simp only [hl, if_true, hv]
      · simp only [hl, World.setVar]
        simp
  · intro name hname
    simp only [LibDeleteVariable, World.log]
    cases hv : w.vars VarName.MokSB with
    | none => rfl
    | some v =>
      by_cases hl : w.locked VarName.MokSB = true
      · simp only [hl, if_true]
      · simp only [hl, World.setVar]
        simp [hname]

set_option maxRecDepth 100000 in
/-- C15 (the code at the failing input): the operator passes the challenge
of the Secure Boot prompt and answers "no"; the prompt deletes `MokSB` and
returns `-1`. -/
theorem declining_the_sb_prompt_deletes_MokSB :
    (sbWorld (sampleMokSB 0 8) 0).vars VarName.MokSB
      = some { attributes := 7, data := sampleMokSB 0 8 } ∧
    (mok_sb_prompt (some (sampleMokSB 0 8)) sizeof_MokSBvar (sbWorld (sampleMokSB 0 8) 0)).map
      (fun r => (r.1, r.2.vars VarName.MokSB, r.2.selects, r.2.trace)) =
      Res.ok (-1, none, [], [Event.DeleteVariable VarName.MokSB]) := by
  refine ⟨rfl, by decide⟩

/-- What declining does, prompt by prompt: answering "no" to the confirmation
of `mok_enrollment_prompt`, `mok_reset_prompt`, `mok_deletion_prompt` or
`mok_pw_prompt` (either of its two questions) returns 0 with the variable
store as it was when the prompt was entered and no runtime service called;
answering "no" to `mok_sb_prompt` deletes the staging variable `MokSB`,
changes no other variable and returns `-1`. -/
theorem declining_prompt_by_prompt (E : Ext) (fuel : Nat) :
    (∀ MokNew MokNewSize auth w w1 w2,
      list_keys fuel MokNew MokNewSize w = Res.ok (EFI_SUCCESS, w1) →
      console_select w1 = some (0, w2) →
      mok_enrollment_prompt E fuel MokNew MokNewSize auth w = Res.ok (0, w2) ∧ quiet w w2) ∧
    (∀ w w1, console_select w = some (0, w1) →
      mok_reset_prompt E w = Res.ok (0, w1) ∧ quiet w w1) ∧
    (∀ MokDel MokDelSize w w1 w2,
      list_keys fuel MokDel MokDelSize w = Res.ok (EFI_SUCCESS, w1) →
      console_select w1 = some (0, w2) →
      mok_deletion_prompt E fuel MokDel MokDelSize w = Res.ok (0, w2) ∧ quiet w w2) ∧
    (∀ MokPW MokPWSize w w1,
      (MokPWSize = SHA256_DIGEST_SIZE ∨ MokPWSize = E.PASSWORD_CRYPT_SIZE) →
      rdBytes (MokPW.getD []) 0 MokPWSize = some (List.replicate MokPWSize 0) →
      console_select w = some (0, w1) →
      mok_pw_prompt E MokPW MokPWSize w = Res.ok (0, w1) ∧ quiet w w1) ∧
    (∀ MokPW MokPWSize record w w1 w2,
      (MokPWSize = SHA256_DIGEST_SIZE ∨ MokPWSize = E.PASSWORD_CRYPT_SIZE) →
      rdBytes (MokPW.getD []) 0 MokPWSize = some record →
      record ≠ List.replicate MokPWSize 0 →
      (if MokPWSize = E.PASSWORD_CRYPT_SIZE then match_password E (some record) none 0 none w
        else match_password E none none 0 (some record) w) = Res.ok (EFI_SUCCESS, w1) →
      console_select w1 = some (0, w2) →
      mok_pw_prompt E MokPW MokPWSize w = Res.ok (0, w2) ∧ quiet w w2) ∧
    (∀ MokSB w w1 w2 n state,
      mok_sb_challenge (MokSB.getD []) 4 0 w.indeterminate w = Res.ok (n, w1) →
      n < 3 → rd32 (MokSB.getD []) 0 = some state →
      console_select w1 = some (0, w2) →
      mok_sb_prompt MokSB sizeof_MokSBvar w
        = Res.ok (-1, (LibDeleteVariable VarName.MokSB w2).2) ∧
      (LibDeleteVariable VarName.MokSB w2).2.trace
        = w.trace ++ [Event.DeleteVariable VarName.MokSB] ∧
      (LibDeleteVariable VarName.MokSB w2).2.vars VarName.MokSB
        = (if w.locked VarName.MokSB then w.vars VarName.MokSB else none) ∧
      ∀ name, name ≠ VarName.MokSB →
        (LibDeleteVariable VarName.MokSB w2).2.vars name = w.vars name) := by
  refine ⟨?_, ?_, ?_, ?_, ?_, ?_⟩
  · intro MokNew MokNewSize auth w w1 w2 hl hsel
    refine ⟨?_, quiet_trans (list_keys_quiet hl).1 (console_select_quiet hsel)⟩
    unfold mok_enrollment_prompt
    simp only [hl, hsel, ne_eq, not_true_eq_false, if_false, if_true]
  · intro w w1 hsel
    refine ⟨?_, console_select_quiet hsel⟩
    unfold mok_reset_prompt
    simp only [hsel, if_true]
  · intro MokDel MokDelSize w w1 w2 hl hsel
    refine ⟨?_, quiet_trans (list_keys_quiet hl).1 (console_select_quiet hsel)⟩
    unfold mok_deletion_prompt
    simp only [hl, hsel, ne_eq, not_true_eq_false, if_false, if_true]
  · intro MokPW MokPWSize w w1 hs hrd hsel
    refine ⟨?_, console_select_quiet hsel⟩
    have hcond : ¬ (MokPWSize ≠ SHA256_DIGEST_SIZE ∧ MokPWSize ≠ E.PASSWORD_CRYPT_SIZE) := by
      rintro ⟨h1, h2⟩
      rcases hs with h | h
      · exact h1 h
      · exact h2 h
    unfold mok_pw_prompt
    rw [if_neg hcond]
    simp only [hrd, if_true, hsel]
  · intro MokPW MokPWSize record w w1 w2 hs hrd hnz hmp hsel
    have hq : quiet w w1 := by
      split at hmp
      · exact match_password_quiet hmp
      · exact match_password_quiet hmp
    refine ⟨?_, quiet_trans hq (console_select_quiet hsel)⟩
    have hcond : ¬ (MokPWSize ≠ SHA256_DIGEST_SIZE ∧ MokPWSize ≠ E.PASSWORD_CRYPT_SIZE) := by
      rintro ⟨h1, h2⟩
      rcases hs with h | h
      · exact h1 h
      · exact h2 h
    unfold mok_pw_prompt
    rw [if_neg hcond]
    simp only [hrd, if_neg hnz, hmp, hsel, ne_eq, not_true_eq_false, if_false, if_true]
  · intro MokSB w w1 w2 n state hc hn hs hsel
    exact mok_sb_prompt_decline MokSB w w1 w2 n state hc hn hs hsel

set_option maxRecDepth 100000 in
/-- Each prompt is entered on a concrete machine and the operator answers
"no". -/
theorem declining_on_sample_machines :
    (mok_enrollment_prompt sampleExt 4 (some sampleMokNew) sampleMokNew.length true
        { wrongPasswordWorld with selects := [1, 0] }
      = Res.ok (0, { wrongPasswordWorld with selects := [] }) ∧
      quiet { wrongPasswordWorld with selects := [1, 0] }
        { wrongPasswordWorld with selects := [] }) ∧
    (mok_reset_prompt sampleExt { wrongPasswordWorld with selects := [0] }
      = Res.ok (0, { wrongPasswordWorld with selects := [] }) ∧
      quiet { wrongPasswordWorld with selects := [0] }
        { wrongPasswordWorld with selects := [] }) ∧
    (mok_deletion_prompt sampleExt 4 (some sampleMokNew) sampleMokNew.length
        { wrongPasswordWorld with selects := [1, 0] }
      = Res.ok (0, { wrongPasswordWorld with selects := [] }) ∧
      quiet { wrongPasswordWorld with selects := [1, 0] }
        { wrongPasswordWorld with selects := [] }) ∧
    (mok_pw_prompt sampleExt (some (List.replicate 32 0)) 32 (pwWorld (List.replicate 32 0) [])
      = Res.ok (0, { pwWorld (List.replicate 32 0) [] with selects := [] }) ∧
      quiet (pwWorld (List.replicate 32 0) [])
        { pwWorld (List.replicate 32 0) [] with selects := [] }) ∧
    (mok_pw_prompt sampleExt (some sampleModernAuth) 172
        (pwWorld sampleModernAuth [0x70, 0x77, 0xD])
      = Res.ok (0, { pwWorld sampleModernAuth [0x70, 0x77, 0xD] with
          keys := [], selects := [] }) ∧
      quiet (pwWorld sampleModernAuth [0x70, 0x77, 0xD])
        { pwWorld sampleModernAuth [0x70, 0x77, 0xD] with keys := [], selects := [] }) ∧
    (mok_sb_prompt (some (sampleMokSB 0 8)) sizeof_MokSBvar (sbWorld (sampleMokSB 0 8) 0)
      = Res.ok (-1, (LibDeleteVariable VarName.MokSB
          { sbWorld (sampleMokSB 0 8) 0 with keys := [], random := [], selects := [] }).2) ∧
      (LibDeleteVariable VarName.MokSB
          { sbWorld (sampleMokSB 0 8) 0 with keys := [], random := [], selects := [] }).2.vars
        VarName.MokSB = none) := by
  have h := declining_prompt_by_prompt sampleExt 4
  refine ⟨?_, ?_, ?_, ?_, ?_, ?_⟩
  · exact h.1 (some sampleMokNew) sampleMokNew.length true
      { wrongPasswordWorld with selects := [1, 0] } { wrongPasswordWorld with selects := [0] }
      { wrongPasswordWorld with selects := [] } rfl rfl
  · exact h.2.1 { wrongPasswordWorld with selects := [0] }
      { wrongPasswordWorld with selects := [] } rfl
  · exact h.2.2.1 (some sampleMokNew) sampleMokNew.length
      { wrongPasswordWorld with selects := [1, 0] } { wrongPasswordWorld with selects := [0] }
      { wrongPasswordWorld with selects := [] } rfl rfl
  · exact h.2.2.2.1 (some (List.replicate 32 0)) 32 (pwWorld (List.replicate 32 0) [])
      { pwWorld (List.replicate 32 0) [] with selects := [] } (Or.inl rfl) (by decide) rfl
  · exact h.2.2.2.2.1 (some sampleModernAuth) 172 sampleModernAuth
      (pwWorld sampleModernAuth [0x70, 0x77, 0xD])
      { pwWorld sampleModernAuth [0x70, 0x77, 0xD] with keys := [] }
      { pwWorld sampleModernAuth [0x70, 0x77, 0xD] with keys := [], selects := [] }
      (Or.inr rfl) (by decide) (by decide) rfl rfl
  · have h6 := h.2.2.2.2.2 (some (sampleMokSB 0 8)) (sbWorld (sampleMokSB 0 8) 0)
      { sbWorld (sampleMokSB 0 8) 0 with keys := [], random := [] }
      { sbWorld (sampleMokSB 0 8) 0 with keys := [], random := [], selects := [] } 0 0
      rfl (by decide) (by decide) rfl
    exact ⟨h6.1, h6.2.2.1⟩

/-! ## Session cleanup -/

theorem creates_none_refl (w : World) : creates_none w w := ⟨rfl, fun _ _ _ _ h => h⟩

theorem creates_none_trans {a b c : World} (h1 : creates_none a b) (h2 : creates_none b c) :
    creates_none a c :=
  ⟨h2.1.trans h1.1, fun n x y z h => h2.2 n x y z (h1.2 n x y z h)⟩

theorem creates_none_of_quiet {w w' : World} (h : quiet w w') : creates_none w w' :=
  ⟨h.2.1, fun n _ _ _ hn => by rw [h.1]; exact hn⟩

theorem SetVariable_other (name : VarName) (attributes : Nat) (data : List Byte) (w : World) :
    (SetVariable name attributes data w).2.locked = w.locked ∧
    ∀ n, n ≠ name → (SetVariable name attributes data w).2.vars n = w.vars n := by
  unfold SetVariable
  simp only []
  split
  · exact ⟨rfl, fun _ _ => rfl⟩
  · split
    · split
      · split
        · exact ⟨rfl, fun _ _ => rfl⟩
        · exact ⟨rfl, fun n hn => by simp [World.setVar, World.log, hn]⟩
      · exact ⟨rfl, fun n hn => by simp [World.setVar, World.log, hn]⟩
    · split
      · split
        · exact ⟨rfl, fun _ _ => rfl⟩
        · exact ⟨rfl, fun n hn => by simp [World.setVar, World.log, hn]⟩
      · exact ⟨rfl, fun n hn => by simp [World.setVar, World.log, hn]⟩

theorem creates_none_SetVariable (name : VarName) (attributes : Nat) (data : List Byte)
    (w : World)
    (hname : name = VarName.MokList ∨ name = VarName.MokSBState ∨ name = VarName.MokPWStore) :
    creates_none w (SetVariable name attributes data w).2 := by
  obtain ⟨hl, hv⟩ := SetVariable_other name attributes data w
  refine ⟨hl, fun n h1 h2 h3 hn => ?_⟩
  have hne : n ≠ name := by
    rcases hname with h | h | h <;> rw [h] <;> assumption
  rw [hv n hne]
  exact hn

theorem LibDeleteVariable_none (name : VarName) (w : World) :
    (LibDeleteVariable name w).2.locked = w.locked ∧
    (∀ n, w.vars n = none → (LibDeleteVariable name w).2.vars n = none) ∧
    (w.locked name = false → (LibDeleteVariable name w).2.vars name = none) := by
  unfold LibDeleteVariable
  simp only []
  split
  · rename_i hv
    exact ⟨rfl, fun _ h => h, fun _ => hv⟩
  · split
    · rename_i hl
      refine ⟨rfl, fun _ h => h, fun h => ?_⟩
      rw [hl] at h
      cases h
    · refine ⟨rfl, fun n hn => ?_, fun _ => by simp [World.setVar, World.log]⟩
      by_cases e : n = name
      · simp [World.setVar, World.log, e]
      · simp only [World.setVar, World.log, e, if_false]
        exact hn

theorem creates_none_LibDeleteVariable (name : VarName) (w : World) :
    creates_none w (LibDeleteVariable name w).2 :=
  ⟨(LibDeleteVariable_none name w).1, fun n _ _ _ hn => (LibDeleteVariable_none name w).2.1 n hn⟩

theorem creates_none_console (text : String) (w : World) : creates_none w (console text w) :=
  creates_none_of_quiet (quiet_console text w)

theorem creates_none_reboot (w : World) : creates_none w (reboot w).2 :=
  ⟨rfl, fun _ _ _ _ h => h⟩

theorem store_keys_write_creates_none {MokNew : Option (List Byte)} {MokNewSize : Nat}
    {w w' : World} {st : EFI_STATUS}
    (h : store_keys_write MokNew MokNewSize w = Res.ok (st, w')) : creates_none w w' := by
  unfold store_keys_write at h
  split at h
  · simp only [] at h
    split at h
    · cases h
      exact creates_none_trans (creates_none_SetVariable _ _ _ _ (Or.inl rfl))
        (creates_none_console _ _)
    · cases h
      exact creates_none_SetVariable _ _ _ _ (Or.inl rfl)
  · split at h
    · cases h
    · split at h
      · cases h
      · simp only [] at h
        split at h
        · cases h
          exact creates_none_trans (creates_none_SetVariable _ _ _ _ (Or.inl rfl))
            (creates_none_console _ _)
        · cases h
          exact creates_none_SetVariable _ _ _ _ (Or.inl rfl)

theorem store_keys_creates_none {E : Ext} {MokNew : Option (List Byte)} {MokNewSize : Nat}
    {authenticate : Bool} {w w' : World} {st : EFI_STATUS}
    (h : store_keys E MokNew MokNewSize authenticate w = Res.ok (st, w')) :
    creates_none w w' := by
  unfold store_keys at h
  split at h
  · simp only [] at h
    split at h
    · cases h
      exact creates_none_console _ _
    · split at h
      · rename_i st1 w1 hmp
        have hq : quiet w w1 := by
          split at hmp
          · exact match_password_quiet hmp
          · exact match_password_quiet hmp
        split at h
        · cases h
          exact creates_none_of_quiet hq
        · exact creates_none_trans (creates_none_of_quiet hq) (store_keys_write_creates_none h)
      · cases h
      · cases h
      · cases h
  · exact store_keys_write_creates_none h

theorem write_back_mok_list_creates_none {mem : List Byte} {list : List MokListNode}
    {key_num : Nat} {w w' : World} {st : EFI_STATUS}
    (h : write_back_mok_list mem list key_num w = Res.ok (st, w')) : creates_none w w' := by
  unfold write_back_mok_list at h
  split at h
  · cases h
  · split at h
    · simp only [] at h
      split at h
      · cases h
        exact creates_none_trans (creates_none_SetVariable _ _ _ _ (Or.inl rfl))
          (creates_none_console _ _)
      · cases h
        exact creates_none_SetVariable _ _ _ _ (Or.inl rfl)
    · cases h
    · cases h
    · cases h

theorem delete_keys_commit_creates_none {fuel : Nat} {MokDel : Option (List Byte)}
    {MokDelSize attributes : Nat} {w w' : World} {st : EFI_STATUS}
    (h : delete_keys_commit fuel MokDel MokDelSize attributes w = Res.ok (st, w')) :
    creates_none w w' := by
  unfold delete_keys_commit at h
  simp only [] at h
  split at h
  · split at h
    · cases h
      exact creates_none_trans (creates_none_trans (creates_none_console _ _)
        (creates_none_LibDeleteVariable _ _)) (creates_none_console _ _)
    · cases h
      exact creates_none_trans (creates_none_console _ _) (creates_none_LibDeleteVariable _ _)
  · split at h
    · cases h
      exact creates_none_refl _
    · split at h
      · cases h
        exact creates_none_refl _
      · split at h
        · rename_i mok_num w1 hc1
          obtain ⟨_, rfl⟩ := count_keys_call_ok hc1
          split at h
          · split at h
            · rename_i del_num w2 hc2
              obtain ⟨_, rfl⟩ := count_keys_call_ok hc2
              split at h
              · split at h
                · cases h
                · split at h
                  · exact creates_none_trans
                      (creates_none_trans (creates_none_of_quiet (quiet_console_all _ _))
                        (creates_none_of_quiet (quiet_console_all _ _)))
                      (write_back_mok_list_creates_none h)
                  · cases h
                  · cases h
                  · cases h
              · cases h
              · cases h
              · cases h
            · cases h
            · cases h
            · cases h
          · cases h
          · cases h
          · cases h
        · cases h
        · cases h
        · cases h

theorem delete_keys_creates_none {E : Ext} {fuel : Nat} {MokDel : Option (List Byte)}
    {MokDelSize : Nat} {w w' : World} {st : EFI_STATUS}
    (h : delete_keys E fuel MokDel MokDelSize w = Res.ok (st, w')) : creates_none w w' := by
  unfold delete_keys at h
  simp only [] at h
  split at h
  · cases h
    exact creates_none_console _ _
  · split at h
    · rename_i st1 w1 hmp
      have hq : quiet w w1 := by
        split at hmp
        · exact match_password_quiet hmp
        · exact match_password_quiet hmp
      split at h
      · cases h
        exact creates_none_of_quiet hq
      · exact creates_none_trans (creates_none_of_quiet hq) (delete_keys_commit_creates_none h)
    · cases h
    · cases h
    · cases h

theorem creates_none_commit (a b : VarName) (w : World) :
    creates_none w (reboot (LibDeleteVariable a (LibDeleteVariable b w).2).2).2 :=
  creates_none_trans (creates_none_trans (creates_none_LibDeleteVariable _ _)
    (creates_none_LibDeleteVariable _ _)) (creates_none_reboot _)

theorem mok_enrollment_prompt_creates_none {E : Ext} {fuel : Nat}
    {MokNew : Option (List Byte)} {MokNewSize : Nat} {auth : Bool} {w w' : World} {r : Int}
    (h : mok_enrollment_prompt E fuel MokNew MokNewSize auth w = Res.ok (r, w')) :
    creates_none w w' := by
  unfold mok_enrollment_prompt at h
  split at h
  · rename_i st w1 hl
    have q1 := creates_none_of_quiet (list_keys_quiet hl).1
    split at h
    · cases h
      exact q1
    · split at h
      · cases h
      · rename_i answer w2 hsel
        have q2 := creates_none_trans q1 (creates_none_of_quiet (console_select_quiet hsel))
        split at h
        · cases h
          exact q2
        · split at h
          · rename_i st3 w3 hs
            have q3 := creates_none_trans q2 (store_keys_creates_none hs)
            split at h
            · cases h
              exact creates_none_trans q3 (creates_none_console _ _)
            · split at h
              · cases h
                exact creates_none_trans q3 (creates_none_commit _ _ _)
              · cases h
                exact q3
          · cases h
          · cases h
          · cases h
  · cases h
  · cases h
  · cases h

theorem mok_deletion_prompt_creates_none {E : Ext} {fuel : Nat}
    {MokDel : Option (List Byte)} {MokDelSize : Nat} {w w' : World} {r : Int}
    (h : mok_deletion_prompt E fuel MokDel MokDelSize w = Res.ok (r, w')) :
    creates_none w w' := by
  unfold mok_deletion_prompt at h
  split at h
  · rename_i st w1 hl
    have q1 := creates_none_of_quiet (list_keys_quiet hl).1
    split at h
    · cases h
      exact q1
    · split at h
      · cases h
      · rename_i answer w2 hsel
        have q2 := creates_none_trans q1 (creates_none_of_quiet (console_select_quiet hsel))
        split at h
        · cases h
          exact q2
        · split at h
          · rename_i st3 w3 hs
            have q3 := creates_none_trans q2 (delete_keys_creates_none hs)
            split at h
            · cases h
              exact creates_none_trans q3 (creates_none_console _ _)
            · cases h
              exact creates_none_trans q3 (creates_none_commit _ _ _)
          · cases h
          · cases h
          · cases h
  · cases h
  · cases h
  · cases h

theorem mok_reset_prompt_creates_none {E : Ext} {w w' : World} {r : Int}
    (h : mok_reset_prompt E w = Res.ok (r, w')) : creates_none w w' := by
  unfold mok_reset_prompt at h
  split at h
  · cases h
  · rename_i answer w1 hsel
    have q1 := creates_none_of_quiet (console_select_quiet hsel)
    split at h
    · cases h
      exact q1
    · split at h
      · rename_i st2 w2 hs
        have q2 := creates_none_trans q1 (store_keys_creates_none hs)
        split at h
        · cases h
          exact creates_none_trans q2 (creates_none_console _ _)
        · cases h
          exact creates_none_trans q2 (creates_none_trans
            (creates_none_trans (creates_none_LibDeleteVariable _ _)
              (creates_none_LibDeleteVariable _ _)) ⟨rfl, fun _ _ _ _ hn => hn⟩)
      · cases h
      · cases h
      · cases h

theorem mok_sb_prompt_creates_none {MokSB : Option (List Byte)} {MokSBSize : Nat}
    {w w' : World} {r : Int}
    (h : mok_sb_prompt MokSB MokSBSize w = Res.ok (r, w')) : creates_none w w' := by
  unfold mok_sb_prompt at h
  split at h
  · cases h
    exact creates_none_console _ _
  · split at h
    · rename_i n w1 hc
      have q1 := creates_none_of_quiet (mok_sb_challenge_quiet hc)
      split at h
      · cases h
        exact creates_none_trans q1 (creates_none_console _ _)
      · split at h
        · cases h
        · split at h
          · cases h
          · rename_i ret w2 hsel
            have q2 := creates_none_trans q1
              (creates_none_of_quiet (console_select_quiet hsel))
            split at h
            · cases h
              exact creates_none_trans q2 (creates_none_LibDeleteVariable _ _)
            · split at h
              · simp only [] at h
                split at h
                · cases h
                  exact creates_none_trans q2 (creates_none_trans
                    (creates_none_SetVariable _ _ _ _ (Or.inr (Or.inl rfl)))
                    (creates_none_console _ _))
                · cases h
                  exact creates_none_trans q2 (creates_none_trans
                    (creates_none_SetVariable _ _ _ _ (Or.inr (Or.inl rfl)))
                    (creates_none_reboot _))
              · cases h
                exact creates_none_trans q2 (creates_none_trans
                  (creates_none_LibDeleteVariable _ _) (creates_none_reboot _))
    · cases h
    · cases h
    · cases h

theorem mok_pw_prompt_creates_none {E : Ext} {MokPW : Option (List Byte)} {MokPWSize : Nat}
    {w w' : World} {r : Int}
    (h : mok_pw_prompt E MokPW MokPWSize w = Res.ok (r, w')) : creates_none w w' := by
  unfold mok_pw_prompt at h
  split at h
  · cases h
    exact creates_none_console _ _
  · split at h
    · cases h
    · split at h
      · split at h
        · cases h
        · rename_i answer w1 hsel
          have q1 := creates_none_of_quiet (console_select_quiet hsel)
          split at h
          · cases h
            exact q1
          · cases h
            exact creates_none_trans q1 (creates_none_trans
              (creates_none_LibDeleteVariable _ _) (creates_none_LibDeleteVariable _ _))
      · split at h
        · rename_i st1 w1 hmp
          have q1 : creates_none w w1 := by
            split at hmp
            · exact creates_none_of_quiet (match_password_quiet hmp)
            · exact creates_none_of_quiet (match_password_quiet hmp)
          split at h
          · cases h
            exact creates_none_trans q1 (creates_none_console _ _)
          · split at h
            · cases h
            · rename_i answer w2 hsel
              have q2 := creates_none_trans q1
                (creates_none_of_quiet (console_select_quiet hsel))
              split at h
              · cases h
                exact q2
              · simp only [] at h
                split at h
                · cases h
                  exact creates_none_trans q2 (creates_none_trans
                    (creates_none_SetVariable _ _ _ _ (Or.inr (Or.inr rfl)))
                    (creates_none_console _ _))
                · cases h
                  exact creates_none_trans q2 (creates_none_trans
                    (creates_none_SetVariable _ _ _ _ (Or.inr (Or.inr rfl)))
                    (creates_none_trans (creates_none_LibDeleteVariable _ _)
                      (creates_none_reboot _)))
        · cases h
        · cases h
        · cases h

theorem enroll_file_creates_none {E : Ext} {fuel : Nat} {pick : FilePick} {data : List Byte}
    {datasize : Nat} {hash : Bool} {w w' : World} {st : EFI_STATUS}
    (h : enroll_file E fuel pick data datasize hash w = Res.ok (st, w')) :
    creates_none w w' := by
  unfold enroll_file at h
  split at h
  · split at h
    · cases h
      exact creates_none_refl _
    · split at h
      · cases h
        exact creates_none_refl _
      · simp only [] at h
        split at h
        · rename_i r w1 hp
          cases h
          exact mok_enrollment_prompt_creates_none hp
        · cases h
        · cases h
        · cases h
  · simp only [] at h
    split at h
    · cases h
    · split at h
      · cases h
        exact creates_none_refl _
      · split at h
        · cases h
          exact creates_none_console _ _
        · split at h
          · rename_i r w1 hp
            cases h
            exact mok_enrollment_prompt_creates_none hp
          · cases h
          · cases h
          · cases h

theorem creates_none_files (w : World) (files : List FilePick) :
    creates_none w { w with files := files } := ⟨rfl, fun _ _ _ _ h => h⟩

theorem mok_hash_enroll_creates_none {E : Ext} {fuel : Nat} {w w' : World}
    (h : mok_hash_enroll E fuel w = Res.ok w') : creates_none w w' := by
  unfold mok_hash_enroll at h
  split at h
  · cases h
  · rename_i pick files _
    simp only [] at h
    have q0 := creates_none_files w files
    split at h
    · cases h
      exact q0
    · split at h
      · cases h
        exact creates_none_trans q0 (creates_none_console _ _)
      · split at h
        · cases h
          exact creates_none_trans q0 (creates_none_console _ _)
        · split at h
          · rename_i st w1 he
            have q1 := creates_none_trans q0 (enroll_file_creates_none he)
            split at h
            · cases h
              exact creates_none_trans q1 (creates_none_console _ _)
            · cases h
              exact q1
          · cases h
          · cases h
          · cases h

theorem mok_key_enroll_creates_none {E : Ext} {fuel : Nat} {w w' : World}
    (h : mok_key_enroll E fuel w = Res.ok w') : creates_none w w' := by
  unfold mok_key_enroll at h
  split at h
  · cases h
  · rename_i pick files _
    simp only [] at h
    have q0 := creates_none_files w files
    split at h
    · cases h
      exact q0
    · split at h
      · cases h
        exact creates_none_trans q0 (creates_none_console _ _)
      · split at h
        · cases h
          exact creates_none_trans q0 (creates_none_console _ _)
        · split at h
          · rename_i st w1 he
            cases h
            exact creates_none_trans q0 (enroll_file_creates_none he)
          · cases h
          · cases h
          · cases h

theorem Res_map_ok {α β : Type} {f : α → β} {r : Res α} {b : β} (h : r.map f = Res.ok b) :
    ∃ a, r = Res.ok a ∧ f a = b := by
  cases r with
  | ok a =>
    simp only [Res.map, Res.ok.injEq] at h
    exact ⟨a, rfl, h⟩
  | fault => cases h
  | timeout => cases h
  | blocked => cases h

theorem menu_action_creates_none {E : Ext} {fuel : Nat} {MokNew : Option (List Byte)}
    {MokNewSize : Nat} {MokDel : Option (List Byte)} {MokDelSize : Nat}
    {MokSB : Option (List Byte)} {MokSBSize : Nat} {MokPW : Option (List Byte)}
    {MokPWSize : Nat} {item : mok_menu_item} {w w' : World}
    (h : menu_action E fuel MokNew MokNewSize MokDel MokDelSize MokSB MokSBSize MokPW
      MokPWSize item w = Res.ok w') : creates_none w w' := by
  cases item with
  | MOK_CONTINUE_BOOT =>
    simp only [menu_action, Res.ok.injEq] at h
    rw [← h]
    exact creates_none_refl _
  | MOK_RESET_MOK =>
    obtain ⟨⟨r, w1⟩, hp, e⟩ := Res_map_ok h
    cases e
    exact mok_reset_prompt_creates_none hp
  | MOK_ENROLL_MOK =>
    obtain ⟨⟨r, w1⟩, hp, e⟩ := Res_map_ok h
    cases e
    exact mok_enrollment_prompt_creates_none hp
  | MOK_DELETE_MOK =>
    obtain ⟨⟨r, w1⟩, hp, e⟩ := Res_map_ok h
    cases e
    exact mok_deletion_prompt_creates_none hp
  | MOK_CHANGE_SB =>
    obtain ⟨⟨r, w1⟩, hp, e⟩ := Res_map_ok h
    cases e
    exact mok_sb_prompt_creates_none hp
  | MOK_SET_PW =>
    obtain ⟨⟨r, w1⟩, hp, e⟩ := Res_map_ok h
    cases e
    exact mok_pw_prompt_creates_none hp
  | MOK_KEY_ENROLL => exact mok_key_enroll_creates_none h
  | MOK_HASH_ENROLL => exact mok_hash_enroll_creates_none h

theorem menu_loop_creates_none {E : Ext} {fuel : Nat} {MokNew : Option (List Byte)}
    {MokNewSize : Nat} {MokDel : Option (List Byte)} {MokDelSize : Nat}
    {MokSB : Option (List Byte)} {MokSBSize : Nat} {MokPW : Option (List Byte)}
    {MokPWSize : Nat} {items : List mok_menu_item} :
    ∀ (rounds : Nat) (w w' : World),
      menu_loop E fuel MokNew MokNewSize MokDel MokDelSize MokSB MokSBSize MokPW MokPWSize
        items rounds w = Res.ok w' → creates_none w w' := by
  intro rounds
  induction rounds with
  | zero => intro w w' h; simp [menu_loop] at h
  | succ k ih =>
    intro w w' h
    rw [menu_loop] at h
    split at h
    · cases h
    · rename_i choice w1 hsel
      have q1 := creates_none_of_quiet (console_select_quiet hsel)
      split at h
      · cases h
        exact q1
      · split at h
        · cases h
        · split at h
          · cases h
            exact q1
          · split at h
            · rename_i w2 ha
              exact creates_none_trans (creates_none_trans q1 (menu_action_creates_none ha))
                (ih _ _ h)
            · cases h
            · cases h
            · cases h

theorem verify_pw_quiet {E : Ext} {w w' : World} {pw : Bool}
    (h : verify_pw E w = Res.ok (pw, w')) : quiet w w' := by
  unfold verify_pw at h
  simp only [] at h
  split at h
  · cases h
    exact quiet_refl _
  · split at h
    · cases h
      exact quiet_refl _
    · split at h
      · rename_i st w1 hmp
        have q1 : quiet w w1 := by
          split at hmp
          · exact match_password_quiet hmp
          · exact match_password_quiet hmp
        split at h
        · cases h
          exact quiet_trans q1 (quiet_console _ _)
        · cases h
          exact q1
      · cases h
      · cases h
      · cases h

theorem enter_mok_menu_creates_none {E : Ext} {fuel rounds : Nat}
    {MokNew : Option (List Byte)} {MokNewSize : Nat} {MokDel : Option (List Byte)}
    {MokDelSize : Nat} {MokSB : Option (List Byte)} {MokSBSize : Nat}
    {MokPW : Option (List Byte)} {MokPWSize : Nat} {w w' : World} {st : EFI_STATUS}
    (h : enter_mok_menu E fuel rounds MokNew MokNewSize MokDel MokDelSize MokSB MokSBSize
      MokPW MokPWSize w = Res.ok (st, w')) : creates_none w w' := by
  unfold enter_mok_menu at h
  split at h
  · rename_i pw w1 hv
    have q1 := creates_none_of_quiet (verify_pw_quiet hv)
    split at h
    · cases h
      exact q1
    · split at h
      · rename_i w2 hm
        cases h
        exact creates_none_trans q1 (menu_loop_creates_none _ _ _ hm)
      · cases h
      · cases h
      · cases h
  · cases h
  · cases h
  · cases h

theorem delete_staged_none (p : Option (List Byte)) (name : VarName) (text : String)
    (w : World) :
    (delete_staged p name text w).locked = w.locked ∧
    (∀ n, w.vars n = none → (delete_staged p name text w).vars n = none) ∧
    (p.isSome = true → w.locked name = false →
      (delete_staged p name text w).vars name = none) := by
  obtain ⟨hl, hn, hd⟩ := LibDeleteVariable_none name w
  unfold delete_staged
  split
  · split
    · exact ⟨hl, hn, fun _ h => hd h⟩
    · exact ⟨hl, hn, fun _ h => hd h⟩
  · rename_i hp
    exact ⟨rfl, fun _ h => h, fun h => absurd h hp⟩

theorem LibGetVariableAndSize_none (w : World) (name : VarName)
    (h : (LibGetVariableAndSize w name).1.isSome ≠ true) : w.vars name = none := by
  unfold LibGetVariableAndSize at h
  cases hv : w.vars name with
  | none => rfl
  | some v => simp [hv] at h

/-- One block of the cleanup: whether or not the pointer was NULL, the
variable is absent afterwards, provided nothing created it meanwhile and the
firmware accepts the deletion. -/
theorem delete_staged_gone (name : VarName) (text : String) (w w1 : World)
    (h1 : name ≠ VarName.MokList) (h2 : name ≠ VarName.MokSBState)
    (h3 : name ≠ VarName.MokPWStore) (hc : creates_none w w1)
    (hl : w.locked name = false) :
    (delete_staged (LibGetVariableAndSize w name).1 name text w1).vars name = none := by
  by_cases hp : (LibGetVariableAndSize w name).1.isSome = true
  · exact (delete_staged_none _ name text w1).2.2 hp (by rw [hc.1]; exact hl)
  · exact (delete_staged_none _ name text w1).2.1 name
      (hc.2 name h1 h2 h3 (LibGetVariableAndSize_none w name hp))

theorem delete_staged_creates_none (p : Option (List Byte)) (name : VarName) (text : String)
    (w : World) : creates_none w (delete_staged p name text w) :=
  ⟨(delete_staged_none p name text w).1,
    fun n _ _ _ h => (delete_staged_none p name text w).2.1 n h⟩

/-- C14: when `check_mok_request` returns, whatever the operator chose and
also after a failed password gate, none of `MokNew`, `MokDel`, `MokSB`,
`MokPW`, `MokAuth`, `MokDelAuth` exists, provided the firmware refuses no
deletion of these six. -/
theorem check_mok_request_cleans_up (E : Ext) (fuel rounds : Nat) (w w' : World)
    (st : EFI_STATUS)
    (hl : ∀ n ∈ [VarName.MokNew, VarName.MokDel, VarName.MokSB, VarName.MokPW,
      VarName.MokAuth, VarName.MokDelAuth], w.locked n = false)
    (h : check_mok_request E fuel rounds w = Res.ok (st, w')) :
    st = EFI_SUCCESS ∧
    ∀ n ∈ [VarName.MokNew, VarName.MokDel, VarName.MokSB, VarName.MokPW,
      VarName.MokAuth, VarName.MokDelAuth], w'.vars n = none := by
  unfold check_mok_request at h
  simp only [] at h
  split at h
  · rename_i st1 w1 hm
    simp only [Res.ok.injEq, Prod.mk.injEq] at h
    obtain ⟨hst, hw⟩ := h
    refine ⟨hst.symm, ?_⟩
    have c1 := enter_mok_menu_creates_none hm
    have c2 := creates_none_trans c1 (delete_staged_creates_none
      (LibGetVariableAndSize w VarName.MokNew).1 VarName.MokNew "Failed to delete MokNew" w1)
    have c3 := creates_none_trans c2 (delete_staged_creates_none
      (LibGetVariableAndSize w VarName.MokDel).1 VarName.MokDel "Failed to delete MokDel" _)
    have c4 := creates_none_trans c3 (delete_staged_creates_none
      (LibGetVariableAndSize w VarName.MokSB).1 VarName.MokSB "Failed to delete MokSB" _)
    have c5 := creates_none_trans c4 (delete_staged_creates_none
      (LibGetVariableAndSize w VarName.MokPW).1 VarName.MokPW "Failed to delete MokPW" _)
    have g1 := delete_staged_gone VarName.MokNew "Failed to delete MokNew" w w1
      (by decide) (by decide) (by decide) c1 (hl _ (by simp))
    have g2 := delete_staged_gone VarName.MokDel "Failed to delete MokDel" w _
      (by decide) (by decide) (by decide) c2 (hl _ (by simp))
    have g3 := delete_staged_gone VarName.MokSB "Failed to delete MokSB" w _
      (by decide) (by decide) (by decide) c3 (hl _ (by simp))
    have g4 := delete_staged_gone VarName.MokPW "Failed to delete MokPW" w _
      (by decide) (by decide) (by decide) c4 (hl _ (by simp))
    have k2 := fun n => (delete_staged_none (LibGetVariableAndSize w VarName.MokDel).1
      VarName.MokDel "Failed to delete MokDel"
      (delete_staged (LibGetVariableAndSize w VarName.MokNew).1 VarName.MokNew
        "Failed to delete MokNew" w1)).2.1 n
    have k3 := fun n => (delete_staged_none (LibGetVariableAndSize w VarName.MokSB).1
      VarName.MokSB "Failed to delete MokSB"
      (delete_staged (LibGetVariableAndSize w VarName.MokDel).1 VarName.MokDel
        "Failed to delete MokDel"
        (delete_staged (LibGetVariableAndSize w VarName.MokNew).1 VarName.MokNew
          "Failed to delete MokNew" w1))).2.1 n
    have k4 := fun n => (delete_staged_none (LibGetVariableAndSize w VarName.MokPW).1
      VarName.MokPW "Failed to delete MokPW"
      (delete_staged (LibGetVariableAndSize w VarName.MokSB).1 VarName.MokSB
        "Failed to delete MokSB"
        (delete_staged (LibGetVariableAndSize w VarName.MokDel).1 VarName.MokDel
          "Failed to delete MokDel"
          (delete_staged (LibGetVariableAndSize w VarName.MokNew).1 VarName.MokNew
            "Failed to delete MokNew" w1)))).2.1 n
    generalize hw5 : delete_staged (LibGetVariableAndSize w VarName.MokPW).1 VarName.MokPW
      "Failed to delete MokPW"
      (delete_staged (LibGetVariableAndSize w VarName.MokSB).1 VarName.MokSB
        "Failed to delete MokSB"
        (delete_staged (LibGetVariableAndSize w VarName.MokDel).1 VarName.MokDel
          "Failed to delete MokDel"
          (delete_staged (LibGetVariableAndSize w VarName.MokNew).1 VarName.MokNew
            "Failed to delete MokNew" w1))) = w5 at hw c5 g4 k4
    have a1 := LibDeleteVariable_none VarName.MokAuth w5
    have a2 := LibDeleteVariable_none VarName.MokDelAuth (LibDeleteVariable VarName.MokAuth w5).2
    have l5 : w5.locked = w.locked := c5.1
    have e1 : w5.vars VarName.MokNew = none := k4 _ (k3 _ (k2 _ g1))
    have e2 : w5.vars VarName.MokDel = none := k4 _ (k3 _ g2)
    have e3 : w5.vars VarName.MokSB = none := k4 _ g3
    have e5 : (LibDeleteVariable VarName.MokAuth w5).2.vars VarName.MokAuth = none :=
      a1.2.2 (by rw [l5]; exact hl _ (by simp))
    have e6 : w'.vars VarName.MokDelAuth = none := by
      rw [← hw]
      exact a2.2.2 (by rw [a1.1, l5]; exact hl _ (by simp))
    have fin : ∀ n, w5.vars n = none → w'.vars n = none := by
      intro n hn
      rw [← hw]
      exact a2.2.1 n (a1.2.1 n hn)
    intro n hn
    simp only [List.mem_cons, List.mem_singleton, List.not_mem_nil, or_false] at hn
    rcases hn with rfl | rfl | rfl | rfl | rfl | rfl
    · exact fin _ e1
    · exact fin _ e2
    · exact fin _ e3
    · exact fin _ g4
    · rw [← hw]
      exact a2.2.1 _ e5
    · exact e6
  · cases h
  · cases h
  · cases h

set_option maxRecDepth 100000 in
/-- Witness for C14: every staging variable is present; the operator picks
"Enroll MOK", confirms, types the password, and after the reset picks
"Continue boot". -/
theorem check_mok_request_cleans_up_witness :
    ((∀ n ∈ [VarName.MokNew, VarName.MokDel, VarName.MokSB, VarName.MokPW,
        VarName.MokAuth, VarName.MokDelAuth], sessionWorld.locked n = false) ∧
      (check_mok_request sampleExt 4 4 sessionWorld).map (fun r => (r.1, r.2.trace)) =
        Res.ok (EFI_SUCCESS,
          [Event.SetVariable VarName.MokList 67 sampleMokNew,
           Event.DeleteVariable VarName.MokNew, Event.DeleteVariable VarName.MokAuth,
           Event.Console "The system must now be rebooted", Event.ResetSystem,
           Event.Console "Failed to reboot",
           Event.DeleteVariable VarName.MokNew, Event.Console "Failed to delete MokNew",
           Event.DeleteVariable VarName.MokDel, Event.DeleteVariable VarName.MokSB,
           Event.DeleteVariable VarName.MokPW, Event.DeleteVariable VarName.MokAuth,
           Event.DeleteVariable VarName.MokDelAuth])) ∧
    ∃ w', check_mok_request sampleExt 4 4 sessionWorld = Res.ok (EFI_SUCCESS, w') ∧
      ∀ n ∈ [VarName.MokNew, VarName.MokDel, VarName.MokSB, VarName.MokPW,
        VarName.MokAuth, VarName.MokDelAuth], w'.vars n = none := by
  have hrun : (check_mok_request sampleExt 4 4 sessionWorld).map (fun r => (r.1, r.2.trace)) =
      Res.ok (EFI_SUCCESS,
        [Event.SetVariable VarName.MokList 67 sampleMokNew,
         Event.DeleteVariable VarName.MokNew, Event.DeleteVariable VarName.MokAuth,
         Event.Console "The system must now be rebooted", Event.ResetSystem,
         Event.Console "Failed to reboot",
         Event.DeleteVariable VarName.MokNew, Event.Console "Failed to delete MokNew",
         Event.DeleteVariable VarName.MokDel, Event.DeleteVariable VarName.MokSB,
         Event.DeleteVariable VarName.MokPW, Event.DeleteVariable VarName.MokAuth,
         Event.DeleteVariable VarName.MokDelAuth]) := by decide
  have hl : ∀ n ∈ [VarName.MokNew, VarName.MokDel, VarName.MokSB, VarName.MokPW,
      VarName.MokAuth, VarName.MokDelAuth], sessionWorld.locked n = false :=
    fun _ _ => rfl
  refine ⟨⟨hl, hrun⟩, ?_⟩
  obtain ⟨⟨st, w'⟩, hr, _⟩ := Res_map_ok hrun
  have hc := check_mok_request_cleans_up sampleExt 4 4 sessionWorld w' st hl hr
  refine ⟨w', ?_, hc.2⟩
  rw [hr, hc.1]

end MokManager
